import Mathlib

/-!
Verification development for the chatly repository.

The server core lives in src/server/src/index.ts (the first snapshot in that
file, lines 1-1264, which is the authoritative version; a second, older
snapshot of the same module follows a separator and is superseded).
The client-side WebRTC glare handling lives in
src/client/src/hooks/useWebRTC.ts, and the two-party room id derivation in
src/client/src/components/FriendsComponent.tsx.

The embedding models JavaScript values explicitly where the distinction
matters: board cells can hold null, undefined, or a string (JS strict
equality distinguishes null from undefined, and an out-of-range array read
yields undefined, not null), and string truthiness treats the empty string
as false.
-/

namespace Chatly

/-! ## JS value helpers -/

/-- A board cell as stored by the JS engine: null, undefined, or a string.
Out-of-range array reads produce undefined; assigning a missing field writes
undefined. -/
inductive Cell where
  | vnull : Cell
  | vundefined : Cell
  | vstr : String → Cell
deriving DecidableEq, Repr

/-- JS truthiness of a cell value: null and undefined are falsy, a string is
truthy unless empty. -/
def Cell.truthy : Cell → Bool
  | .vnull => false
  | .vundefined => false
  | .vstr s => s ≠ ""

/-- JS truthiness of a string-or-undefined value, as used by guards such as
"if (userId)" in the join handler: undefined and the empty string are falsy. -/
def optTruthy : Option String → Bool
  | some s => s ≠ ""
  | none => false

/-- JS strict equality between a string-or-null and a string-or-undefined
value: only two equal strings compare equal (null === undefined is false). -/
def jsStrEq : Option String → Option String → Bool
  | some a, some b => a = b
  | _, _ => false

/-- A cell obtained by assigning a string-or-undefined JS value (for example
"board[index] = player.symbol" where symbol may be absent from the payload). -/
def cellOfOpt : Option String → Cell
  | some s => .vstr s
  | none => .vundefined

/-- Uppercasing as used on room ids (toUpperCase); the ids handled by the
server are ASCII, on which this agrees with JS. -/
def toUpperJS (s : String) : String := ⟨s.data.map Char.toUpper⟩

/-- String.prototype.startsWith. -/
def startsWithJS (s pre : String) : Bool := pre.data.isPrefixOf s.data

/-- JS string comparison a < b: lexicographic on the code units (for the
identifiers involved here, equivalently on code points). -/
def jsStrLtL : List Char → List Char → Bool
  | [], [] => false
  | [], _ :: _ => true
  | _ :: _, [] => false
  | a :: as, b :: bs =>
    if a.toNat < b.toNat then true
    else if b.toNat < a.toNat then false
    else jsStrLtL as bs

def jsStrLt (a b : String) : Bool := jsStrLtL a.data b.data

/-! ## Two-party room id derivation (C9)

Source: src/client/src/components/FriendsComponent.tsx, startChat:
the two user ids are sorted (JS default sort compares strings) and
concatenated as "dm_" ++ smaller ++ "_" ++ larger. -/

/-- Two-party room id derivation from startChat: sort the pair of user ids
(JS Array.prototype.sort on two strings) and concatenate deterministically. -/
def deriveTwoPartyRoomId (a b : String) : String :=
  let ids := if jsStrLt b a then (b, a) else (a, b)
  "dm_" ++ ids.1 ++ "_" ++ ids.2

/-! ## Peer mesh glare handling (C3)

Source: src/client/src/hooks/useWebRTC.ts, the socket.on signal handler,
lines 333-375.  A peer record tracks which remote connection it is for,
whether this side initiated it, and whether the underlying peer object was
destroyed. -/

/-- A client-side peer record, as kept in peersRef.current. The fields of
the underlying simple-peer object that the signal handler inspects are the
destroyed flag; connectionState mirrors the record field of the source. -/
structure PeerRec where
  peerID : String
  isInitiator : Bool
  destroyed : Bool
  connectionState : String
deriving DecidableEq, Repr

/-- The socket.on signal handler of useWebRTC.ts. selfId is socket.id,
senderId the signal's origin, sigType the signal's type field ("offer" for
session offers). Signalling into an existing live peer does not change the
record list; the interesting transitions are the collision (glare) branch
and the add-responder branch. -/
def handleSignal (selfId senderId : String) (sigType : String)
    (peers : List PeerRec) : List PeerRec :=
  let item := peers.find? (fun p => p.peerID = senderId)
  match item with
  | some it =>
    if it.isInitiator ∧ sigType = "offer" then
      -- COLLISION HANDLING: tie-break on the connection ids
      if jsStrLt selfId senderId then
        -- surrender: destroy own initiator attempt, then accept the offer
        -- as a responder (the item is filtered out and the else-branch of
        -- the source pushes a fresh non-initiator record via addPeer)
        (peers.filter (fun p => p.peerID ≠ senderId)) ++
          [{ peerID := senderId, isInitiator := false, destroyed := false,
             connectionState := "connecting" }]
      else
        -- larger id: ignore their offer and wait for their answer
        peers
    else
      if it.destroyed then
        -- replace a destroyed record with a fresh responder record
        (peers.filter (fun p => p.peerID ≠ senderId)) ++
          [{ peerID := senderId, isInitiator := false, destroyed := false,
             connectionState := "connecting" }]
      else
        -- item.peer.signal(payload.signal): the record list is unchanged
        peers
  | none =>
    -- new or reconnecting peer: accept as responder via addPeer
    peers ++
      [{ peerID := senderId, isInitiator := false, destroyed := false,
         connectionState := "connecting" }]

/-- Both offers of a glare episode delivered, in either order. Side a holds
peer list pA, side b holds pB; each side processes the offer sent by the
other. firstToA chooses which delivery happens first; the two deliveries
act on disjoint state, which is what makes the outcome order-independent. -/
def glareDeliver (a b : String) (pA pB : List PeerRec) (firstToA : Bool) :
    List PeerRec × List PeerRec :=
  if firstToA then
    let pA' := handleSignal a b "offer" pA
    let pB' := handleSignal b a "offer" pB
    (pA', pB')
  else
    let pB' := handleSignal b a "offer" pB
    let pA' := handleSignal a b "offer" pA
    (pA', pB')

/-! ## Server data model

Source: src/server/src/index.ts (types at lines 48-76).  Rooms and users are
plain JS objects used as tables keyed by strings; the embedding uses
association lists with a lookup that returns the first (most recent) entry.
Each room carries a creation nonce (ref) standing for the identity of the
room object: timer and AI callbacks in the source close over the room object
itself, so their effects are visible in the table only while that very
object is still the table entry for its id. -/

/-- A member record (interface ChatUser in the source). -/
structure ChatUser where
  id : String
  userId : Option String
  username : String
  roomId : Option String
  isHost : Bool
  isMuted : Bool
deriving DecidableEq, Repr

/-- An entry of the players array supplied by the client in start_game.
The fields are the ones the handlers read: id, userId, username, the
tictactoe symbol, and the color added by the morris/connect4 branches. -/
structure Player where
  id : String
  userId : Option String
  username : String
  symbol : Option String
  color : Option String
deriving DecidableEq, Repr

/-- Tictactoe game state, per the start_game tictactoe branch. winReason is
absent initially and assigned dynamically by the timeout callback. -/
structure TTTState where
  board : List Cell
  turn : String
  players : List Player
  winner : Option String
  draw : Bool
  lastMoveTime : Nat
  winReason : Option String
deriving DecidableEq, Repr

/-- Nine men's morris game state, per the start_game ninemenmorris branch.
piecesPlaced and piecesOnBoard are JS objects keyed by the two player ids;
draw is absent initially and can only be assigned through the generic
tictactoe move path (make_move has no game-type guard in the source). -/
structure MorrisState where
  board : List Cell
  turn : String
  players : List Player
  winner : Option String
  phase : String
  piecesPlaced : List (String × Int)
  piecesOnBoard : List (String × Int)
  selectedPosition : Option Nat
  millFormed : Bool
  lastMoveTime : Nat
  winReason : Option String
  draw : Bool
deriving DecidableEq, Repr

/-- Connect4 game state, per the start_game connect4 branch: an 8x8 board of
rows. winReason is assigned dynamically by the timeout callback; no code
path ever assigns a draw flag to a connect4 state (its winner is set to the
string "draw" instead). -/
structure C4State where
  board : List (List Cell)
  turn : String
  players : List Player
  winner : Option String
  winningCells : List (Nat × Nat)
  lastMoveTime : Nat
  winReason : Option String
deriving DecidableEq, Repr

/-- The state blob of a room's game, by game type. The pingpong and
stacktower types have no turn timer and no claim concerns them; start_game
for those types is modelled as leaving the room's game absent. -/
inductive GameState where
  | tictactoe : TTTState → GameState
  | ninemenmorris : MorrisState → GameState
  | connect4 : C4State → GameState
deriving DecidableEq, Repr

def GameState.players : GameState → List Player
  | .tictactoe s => s.players
  | .ninemenmorris s => s.players
  | .connect4 s => s.players

def GameState.turn : GameState → String
  | .tictactoe s => s.turn
  | .ninemenmorris s => s.turn
  | .connect4 s => s.turn

def GameState.winner : GameState → Option String
  | .tictactoe s => s.winner
  | .ninemenmorris s => s.winner
  | .connect4 s => s.winner

/-- Reading game.state.draw: only a tictactoe state carries the property
from the start; a morris state can acquire it through the generic move
path; a connect4 state never has it (undefined, hence falsy). -/
def GameState.draw : GameState → Bool
  | .tictactoe s => s.draw
  | .ninemenmorris s => s.draw
  | .connect4 _ => false

def GameState.setLastMoveTime : GameState → Nat → GameState
  | .tictactoe s, t => .tictactoe {s with lastMoveTime := t}
  | .ninemenmorris s, t => .ninemenmorris {s with lastMoveTime := t}
  | .connect4 s, t => .connect4 {s with lastMoveTime := t}

def GameState.setWinner : GameState → String → GameState
  | .tictactoe s, w => .tictactoe {s with winner := some w}
  | .ninemenmorris s, w => .ninemenmorris {s with winner := some w}
  | .connect4 s, w => .connect4 {s with winner := some w}

def GameState.setWinReason : GameState → String → GameState
  | .tictactoe s, r => .tictactoe {s with winReason := some r}
  | .ninemenmorris s, r => .ninemenmorris {s with winReason := some r}
  | .connect4 s, r => .connect4 {s with winReason := some r}

def GameState.setPlayers : GameState → List Player → GameState
  | .tictactoe s, ps => .tictactoe {s with players := ps}
  | .ninemenmorris s, ps => .ninemenmorris {s with players := ps}
  | .connect4 s, ps => .connect4 {s with players := ps}

/-- The room.game record: the per-type state blob and the timer handle
(modelled by the numeric id of the pending timeout it refers to; clearing a
timeout does not reset this field, exactly as in the source). -/
structure Game where
  gs : GameState
  timer : Option Nat
deriving DecidableEq, Repr

structure RoomSettings where
  maxPlayers : Nat
  isPrivate : Bool
deriving DecidableEq, Repr

/-- A room record (interface ChatRoom). ref is the creation nonce standing
for the JS object identity of this room record. -/
structure Room where
  id : String
  hostId : String
  users : List ChatUser
  settings : RoomSettings
  game : Option Game
  ref : Nat
deriving DecidableEq, Repr

/-- An armed turn timeout: the timer id, the captured room id and room
object (by nonce), and the captured turnPlayerId. -/
structure PendingTimer where
  tid : Nat
  roomId : String
  ref : Nat
  turnPlayerId : String
deriving DecidableEq, Repr

/-- A scheduled AI move callback (the 600 ms setTimeout of the make_move
handler), with the values it closed over. -/
structure PendingAI where
  roomId : String
  ref : Nat
  aiPlayer : Player
deriving DecidableEq, Repr

/-- The whole in-memory server state: the rooms and users tables, the
outstanding timeouts, and the allocation counters for timer ids and room
nonces; clock models Date.now(). -/
structure ServerState where
  rooms : List (String × Room)
  users : List (String × ChatUser)
  pending : List PendingTimer
  pendingAI : List PendingAI
  nextTid : Nat
  nextRef : Nat
  clock : Nat
deriving DecidableEq, Repr

/-- An emitted socket.io event: the target (a socket id or a room channel)
and the event name. Payloads are elided: no claim inspects them. -/
structure Emit where
  target : String
  name : String
deriving DecidableEq, Repr

/-! ### Table helpers (JS objects used as string-keyed tables) -/

/-- Lookup in a string-keyed table (first entry wins; insertion puts the
new entry in front and drops the shadowed one, so this matches JS object
indexing). -/
def getEntry {α : Type} (k : String) : List (String × α) → Option α
  | [] => none
  | (k', v) :: rest => if k' = k then some v else getEntry k rest

/-- Assignment tbl[k] = v. -/
def setEntry {α : Type} (k : String) (v : α) (l : List (String × α)) : List (String × α) :=
  (k, v) :: l.filter (fun p => p.1 ≠ k)

/-- Deletion delete tbl[k]. -/
def delEntry {α : Type} (k : String) (l : List (String × α)) : List (String × α) :=
  l.filter (fun p => p.1 ≠ k)

/-- Reading a numeric field of a JS object used as a counter table
(piecesPlaced, piecesOnBoard); the keys are preset to the two player ids at
game start, so the default is never observed by reachable reads. -/
def getKV (k : String) (l : List (String × Int)) : Int :=
  (l.lookup k).getD 0

/-- Updating a numeric field of a counter table in place. -/
def bumpKV (k : String) (f : Int → Int) (l : List (String × Int)) : List (String × Int) :=
  l.map (fun p => if p.1 = k then (p.1, f p.2) else p)

/-- The identity a member contributes to the distinct-identity count:
u.userId || u.id (the empty string is falsy in JS). -/
def memberIdentity (u : ChatUser) : String :=
  match u.userId with
  | some s => if s = "" then u.id else s
  | none => u.id

/-- The set of distinct identities currently recorded in a member list
(the Set built at the top of the join_room handler). -/
def distinctIdentities (users : List ChatUser) : List String :=
  (users.map memberIdentity).dedup

/-! ### Timers -/

/-- clearTimeout / clearInterval on a handle: the matching timeout (if any)
no longer fires. -/
def clearTid (t : Nat) (pending : List PendingTimer) : List PendingTimer :=
  pending.filter (fun e => e.tid ≠ t)

/-- resetGameTimer (index.ts lines 153-176). The source receives the room
object; here its nonce ref and its game record are passed explicitly and
the updated game is returned. Clearing a timeout does not reset the
game.timer field; the field is overwritten only when a new timeout is
armed. -/
def resetGameTimer (st : ServerState) (roomId : String) (ref : Nat)
    (g : Game) (turnPlayerId : String) : ServerState × Game :=
  let st := match g.timer with
            | some t => {st with pending := clearTid t st.pending}
            | none => st
  -- AI moves instantly, no need for timer against it
  if turnPlayerId = "AI" then (st, g)
  else
    let g := {g with gs := g.gs.setLastMoveTime st.clock, timer := some st.nextTid}
    let st := {st with
      pending := st.pending ++
        [{tid := st.nextTid, roomId := roomId, ref := ref, turnPlayerId := turnPlayerId}],
      nextTid := st.nextTid + 1}
    (st, g)

/-- A pending timeout fires (the callback registered by resetGameTimer,
lines 161-175). The callback closed over the room object; its effects are
visible in the tables only while that object (identified by ref) is still
the entry for its room id. A timeout fires at most once, so the entry is
consumed. -/
def fireTimer (st : ServerState) (tid : Nat) : ServerState × List Emit :=
  match st.pending.find? (fun e => e.tid = tid) with
  | none => (st, [])
  | some e =>
    let st := {st with pending := clearTid tid st.pending}
    match getEntry e.roomId st.rooms with
    | none => (st, [])
    | some room =>
      if room.ref ≠ e.ref then (st, [])
      else
        match room.game with
        | none => (st, [])
        | some g =>
          -- Check availability just in case
          if optTruthy g.gs.winner || g.gs.draw then (st, [])
          else
            -- Winner is the *other* player (simplified for 2p)
            match g.gs.players.find? (fun p => p.id ≠ e.turnPlayerId) with
            | none => (st, [])
            | some w =>
              let g := {g with gs := (g.gs.setWinner w.id).setWinReason "timeout"}
              let room := {room with game := some g}
              ({st with rooms := setEntry e.roomId room st.rooms},
               [{target := e.roomId, name := "game_update"}])

/-! ### Tictactoe rule helpers (index.ts lines 79-142) -/

/-- Reading board[i]: an out-of-range read yields undefined. -/
def cellAt (board : List Cell) (i : Nat) : Cell :=
  (board.get? i).getD .vundefined

def winPatterns : List (Nat × Nat × Nat) :=
  [(0, 1, 2), (3, 4, 5), (6, 7, 8),
   (0, 3, 6), (1, 4, 7), (2, 5, 8),
   (0, 4, 8), (2, 4, 6)]

/-- checkWinner: returns the winning symbol (the truthy cell value of a
completed pattern), "draw" when the board holds no null cell, and null
(none) otherwise. -/
def checkWinner (board : List Cell) : Option String :=
  match winPatterns.find? (fun pat =>
    let a := cellAt board pat.1
    a.truthy && a == cellAt board pat.2.1 && a == cellAt board pat.2.2) with
  | some pat =>
    match cellAt board pat.1 with
    | .vstr s => some s
    | _ => none
  | none => if board.contains Cell.vnull then none else some "draw"

/-- minimax with explicit fuel; every call site passes fuel 9, which bounds
the number of empty cells among indices 0-8, so the fuel-exhausted branch
is unreachable and the function agrees with the source. The infinities of
the source are modelled by sentinels far outside the score range. -/
def minimax (fuel : Nat) (board : List Cell) (depth : Nat)
    (isMaximizing : Bool) (aiSymbol humanSymbol : Option String) : Int :=
  match fuel with
  | 0 => 0
  | fuel + 1 =>
    let result := checkWinner board
    if jsStrEq result aiSymbol then (10 : Int) - depth
    else if jsStrEq result humanSymbol then (depth : Int) - 10
    else if result == some "draw" then 0
    else if isMaximizing then
      (List.range 9).foldl (fun best i =>
        if cellAt board i == Cell.vnull then
          max best (minimax fuel (board.set i (cellOfOpt aiSymbol)) (depth + 1)
            false aiSymbol humanSymbol)
        else best) (-(2 ^ 62) : Int)
    else
      (List.range 9).foldl (fun best i =>
        if cellAt board i == Cell.vnull then
          min best (minimax fuel (board.set i (cellOfOpt humanSymbol)) (depth + 1)
            true aiSymbol humanSymbol)
        else best) ((2 ^ 62) : Int)

/-- getBestMove: -1 when no empty cell exists among indices 0-8. -/
def getBestMove (board : List Cell) (aiSymbol : Option String) : Int :=
  let humanSymbol : Option String := if aiSymbol == some "X" then some "O" else some "X"
  if (board.filter (fun c => c != Cell.vnull)).length = 0 then 4
  else
    ((List.range 9).foldl (fun acc i =>
      if cellAt board i == Cell.vnull then
        let score := minimax 9 (board.set i (cellOfOpt aiSymbol)) 0 false aiSymbol humanSymbol
        if score > acc.1 then (score, (i : Int)) else acc
      else acc) ((-(2 ^ 62) : Int), (-1 : Int))).2

/-! ### Membership handlers -/

/-- The create_room handler (lines 271-284). The randomly generated id is
supplied as the genId event parameter; the handler uppercases it and
overwrites any table entry of the same key, as the source does. -/
def createRoom (st : ServerState) (sock genId username : String)
    (userId : Option String) (isPrivate : Bool) : ServerState × List Emit :=
  let roomId := toUpperJS genId
  let newUser : ChatUser :=
    {id := sock, userId := userId, username := username, roomId := some roomId,
     isHost := true, isMuted := false}
  let room : Room :=
    {id := roomId, hostId := sock, users := [newUser],
     settings := {maxPlayers := 8, isPrivate := isPrivate}, game := none,
     ref := st.nextRef}
  ({st with users := setEntry sock newUser st.users,
            rooms := setEntry roomId room st.rooms,
            nextRef := st.nextRef + 1},
   [{target := sock, name := "room_created"},
    {target := roomId, name := "room_users_update"}])

/-- The join_room handler (lines 288-357). -/
def joinRoom (st : ServerState) (sock username : String)
    (userId : Option String) (roomId : String) : ServerState × List Emit :=
  let canonicalRoomId := toUpperJS roomId
  -- DM Room Auto-Creation
  let stRoom : ServerState × Option Room :=
    match getEntry canonicalRoomId st.rooms with
    | some r => (st, some r)
    | none =>
      if startsWithJS canonicalRoomId "DM_" then
        let r : Room :=
          {id := canonicalRoomId, hostId := sock, users := [],
           settings := {maxPlayers := 20, isPrivate := true}, game := none,
           ref := st.nextRef}
        ({st with rooms := setEntry canonicalRoomId r st.rooms,
                  nextRef := st.nextRef + 1}, some r)
      else (st, none)
  let st := stRoom.1
  match stRoom.2 with
  | none => (st, [{target := sock, name := "error"}])
  | some room =>
    let uniqueUserIds := distinctIdentities room.users
    let isSocketInRoom := room.users.any (fun u => u.id = sock)
    let isRejoining :=
      (optTruthy userId && uniqueUserIds.contains (userId.getD "")) || isSocketInRoom
    if !isRejoining && decide (uniqueUserIds.length ≥ room.settings.maxPlayers) then
      (st, [{target := sock, name := "error"}])
    else
      -- Host logic for rejoin
      let isHost0 := room.users.isEmpty
      let usersHost : List ChatUser × Bool :=
        if optTruthy userId then
          match room.users.find? (fun u => u.userId == userId) with
          | some old =>
            -- remove the OLD socket session for this user
            (room.users.eraseP (fun u => u.userId == userId), isHost0 || old.isHost)
          | none => (room.users, isHost0)
        else (room.users, isHost0)
      let newUser : ChatUser :=
        {id := sock, userId := userId, username := username,
         roomId := some room.id, isHost := usersHost.2, isMuted := false}
      let room := {room with users := usersHost.1 ++ [newUser]}
      let st := {st with users := setEntry sock newUser st.users,
                         rooms := setEntry canonicalRoomId room st.rooms}
      let gameEmits := match room.game with
        | some _ => [{target := sock, name := "game_started"}]
        | none => []
      (st, [{target := sock, name := "room_joined"},
            {target := room.id, name := "user_joined"},
            {target := room.id, name := "room_users_update"}] ++ gameEmits ++
           [{target := sock, name := "message_history"}])

/-- Promotion of the new host in the users table: in the source,
room.users[0] and users[room.users[0].id] are the same object, so writing
room.users[0].isHost is visible through the table entry as well; the
embedding mirrors that write onto the table entry of the promoted id. -/
def promoteHost (k : String) (tbl : List (String × ChatUser)) : List (String × ChatUser) :=
  tbl.map (fun p => if p.1 = k then (p.1, {p.2 with isHost := true}) else p)

/-- The disconnect handler (lines 1226-1259). -/
def handleDisconnect (st : ServerState) (sock : String) : ServerState × List Emit :=
  match getEntry sock st.users with
  | none => ({st with users := delEntry sock st.users}, [])
  | some user =>
    match user.roomId with
    | none => ({st with users := delEntry sock st.users}, [])
    | some rid =>
      match getEntry rid st.rooms with
      | none => ({st with users := delEntry sock st.users}, [])
      | some room =>
        let room := {room with users := room.users.filter (fun u => u.id ≠ sock)}
        let baseEmits := [{target := room.id, name := "user_left"},
                          {target := room.id, name := "room_users_update"}]
        -- Game cleanup if player leaves
        let cleanup : ServerState × Room × List Emit :=
          match room.game with
          | some g =>
            if g.gs.players.any (fun p => p.id = sock) then
              let st := match g.timer with
                        | some t => {st with pending := clearTid t st.pending}
                        | none => st
              (st, {room with game := none}, [{target := room.id, name := "game_ended"}])
            else (st, room, [])
          | none => (st, room, [])
        let st := cleanup.1
        let room := cleanup.2.1
        let gameEmits := cleanup.2.2
        if room.users.isEmpty then
          ({st with rooms := delEntry room.id (setEntry rid room st.rooms),
                    users := delEntry sock st.users},
           baseEmits ++ gameEmits)
        else if user.isHost then
          -- Reassign Host
          match room.users with
          | head :: tail =>
            let room := {room with users := {head with isHost := true} :: tail,
                                   hostId := head.id}
            ({st with rooms := setEntry rid room st.rooms,
                      users := delEntry sock (promoteHost head.id st.users)},
             baseEmits ++ gameEmits ++ [{target := room.id, name := "room_users_update"}])
          | [] =>
            ({st with rooms := setEntry rid room st.rooms,
                      users := delEntry sock st.users},
             baseEmits ++ gameEmits)
        else
          ({st with rooms := setEntry rid room st.rooms,
                    users := delEntry sock st.users},
           baseEmits ++ gameEmits)

/-! ### Morris rule helpers (defined inline in the morris_move handler,
index.ts lines 860-953; lifted to top level with the closed-over game
fields passed explicitly) -/

def mills : List (List Nat) :=
  [[0, 1, 2], [2, 3, 4], [4, 5, 6], [6, 7, 0],
   [8, 9, 10], [10, 11, 12], [12, 13, 14], [14, 15, 8],
   [16, 17, 18], [18, 19, 20], [20, 21, 22], [22, 23, 16],
   [1, 9, 17], [3, 11, 19], [5, 13, 21], [7, 15, 23]]

def checkMill (board : List Cell) (pos : Nat) (playerId : String) : Bool :=
  mills.any (fun mill =>
    mill.contains pos && mill.all (fun p => cellAt board p == Cell.vstr playerId))

/-- isInMill: the piece at pos must be truthy (a non-empty string). -/
def isInMill (board : List Cell) (pos : Nat) : Bool :=
  match cellAt board pos with
  | Cell.vstr s => if s = "" then false else checkMill board pos s
  | _ => false

def allPiecesInMills (board : List Cell) (playerId : String) : Bool :=
  (List.range 24).all (fun i =>
    !(cellAt board i == Cell.vstr playerId) || isInMill board i)

def adjacency : List (List Nat) :=
  [[1, 7], [0, 2, 9], [1, 3], [2, 4, 11], [3, 5], [4, 6, 13], [5, 7], [0, 6, 15],
   [9, 15], [1, 8, 10, 17], [9, 11], [3, 10, 12, 19], [11, 13], [5, 12, 14, 21],
   [13, 15], [7, 8, 14, 23],
   [17, 23], [9, 16, 18], [17, 19], [11, 18, 20], [19, 21], [13, 20, 22],
   [21, 23], [15, 16, 22]]

def adjOf (i : Nat) : List Nat := (adjacency.get? i).getD []

def hasValidMoves (board : List Cell) (piecesOnBoard : List (String × Int))
    (playerId : String) : Bool :=
  if getKV playerId piecesOnBoard == 3 then board.contains Cell.vnull
  else (List.range 24).any (fun i =>
    cellAt board i == Cell.vstr playerId &&
    (adjOf i).any (fun adj => cellAt board adj == Cell.vnull))

def hasRemovablePieces (board : List Cell) (opponentId : String) : Bool :=
  let allInMills := allPiecesInMills board opponentId
  (List.range 24).any (fun i =>
    cellAt board i == Cell.vstr opponentId && (!(isInMill board i) || allInMills))

/-! ### Game handlers -/

/-- ((players.findIndex(p.id === pid)) + 1) % players.length as JS computes
it: findIndex yields -1 when absent. Callers have already found the mover,
so the list is non-empty and the modulus is well defined. -/
def nextPlayerIdx (players : List Player) (pid : String) : Nat :=
  let idx : Int := match players.findIdx? (fun p => p.id = pid) with
    | some i => (i : Int)
    | none => -1
  ((idx + 1) % (players.length : Int)).toNat

/-- The start_game handler (lines 537-630). The pingpong and stacktower
branches create sessions with no turn timer and are outside every modelled
claim; they are embedded as leaving the room's game absent. When the
players payload is too short the source throws while building the state
literal, before room.game is assigned, so only the initial clearTimeout
survives. -/
def startGame (st : ServerState) (sock roomId gameType : String)
    (players : List Player) : ServerState × List Emit :=
  let canonicalRoomId := toUpperJS roomId
  match getEntry canonicalRoomId st.rooms, getEntry sock st.users with
  | some room, some user =>
    if user.isHost && user.roomId == some canonicalRoomId then
      -- Clear existing
      let st := match room.game with
                | some g =>
                  match g.timer with
                  | some t => {st with pending := clearTid t st.pending}
                  | none => st
                | none => st
      if gameType = "tictactoe" then
        match players with
        | [] => (st, [])
        | p0 :: _ =>
          let gs : GameState := .tictactoe
            {board := List.replicate 9 Cell.vnull, turn := p0.id, players := players,
             winner := none, draw := false, lastMoveTime := st.clock, winReason := none}
          let stG := resetGameTimer st canonicalRoomId room.ref {gs := gs, timer := none} p0.id
          let room := {room with game := some stG.2}
          ({stG.1 with rooms := setEntry canonicalRoomId room stG.1.rooms},
           [{target := canonicalRoomId, name := "game_started"}])
      else if gameType = "ninemenmorris" then
        match players with
        | p0 :: p1 :: _ =>
          let mplayers := players.enum.map (fun ip =>
            {ip.2 with color := some (if ip.1 = 0 then "red" else "blue")})
          let gs : GameState := .ninemenmorris
            {board := List.replicate 24 Cell.vnull, turn := p0.id, players := mplayers,
             winner := none, phase := "placing",
             piecesPlaced := [(p0.id, 0), (p1.id, 0)],
             piecesOnBoard := [(p0.id, 0), (p1.id, 0)],
             selectedPosition := none, millFormed := false,
             lastMoveTime := st.clock, winReason := none, draw := false}
          let stG := resetGameTimer st canonicalRoomId room.ref {gs := gs, timer := none} p0.id
          let room := {room with game := some stG.2}
          ({stG.1 with rooms := setEntry canonicalRoomId room stG.1.rooms},
           [{target := canonicalRoomId, name := "game_started"}])
        | _ => (st, [])
      else if gameType = "connect4" then
        match players with
        | [] => (st, [])
        | p0 :: _ =>
          let cplayers := players.enum.map (fun ip =>
            {ip.2 with color := some (if ip.1 = 0 then "red" else "blue")})
          let gs : GameState := .connect4
            {board := List.replicate 8 (List.replicate 8 Cell.vnull), turn := p0.id,
             players := cplayers, winner := none, winningCells := [],
             lastMoveTime := st.clock, winReason := none}
          let stG := resetGameTimer st canonicalRoomId room.ref {gs := gs, timer := none} p0.id
          let room := {room with game := some stG.2}
          ({stG.1 with rooms := setEntry canonicalRoomId room stG.1.rooms},
           [{target := canonicalRoomId, name := "game_started"}])
      else (st, [])
    else (st, [])
  | _, _ => (st, [])

/-- The make_move handler (lines 780-841). The source has no game-type
guard here: the guards read the generic winner/draw/turn fields, and the
occupancy check board[index] !== null is what rejects a connect4 state
(board[index] is a row array or undefined, never null). A move into a
morris state is possible and is embedded faithfully. When the turn passes
to "AI" the 600 ms AI callback is scheduled (modelled as a PendingAI
entry consumed by the ai_moves event). -/
def makeMove (st : ServerState) (sock roomId : String) (index : Nat) :
    ServerState × List Emit :=
  let canonicalRoomId := toUpperJS roomId
  match getEntry canonicalRoomId st.rooms with
  | none => (st, [])
  | some room =>
    match room.game with
    | none => (st, [])
    | some g =>
      -- Validation
      if optTruthy g.gs.winner || g.gs.draw then (st, [])
      else if g.gs.turn ≠ sock then (st, [])
      else
        match g.gs with
        | .connect4 _ => (st, [])
        | .tictactoe ts =>
          if cellAt ts.board index != Cell.vnull then (st, [])
          else
            match ts.players.find? (fun p => p.id = sock) with
            | none => (st, [])
            | some player =>
              -- Execute Move
              let board := ts.board.set index (cellOfOpt player.symbol)
              let winnerSymbol := checkWinner board
              -- Check Status
              let stG : ServerState × Game :=
                if jsStrEq winnerSymbol player.symbol then
                  let st := match g.timer with
                            | some t => {st with pending := clearTid t st.pending}
                            | none => st
                  (st, {g with gs := .tictactoe {ts with board := board, winner := some sock}})
                else if winnerSymbol == some "draw" then
                  let st := match g.timer with
                            | some t => {st with pending := clearTid t st.pending}
                            | none => st
                  (st, {g with gs := .tictactoe {ts with board := board, draw := true}})
                else
                  let turn := ((ts.players.get? (nextPlayerIdx ts.players sock)).map
                    (fun p => p.id)).getD ""
                  resetGameTimer st canonicalRoomId room.ref
                    {g with gs := .tictactoe {ts with board := board, turn := turn}} turn
              let st := stG.1
              let g := stG.2
              let room := {room with game := some g}
              let st := {st with rooms := setEntry canonicalRoomId room st.rooms}
              -- AI Logic
              let aiSched : List PendingAI :=
                if !optTruthy g.gs.winner && !g.gs.draw && g.gs.turn = "AI" then
                  match g.gs.players.find? (fun p => p.id = "AI") with
                  | some aiPlayer => [{roomId := canonicalRoomId, ref := room.ref, aiPlayer := aiPlayer}]
                  | none => []
                else []
              ({st with pendingAI := st.pendingAI ++ aiSched},
               [{target := canonicalRoomId, name := "game_update"}])
        | .ninemenmorris ms =>
          if cellAt ms.board index != Cell.vnull then (st, [])
          else
            match ms.players.find? (fun p => p.id = sock) with
            | none => (st, [])
            | some player =>
              let board := ms.board.set index (cellOfOpt player.symbol)
              let winnerSymbol := checkWinner board
              let stG : ServerState × Game :=
                if jsStrEq winnerSymbol player.symbol then
                  let st := match g.timer with
                            | some t => {st with pending := clearTid t st.pending}
                            | none => st
                  (st, {g with gs := .ninemenmorris {ms with board := board, winner := some sock}})
                else if winnerSymbol == some "draw" then
                  let st := match g.timer with
                            | some t => {st with pending := clearTid t st.pending}
                            | none => st
                  (st, {g with gs := .ninemenmorris {ms with board := board, draw := true}})
                else
                  let turn := ((ms.players.get? (nextPlayerIdx ms.players sock)).map
                    (fun p => p.id)).getD ""
                  resetGameTimer st canonicalRoomId room.ref
                    {g with gs := .ninemenmorris {ms with board := board, turn := turn}} turn
              let st := stG.1
              let g := stG.2
              let room := {room with game := some g}
              let st := {st with rooms := setEntry canonicalRoomId room st.rooms}
              let aiSched : List PendingAI :=
                if !optTruthy g.gs.winner && !g.gs.draw && g.gs.turn = "AI" then
                  match g.gs.players.find? (fun p => p.id = "AI") with
                  | some aiPlayer => [{roomId := canonicalRoomId, ref := room.ref, aiPlayer := aiPlayer}]
                  | none => []
                else []
              ({st with pendingAI := st.pendingAI ++ aiSched},
               [{target := canonicalRoomId, name := "game_update"}])

/-- Passing the morris turn: game.turn = opponent.id, a Date.now()
timestamp, then resetGameTimer. -/
def morrisAdvance (st : ServerState) (canonicalRoomId : String) (ref : Nat)
    (timer : Option Nat) (ms : MorrisState) (oppId : String) : ServerState × Game :=
  let ms := {ms with turn := oppId, lastMoveTime := st.clock}
  resetGameTimer st canonicalRoomId ref {gs := .ninemenmorris ms, timer := timer} oppId

/-- The morris_move handler (lines 844-1136). The only early return inside
the phase logic is the occupied-position check of the placing phase (which
skips the final emit); every other branch falls through to the win/draw
check and the game_update emit. A missing opponent would make the source
throw at the first use of opponent.id; no modelled claim touches games
with fewer than two players. -/
def morrisMove (st : ServerState) (sock roomId : String) (position : Nat) :
    ServerState × List Emit :=
  let canonicalRoomId := toUpperJS roomId
  match getEntry canonicalRoomId st.rooms with
  | none => (st, [])
  | some room =>
    match room.game with
    | none => (st, [])
    | some g =>
      match g.gs with
      | .tictactoe _ => (st, [])
      | .connect4 _ => (st, [])
      | .ninemenmorris ms =>
        if optTruthy ms.winner then (st, [])
        else if ms.turn ≠ sock then (st, [])
        else
          match ms.players.find? (fun p => p.id = sock) with
          | none => (st, [])
          | some player =>
            match ms.players.find? (fun p => p.id ≠ sock) with
            | none => (st, [])
            | some opponent =>
              let phaseRes : Option (ServerState × Game) :=
                if ms.phase = "removing" then
                  some (
                    if cellAt ms.board position == Cell.vstr opponent.id then
                      let pieceInMill := isInMill ms.board position
                      let allOpponentInMills := allPiecesInMills ms.board opponent.id
                      if !pieceInMill || allOpponentInMills then
                        let ms := {ms with
                          board := ms.board.set position Cell.vnull,
                          piecesOnBoard := bumpKV opponent.id (fun n => n - 1) ms.piecesOnBoard,
                          millFormed := false}
                        let phase :=
                          if getKV player.id ms.piecesPlaced < 9 ||
                             getKV opponent.id ms.piecesPlaced < 9 then "placing"
                          else if getKV sock ms.piecesOnBoard == 3 ||
                                  getKV opponent.id ms.piecesOnBoard == 3 then "flying"
                          else "moving"
                        morrisAdvance st canonicalRoomId room.ref g.timer
                          {ms with phase := phase} opponent.id
                      else (st, g)
                    else (st, g))
                else if ms.phase = "placing" then
                  if cellAt ms.board position != Cell.vnull then none
                  else
                    some (
                      -- Place piece
                      let ms := {ms with
                        board := ms.board.set position (Cell.vstr sock),
                        piecesPlaced := bumpKV sock (fun n => n + 1) ms.piecesPlaced,
                        piecesOnBoard := bumpKV sock (fun n => n + 1) ms.piecesOnBoard}
                      if checkMill ms.board position sock then
                        if hasRemovablePieces ms.board opponent.id then
                          (st, ({gs := .ninemenmorris {ms with phase := "removing", millFormed := true},
                                 timer := g.timer} : Game))
                        else
                          let ms := if getKV player.id ms.piecesPlaced ≥ 9 &&
                                       getKV opponent.id ms.piecesPlaced ≥ 9
                                    then {ms with phase := "moving"} else ms
                          morrisAdvance st canonicalRoomId room.ref g.timer ms opponent.id
                      else
                        let ms := if getKV player.id ms.piecesPlaced ≥ 9 &&
                                     getKV opponent.id ms.piecesPlaced ≥ 9
                                  then {ms with phase := "moving"} else ms
                        morrisAdvance st canonicalRoomId room.ref g.timer ms opponent.id)
                else if ms.phase = "moving" then
                  some (
                    match ms.selectedPosition with
                    | none =>
                      if cellAt ms.board position == Cell.vstr sock then
                        (st, ({gs := .ninemenmorris {ms with selectedPosition := some position},
                               timer := g.timer} : Game))
                      else (st, g)
                    | some sel =>
                      if cellAt ms.board position == Cell.vnull then
                        if (adjOf sel).contains position then
                          -- Move piece
                          let ms := {ms with
                            board := (ms.board.set position (Cell.vstr sock)).set sel Cell.vnull,
                            selectedPosition := none}
                          if checkMill ms.board position sock then
                            if hasRemovablePieces ms.board opponent.id then
                              (st, ({gs := .ninemenmorris {ms with phase := "removing", millFormed := true},
                                     timer := g.timer} : Game))
                            else
                              let ms := if getKV sock ms.piecesOnBoard == 3
                                        then {ms with phase := "flying"} else ms
                              morrisAdvance st canonicalRoomId room.ref g.timer ms opponent.id
                          else
                            let ms := if getKV sock ms.piecesOnBoard == 3
                                      then {ms with phase := "flying"} else ms
                            morrisAdvance st canonicalRoomId room.ref g.timer ms opponent.id
                        else (st, g)
                      else if cellAt ms.board position == Cell.vstr sock then
                        -- Reselect different piece
                        (st, ({gs := .ninemenmorris {ms with selectedPosition := some position},
                               timer := g.timer} : Game))
                      else (st, g))
                else if ms.phase = "flying" then
                  some (
                    match ms.selectedPosition with
                    | none =>
                      if cellAt ms.board position == Cell.vstr sock then
                        (st, ({gs := .ninemenmorris {ms with selectedPosition := some position},
                               timer := g.timer} : Game))
                      else (st, g)
                    | some sel =>
                      if cellAt ms.board position == Cell.vnull then
                        -- Fly to any empty position
                        let ms := {ms with
                          board := (ms.board.set position (Cell.vstr sock)).set sel Cell.vnull,
                          selectedPosition := none}
                        if checkMill ms.board position sock then
                          if hasRemovablePieces ms.board opponent.id then
                            (st, ({gs := .ninemenmorris {ms with phase := "removing", millFormed := true},
                                   timer := g.timer} : Game))
                          else
                            morrisAdvance st canonicalRoomId room.ref g.timer ms opponent.id
                        else
                          morrisAdvance st canonicalRoomId room.ref g.timer ms opponent.id
                      else if cellAt ms.board position == Cell.vstr sock then
                        -- Reselect
                        (st, ({gs := .ninemenmorris {ms with selectedPosition := some position},
                               timer := g.timer} : Game))
                      else (st, g))
                else some (st, g)
              match phaseRes with
              | none => (st, [])
              | some stG =>
                let st := stG.1
                let g := stG.2
                -- Check win/draw conditions
                let stG2 : ServerState × Game :=
                  match g.gs with
                  | .ninemenmorris ms2 =>
                    if ms2.phase ≠ "placing" && ms2.phase ≠ "removing" then
                      if getKV opponent.id ms2.piecesOnBoard < 3 then
                        let st := match g.timer with
                                  | some t => {st with pending := clearTid t st.pending}
                                  | none => st
                        (st, {g with gs := .ninemenmorris {ms2 with winner := some sock}})
                      else if !(hasValidMoves ms2.board ms2.piecesOnBoard opponent.id) then
                        let st := match g.timer with
                                  | some t => {st with pending := clearTid t st.pending}
                                  | none => st
                        (st, {g with gs := .ninemenmorris {ms2 with
                          winner := some "draw", winReason := some "stalemate"}})
                      else (st, g)
                    else (st, g)
                  | _ => (st, g)
                let st := stG2.1
                let room := {room with game := some stG2.2}
                ({st with rooms := setEntry canonicalRoomId room st.rooms},
                 [{target := canonicalRoomId, name := "game_update"}])

/-! ### Connect4 handler (lines 1139-1223) -/

/-- Reading game.board[r][c] of a connect4 state. -/
def c4At (board : List (List Cell)) (r c : Nat) : Cell :=
  (((board.get? r).getD []).get? c).getD .vundefined

def c4Set (board : List (List Cell)) (r c : Nat) (v : Cell) : List (List Cell) :=
  match board.get? r with
  | some row => board.set r (row.set c v)
  | none => board

/-- One direction of the win scan: up to three steps from (row, col) along
(dr, dc), collecting cells while in bounds and owned by player. -/
def countDir (board : List (List Cell)) (row col : Nat) (dr dc : Int)
    (player : String) : List (Nat × Nat) :=
  let step := fun (i : Nat) =>
    let r : Int := (row : Int) + dr * (i : Int)
    let c : Int := (col : Int) + dc * (i : Int)
    if decide (0 ≤ r) && decide (r < 8) && decide (0 ≤ c) && decide (c < 8) &&
       (c4At board r.toNat c.toNat == Cell.vstr player)
    then some (r.toNat, c.toNat) else none
  match step 1 with
  | none => []
  | some p1 =>
    match step 2 with
    | none => [p1]
    | some p2 =>
      match step 3 with
      | none => [p1, p2]
      | some p3 => [p1, p2, p3]

/-- The checkWin closure of connect4_move: the first direction with four in
a row wins, producing the winning cells in source push order. -/
def c4CheckWin (board : List (List Cell)) (row col : Nat) (player : String) :
    Option (List (Nat × Nat)) :=
  let dirs : List (Int × Int) := [(0, 1), (1, 0), (1, 1), (1, -1)]
  (dirs.filterMap (fun d =>
    let fwd := countDir board row col d.1 d.2 player
    let bwd := countDir board row col (-d.1) (-d.2) player
    if 1 + fwd.length + bwd.length ≥ 4 then some ((row, col) :: fwd ++ bwd)
    else none)).head?

/-- The connect4_move handler (lines 1139-1223). A missing opponent would
make the source throw after the piece was placed; that corner keeps the
placement and emits nothing. -/
def connect4Move (st : ServerState) (sock roomId : String) (column : Int) :
    ServerState × List Emit :=
  let canonicalRoomId := toUpperJS roomId
  match getEntry canonicalRoomId st.rooms with
  | none => (st, [])
  | some room =>
    match room.game with
    | none => (st, [])
    | some g =>
      match g.gs with
      | .tictactoe _ => (st, [])
      | .ninemenmorris _ => (st, [])
      | .connect4 cs =>
        if optTruthy cs.winner then (st, [])
        else if cs.turn ≠ sock then (st, [])
        -- Check valid column (8 cols)
        else if decide (column < 0) || decide (column ≥ 8) then (st, [])
        else
          let col := column.toNat
          -- Find lowest empty row in column (8 rows)
          match (List.range 8).reverse.find? (fun r => c4At cs.board r col == Cell.vnull) with
          | none => (st, [])
          | some rowToPlace =>
            -- Place piece
            let board := c4Set cs.board rowToPlace col (Cell.vstr sock)
            match c4CheckWin board rowToPlace col sock with
            | some winningCells =>
              let st := match g.timer with
                        | some t => {st with pending := clearTid t st.pending}
                        | none => st
              let room := {room with game := some {g with gs := .connect4 {cs with
                board := board, winner := some sock, winningCells := winningCells}}}
              ({st with rooms := setEntry canonicalRoomId room st.rooms},
               [{target := canonicalRoomId, name := "game_update"}])
            | none =>
              -- Check Draw (Full Board)
              if board.all (fun row => row.all (fun cell => cell != Cell.vnull)) then
                let st := match g.timer with
                          | some t => {st with pending := clearTid t st.pending}
                          | none => st
                let room := {room with game := some {g with gs := .connect4 {cs with
                  board := board, winner := some "draw"}}}
                ({st with rooms := setEntry canonicalRoomId room st.rooms},
                 [{target := canonicalRoomId, name := "game_update"}])
              else
                -- Switch Turn
                match cs.players.find? (fun p => p.id ≠ sock) with
                | none =>
                  let room := {room with game := some {g with gs := .connect4 {cs with
                    board := board}}}
                  ({st with rooms := setEntry canonicalRoomId room st.rooms}, [])
                | some opponent =>
                  let cs := {cs with board := board, turn := opponent.id, lastMoveTime := st.clock}
                  let stG := resetGameTimer st canonicalRoomId room.ref
                    {g with gs := .connect4 cs} opponent.id
                  let room := {room with game := some stG.2}
                  ({stG.1 with rooms := setEntry canonicalRoomId room stG.1.rooms},
                   [{target := canonicalRoomId, name := "game_update"}])

/-- The restart_game handler (lines 686-762). With fewer than the players
the per-type reset needs, the source throws part-way through the field
assignments; the embedding applies exactly the assignments preceding the
throw and skips the emit. -/
def restartGame (st : ServerState) (sock roomId : String) : ServerState × List Emit :=
  let canonicalRoomId := toUpperJS roomId
  match getEntry canonicalRoomId st.rooms, getEntry sock st.users with
  | some room, some user =>
    match room.game with
    | none => (st, [])
    | some g =>
      if user.isHost then
        -- Re-sync players with current room users (reconnects get new socket ids)
        let gamePlayers := g.gs.players
        let players :=
          if room.users.length ≥ 2 then
            gamePlayers.map (fun gp =>
              match room.users.find? (fun u => u.userId == gp.userId) with
              | some foundUser => {gp with id := foundUser.id, username := foundUser.username}
              | none => gp)
          else gamePlayers
        let g := if room.users.length ≥ 2 then {g with gs := g.gs.setPlayers players} else g
        let st := match g.timer with
                  | some t => {st with pending := clearTid t st.pending}
                  | none => st
        match g.gs with
        | .tictactoe ts =>
          match players with
          | [] =>
            let room := {room with game := some {g with gs := .tictactoe {ts with
              board := List.replicate 9 Cell.vnull, winner := none, draw := false}}}
            ({st with rooms := setEntry canonicalRoomId room st.rooms}, [])
          | p0 :: _ =>
            let ts := {ts with board := List.replicate 9 Cell.vnull, winner := none,
                               draw := false, turn := p0.id, lastMoveTime := st.clock}
            let stG := resetGameTimer st canonicalRoomId room.ref
              {g with gs := .tictactoe ts} p0.id
            let room := {room with game := some stG.2}
            ({stG.1 with rooms := setEntry canonicalRoomId room stG.1.rooms},
             [{target := canonicalRoomId, name := "game_update"}])
        | .ninemenmorris ms =>
          match players with
          | p0 :: p1 :: _ =>
            let ms := {ms with board := List.replicate 24 Cell.vnull, winner := none,
                               winReason := none, phase := "placing", turn := p0.id,
                               piecesPlaced := [(p0.id, 0), (p1.id, 0)],
                               piecesOnBoard := [(p0.id, 0), (p1.id, 0)],
                               selectedPosition := none, millFormed := false,
                               lastMoveTime := st.clock}
            let stG := resetGameTimer st canonicalRoomId room.ref
              {g with gs := .ninemenmorris ms} p0.id
            let room := {room with game := some stG.2}
            ({stG.1 with rooms := setEntry canonicalRoomId room stG.1.rooms},
             [{target := canonicalRoomId, name := "game_update"}])
          | [p0] =>
            let room := {room with game := some {g with gs := .ninemenmorris {ms with
              board := List.replicate 24 Cell.vnull, winner := none,
              winReason := none, phase := "placing", turn := p0.id}}}
            ({st with rooms := setEntry canonicalRoomId room st.rooms}, [])
          | [] =>
            let room := {room with game := some {g with gs := .ninemenmorris {ms with
              board := List.replicate 24 Cell.vnull, winner := none,
              winReason := none, phase := "placing"}}}
            ({st with rooms := setEntry canonicalRoomId room st.rooms}, [])
        | .connect4 cs =>
          match players with
          | [] =>
            let room := {room with game := some {g with gs := .connect4 {cs with
              board := List.replicate 8 (List.replicate 8 Cell.vnull),
              winner := none, winningCells := []}}}
            ({st with rooms := setEntry canonicalRoomId room st.rooms}, [])
          | p0 :: _ =>
            let cs := {cs with board := List.replicate 8 (List.replicate 8 Cell.vnull),
                               winner := none, winningCells := [], turn := p0.id,
                               lastMoveTime := st.clock}
            let stG := resetGameTimer st canonicalRoomId room.ref
              {g with gs := .connect4 cs} p0.id
            let room := {room with game := some stG.2}
            ({stG.1 with rooms := setEntry canonicalRoomId room stG.1.rooms},
             [{target := canonicalRoomId, name := "game_update"}])
      else (st, [])
  | _, _ => (st, [])

/-- The end_game handler (lines 764-778). -/
def endGame (st : ServerState) (sock roomId : String) : ServerState × List Emit :=
  let canonicalRoomId := toUpperJS roomId
  match getEntry canonicalRoomId st.rooms, getEntry sock st.users with
  | some room, some user =>
    if user.isHost then
      match room.game with
      | some g =>
        let st := match g.timer with
                  | some t => {st with pending := clearTid t st.pending}
                  | none => st
        let room := {room with game := none}
        ({st with rooms := setEntry canonicalRoomId room st.rooms},
         [{target := canonicalRoomId, name := "game_ended"}])
      | none => (st, [])
    else (st, [])
  | _, _ => (st, [])

/-- The scheduled AI callback of make_move fires (lines 816-839). Like the
turn-timeout callback it closed over the room object, so its effects are
visible only while that object is still the table entry. On a connect4
state getBestMove finds no null cell among the rows and returns -1. -/
def aiFire (st : ServerState) (ref : Nat) : ServerState × List Emit :=
  match st.pendingAI.find? (fun e => e.ref = ref) with
  | none => (st, [])
  | some e =>
    let st := {st with pendingAI := st.pendingAI.eraseP (fun x => x.ref = ref)}
    match getEntry e.roomId st.rooms with
    | none => (st, [])
    | some room =>
      if room.ref ≠ e.ref then (st, [])
      else
        match room.game with
        | none => (st, [])
        | some g =>
          -- Re-validate state inside timeout
          if optTruthy g.gs.winner || g.gs.draw then (st, [])
          else
            match g.gs with
            | .connect4 _ => (st, [])
            | .tictactoe ts =>
              let bestMove := getBestMove ts.board e.aiPlayer.symbol
              if bestMove = -1 then (st, [])
              else
                let board := ts.board.set bestMove.toNat (cellOfOpt e.aiPlayer.symbol)
                let w := checkWinner board
                let stG : ServerState × Game :=
                  if jsStrEq w e.aiPlayer.symbol then
                    let st := match g.timer with
                              | some t => {st with pending := clearTid t st.pending}
                              | none => st
                    (st, {g with gs := .tictactoe {ts with board := board, winner := some "AI"}})
                  else if w == some "draw" then
                    let st := match g.timer with
                              | some t => {st with pending := clearTid t st.pending}
                              | none => st
                    (st, {g with gs := .tictactoe {ts with board := board, draw := true}})
                  else
                    let turn := ((ts.players.get? (nextPlayerIdx ts.players "AI")).map
                      (fun p => p.id)).getD ""
                    resetGameTimer st e.roomId room.ref
                      {g with gs := .tictactoe {ts with board := board, turn := turn}} turn
                let room := {room with game := some stG.2}
                ({stG.1 with rooms := setEntry e.roomId room stG.1.rooms},
                 [{target := e.roomId, name := "game_update"}])
            | .ninemenmorris ms =>
              let bestMove := getBestMove ms.board e.aiPlayer.symbol
              if bestMove = -1 then (st, [])
              else
                let board := ms.board.set bestMove.toNat (cellOfOpt e.aiPlayer.symbol)
                let w := checkWinner board
                let stG : ServerState × Game :=
                  if jsStrEq w e.aiPlayer.symbol then
                    let st := match g.timer with
                              | some t => {st with pending := clearTid t st.pending}
                              | none => st
                    (st, {g with gs := .ninemenmorris {ms with board := board, winner := some "AI"}})
                  else if w == some "draw" then
                    let st := match g.timer with
                              | some t => {st with pending := clearTid t st.pending}
                              | none => st
                    (st, {g with gs := .ninemenmorris {ms with board := board, draw := true}})
                  else
                    let turn := ((ms.players.get? (nextPlayerIdx ms.players "AI")).map
                      (fun p => p.id)).getD ""
                    resetGameTimer st e.roomId room.ref
                      {g with gs := .ninemenmorris {ms with board := board, turn := turn}} turn
                let room := {room with game := some stG.2}
                ({stG.1 with rooms := setEntry e.roomId room stG.1.rooms},
                 [{target := e.roomId, name := "game_update"}])

/-! ### Events and runs -/

/-- The boundary events the modelled claims quantify over, plus the firing
of the two kinds of scheduled callbacks and a clock tick. Handlers that
never touch membership, games or timers (send_message, mark_read,
toggle_mute, get_room_state, the call/signal relays, paddle_move,
stack_place, register_session) are omitted: no modelled claim mentions
them and they do not affect the modelled state. -/
inductive Event where
  | create_room (sock genId username : String) (userId : Option String) (isPrivate : Bool)
  | join_room (sock username : String) (userId : Option String) (roomId : String)
  | disconnect (sock : String)
  | start_game (sock roomId gameType : String) (players : List Player)
  | make_move (sock roomId : String) (index : Nat)
  | morris_move (sock roomId : String) (position : Nat)
  | connect4_move (sock roomId : String) (column : Int)
  | restart_game (sock roomId : String)
  | end_game (sock roomId : String)
  | timer_fires (tid : Nat)
  | ai_moves (ref : Nat)
  | tick
deriving DecidableEq, Repr

def handleEvent (st : ServerState) : Event → ServerState × List Emit
  | .create_room sock genId username userId isPrivate =>
    createRoom st sock genId username userId isPrivate
  | .join_room sock username userId roomId => joinRoom st sock username userId roomId
  | .disconnect sock => handleDisconnect st sock
  | .start_game sock roomId gameType players => startGame st sock roomId gameType players
  | .make_move sock roomId index => makeMove st sock roomId index
  | .morris_move sock roomId position => morrisMove st sock roomId position
  | .connect4_move sock roomId column => connect4Move st sock roomId column
  | .restart_game sock roomId => restartGame st sock roomId
  | .end_game sock roomId => endGame st sock roomId
  | .timer_fires tid => fireTimer st tid
  | .ai_moves ref => aiFire st ref
  | .tick => ({st with clock := st.clock + 1}, [])

def stepEvent (st : ServerState) (e : Event) : ServerState := (handleEvent st e).1

def initialState : ServerState :=
  {rooms := [], users := [], pending := [], pendingAI := [],
   nextTid := 0, nextRef := 0, clock := 0}

def runEvents (evts : List Event) : ServerState := evts.foldl stepEvent initialState

/-- The timer handle recorded in the game of the room at key k (room.game.timer
read through the two option layers). -/
def gameTimerAt (st : ServerState) (k : String) : Option Nat :=
  match getEntry k st.rooms with
  | some room =>
    match room.game with
    | some g => g.timer
    | none => none
  | none => none

/-- The timer bookkeeping invariant of the server state: timer ids and room
nonces are allocation-fresh, room nonces are table-injective, every pending
timeout is the one recorded in the game.timer field of the room object it
closed over, and no two pending timeouts reference the same room object. -/
structure TimerInv (st : ServerState) : Prop where
  tidFresh : ∀ e ∈ st.pending, e.tid < st.nextTid
  pendRefFresh : ∀ e ∈ st.pending, e.ref < st.nextRef
  roomRefFresh : ∀ k room, getEntry k st.rooms = some room → room.ref < st.nextRef
  gameTidFresh : ∀ k room g t, getEntry k st.rooms = some room → room.game = some g →
    g.timer = some t → t < st.nextTid
  refInj : ∀ k₁ room₁ k₂ room₂, getEntry k₁ st.rooms = some room₁ →
    getEntry k₂ st.rooms = some room₂ → room₁.ref = room₂.ref → k₁ = k₂
  link : ∀ e ∈ st.pending, ∀ k room, getEntry k st.rooms = some room →
    room.ref = e.ref → e.roomId = k ∧ room.game.map Game.timer = some (some e.tid)
  uniq : ∀ e₁ ∈ st.pending, ∀ e₂ ∈ st.pending, e₁.ref = e₂.ref → e₁ = e₂

/-- The bookkeeping state in the middle of a game handler: the room at key k
has been read but not yet written back, st1 is the evolving state (rooms
untouched since st0) and og is the game value about to be written into the
room. The clauses are the parts of TimerInv that mention the pending list,
with the link clause for the room being updated redirected to og. -/
structure MidInv (st0 : ServerState) (k : String) (room : Room)
    (st1 : ServerState) (og : Option Game) : Prop where
  mRoomsEq : st1.rooms = st0.rooms
  mNextRefEq : st1.nextRef = st0.nextRef
  mNextTidLe : st0.nextTid ≤ st1.nextTid
  mRoomRefBound : room.ref < st1.nextRef
  mTidFresh : ∀ e ∈ st1.pending, e.tid < st1.nextTid
  mRefFresh : ∀ e ∈ st1.pending, e.ref < st1.nextRef
  mLinkOther : ∀ e ∈ st1.pending, e.ref ≠ room.ref → ∀ j room2,
    getEntry j st0.rooms = some room2 → room2.ref = e.ref →
    e.roomId = j ∧ room2.game.map Game.timer = some (some e.tid)
  mLinkSelf : ∀ e ∈ st1.pending, e.ref = room.ref →
    e.roomId = k ∧ og.map Game.timer = some (some e.tid)
  mOgFresh : ∀ t, og.map Game.timer = some (some t) → t < st1.nextTid
  mUniq : ∀ e₁ ∈ st1.pending, ∀ e₂ ∈ st1.pending, e₁.ref = e₂.ref → e₁ = e₂

/-- The room record auto-created for a DM channel by the join_room handler
(named here for reuse in proofs; identical to the literal in joinRoom). -/
def dmRoom (roomId sock : String) (ref : Nat) : Room :=
  {id := roomId, hostId := sock, users := [],
   settings := {maxPlayers := 20, isPrivate := true}, game := none, ref := ref}

/-- A trace that creates a room and starts a tictactoe game, arming the
first turn timer (tid 0). -/
def c2Trace : List Event :=
  [.create_room "s1" "room01" "alice" none false,
   .start_game "s1" "room01" "tictactoe"
     [{id := "s1", userId := none, username := "alice", symbol := some "X", color := none},
      {id := "s2", userId := none, username := "bob", symbol := some "O", color := none}]]

/-- An event trace that drives a default room (capacity 8) to nine distinct
identities: eight distinct users fill the room, then the first connection
(already a member, hence always treated as a rejoin) joins again under a
fresh userId, bypassing the capacity check without removing any record. -/
def c1Trace : List Event :=
  [.create_room "s1" "room01" "n1" (some "u1") false,
   .join_room "s2" "n2" (some "u2") "ROOM01",
   .join_room "s3" "n3" (some "u3") "ROOM01",
   .join_room "s4" "n4" (some "u4") "ROOM01",
   .join_room "s5" "n5" (some "u5") "ROOM01",
   .join_room "s6" "n6" (some "u6") "ROOM01",
   .join_room "s7" "n7" (some "u7") "ROOM01",
   .join_room "s8" "n8" (some "u8") "ROOM01",
   .join_room "s1" "n1" (some "u9") "ROOM01"]

/-- The concrete room reached by create_room with genId r and userId u1,
used by the C4 witness. -/
def c4Room : Room :=
  {id := "R", hostId := "A",
   users := [{id := "A", userId := some "u1", username := "alice",
              roomId := some "R", isHost := true, isMuted := false}],
   settings := {maxPlayers := 8, isPrivate := false}, game := none, ref := 0}

def c4State : ServerState := runEvents [.create_room "A" "r" "alice" (some "u1") false]

def c5Room : Room :=
  {id := "R", hostId := "A",
   users := [{id := "A", userId := none, username := "alice",
              roomId := some "R", isHost := true, isMuted := false}],
   settings := {maxPlayers := 8, isPrivate := false}, game := none, ref := 0}

def c5State : ServerState := runEvents [.create_room "A" "r" "alice" none false]

def c8State : ServerState :=
  runEvents [.create_room "A" "r" "alice" (some "u1") false,
             .join_room "B" "bob" (some "u2") "R"]

def c8Room : Room :=
  {id := "R", hostId := "A",
   users := [{id := "A", userId := some "u1", username := "alice",
              roomId := some "R", isHost := true, isMuted := false},
             {id := "B", userId := some "u2", username := "bob",
              roomId := some "R", isHost := false, isMuted := false}],
   settings := {maxPlayers := 8, isPrivate := false}, game := none, ref := 0}

def c7Players : List Player :=
  [{id := "A", userId := some "u1", username := "alice", symbol := some "X", color := none},
   {id := "B", userId := some "u2", username := "bob", symbol := some "O", color := none}]

def c7State : ServerState :=
  runEvents [.create_room "A" "r" "alice" (some "u1") false,
             .join_room "B" "bob" (some "u2") "R",
             .start_game "A" "R" "tictactoe" c7Players]

def c7TTT : TTTState :=
  {board := List.replicate 9 Cell.vnull, turn := "A", players := c7Players,
   winner := none, draw := false, lastMoveTime := 0, winReason := none}

def c7Game : Game := {gs := .tictactoe c7TTT, timer := some 0}

def c7Room : Room :=
  {id := "R", hostId := "A",
   users := [{id := "A", userId := some "u1", username := "alice",
              roomId := some "R", isHost := true, isMuted := false},
             {id := "B", userId := some "u2", username := "bob",
              roomId := some "R", isHost := false, isMuted := false}],
   settings := {maxPlayers := 8, isPrivate := false}, game := some c7Game, ref := 0}

/-- The connect4 board of a game state, when the state is a connect4 one. -/
def c4BoardOf : GameState → Option (List (List Cell))
  | .connect4 s => some s.board
  | _ => none

def c10PlayersIn : List Player :=
  [{id := "A", userId := some "u1", username := "alice", symbol := none, color := none},
   {id := "B", userId := some "u2", username := "bob", symbol := none, color := none}]

def c10State : ServerState :=
  runEvents [.create_room "A" "r" "alice" (some "u1") false,
             .join_room "B" "bob" (some "u2") "R",
             .start_game "A" "R" "connect4" c10PlayersIn]

def c10CS : C4State :=
  {board := List.replicate 8 (List.replicate 8 Cell.vnull), turn := "A",
   players := [{id := "A", userId := some "u1", username := "alice",
                symbol := none, color := some "red"},
               {id := "B", userId := some "u2", username := "bob",
                symbol := none, color := some "blue"}],
   winner := none, winningCells := [], lastMoveTime := 0, winReason := none}

def c10Game : Game := {gs := .connect4 c10CS, timer := some 0}

def c10Room : Room :=
  {id := "R", hostId := "A",
   users := [{id := "A", userId := some "u1", username := "alice",
              roomId := some "R", isHost := true, isMuted := false},
             {id := "B", userId := some "u2", username := "bob",
              roomId := some "R", isHost := false, isMuted := false}],
   settings := {maxPlayers := 8, isPrivate := false}, game := some c10Game, ref := 0}

/-- Reading game.state.winReason. -/
def GameState.winReason : GameState → Option String
  | .tictactoe s => s.winReason
  | .ninemenmorris s => s.winReason
  | .connect4 s => s.winReason

def c6PlayerA : Player :=
  {id := "A", userId := some "u1", username := "alice", symbol := some "X", color := none}

def c6PlayerB : Player :=
  {id := "B", userId := some "u2", username := "bob", symbol := some "O", color := none}

def c6State : ServerState :=
  runEvents [.create_room "A" "r" "alice" (some "u1") false,
             .join_room "B" "bob" (some "u2") "R",
             .start_game "A" "R" "tictactoe" [c6PlayerA, c6PlayerB]]

def c6TTT : TTTState :=
  {board := List.replicate 9 Cell.vnull, turn := "A", players := [c6PlayerA, c6PlayerB],
   winner := none, draw := false, lastMoveTime := 0, winReason := none}

def c6Game : Game := {gs := .tictactoe c6TTT, timer := some 0}

def c6Room : Room :=
  {id := "R", hostId := "A",
   users := [{id := "A", userId := some "u1", username := "alice",
              roomId := some "R", isHost := true, isMuted := false},
             {id := "B", userId := some "u2", username := "bob",
              roomId := some "R", isHost := false, isMuted := false}],
   settings := {maxPlayers := 8, isPrivate := false}, game := some c6Game, ref := 0}

/-- The identity a join_room request will record: its userId when truthy,
else its connection id (matching memberIdentity of the record it creates). -/
def joinIdentity (sock : String) (userId : Option String) : String :=
  match userId with
  | some s => if s = "" then sock else s
  | none => sock

/-- The events the claim quantifies over. -/
def isMembershipEvent : Event → Bool
  | .create_room _ _ _ _ _ => true
  | .join_room _ _ _ _ => true
  | .disconnect _ => true
  | _ => false

/-- The side condition the counterexample forces: a join_room request from
a connection that is already a member of the target room must carry an
identity already recorded among the room's member identities. -/
def goodJoin (st : ServerState) : Event → Bool
  | .join_room sock _ userId roomId =>
    match getEntry (toUpperJS roomId) st.rooms with
    | some room =>
      !(room.users.any (fun u => u.id = sock)) ||
        (distinctIdentities room.users).contains (joinIdentity sock userId)
    | none => true
  | _ => true

def goodRun (st : ServerState) : List Event → Bool
  | [] => true
  | e :: es => goodJoin st e && goodRun (stepEvent st e) es

/-- The capacity invariant: every room's distinct-identity count is within
its maxPlayers capacity. -/
def capacityInv (st : ServerState) : Prop :=
  ∀ k room, getEntry k st.rooms = some room →
    (distinctIdentities room.users).length ≤ room.settings.maxPlayers

def c1WitnessTrace : List Event :=
  [.create_room "s1" "room01" "n1" (some "u1") false,
   .join_room "s2" "n2" (some "u2") "ROOM01",
   .join_room "s3" "n3" (some "u2") "ROOM01",
   .disconnect "s2"]

/-! ## Helper lemmas -/

theorem jsStrLtL_trichotomy : ∀ (a b : List Char),
    (jsStrLtL a b = true ∧ jsStrLtL b a = false) ∨
    (jsStrLtL a b = false ∧ jsStrLtL b a = true) ∨
    (a = b ∧ jsStrLtL a b = false ∧ jsStrLtL b a = false)
  | [], [] => by simp [jsStrLtL]
  | [], _ :: _ => by simp [jsStrLtL]
  | _ :: _, [] => by simp [jsStrLtL]
  | a :: as, b :: bs => by
    rcases Nat.lt_trichotomy a.toNat b.toNat with h | h | h
    · exact Or.inl (by simp [jsStrLtL, h, Nat.lt_asymm h, Nat.not_lt.mpr (Nat.le_of_lt h)])
    · have hab : a = b := Char.eq_of_val_eq (by
        apply UInt32.eq_of_val_eq
        exact Fin.ext h)
      subst hab
      rcases jsStrLtL_trichotomy as bs with ⟨h1, h2⟩ | ⟨h1, h2⟩ | ⟨rfl, h1, h2⟩
      · exact Or.inl (by simp [jsStrLtL, h1, h2])
      · exact Or.inr (Or.inl (by simp [jsStrLtL, h1, h2]))
      · exact Or.inr (Or.inr (by simp [jsStrLtL, h1, h2]))
    · exact Or.inr (Or.inl (by simp [jsStrLtL, h, Nat.lt_asymm h, Nat.not_lt.mpr (Nat.le_of_lt h)]))

theorem getEntry_filter_other {α : Type} (k k' : String) (l : List (String × α)) (h : k ≠ k') :
    getEntry k (l.filter (fun p => p.1 ≠ k')) = getEntry k l := by
  induction l with
  | nil => rfl
  | cons p rest ih =>
    obtain ⟨pk, pv⟩ := p
    by_cases hp : pk = k' <;> by_cases hpk : pk = k <;>
      simp_all [List.filter_cons, getEntry]

theorem getEntry_setEntry_self {α : Type} (k : String) (v : α) (l : List (String × α)) :
    getEntry k (setEntry k v l) = some v := by
  simp [getEntry, setEntry]

theorem getEntry_setEntry_other {α : Type} (k k' : String) (v : α) (l : List (String × α))
    (h : k ≠ k') :
    getEntry k (setEntry k' v l) = getEntry k l := by
  simp only [setEntry, getEntry]
  rw [if_neg (fun hh => h hh.symm)]
  exact getEntry_filter_other k k' l h

theorem getEntry_delEntry_self {α : Type} (k : String) (l : List (String × α)) :
    getEntry k (delEntry k l) = none := by
  induction l with
  | nil => rfl
  | cons p rest ih =>
    by_cases hp : p.1 = k
    · simpa [delEntry, List.filter_cons, hp] using ih
    · simpa [delEntry, List.filter_cons, hp, getEntry] using ih

theorem getEntry_delEntry_other {α : Type} (k k' : String) (l : List (String × α))
    (h : k ≠ k') :
    getEntry k (delEntry k' l) = getEntry k l :=
  getEntry_filter_other k k' l h

/-! ## C9: two-party room id derivation is symmetric -/

/-- C9: for all user ids a and b, the derived two-party room id for (a, b)
equals the one for (b, a): the pair is sorted by the JS string order before
concatenation, so both parties compute the same canonical id independently
of who initiates. -/
theorem c9_two_party_room_id_symmetric (a b : String) :
    deriveTwoPartyRoomId a b = deriveTwoPartyRoomId b a := by
  unfold deriveTwoPartyRoomId jsStrLt
  rcases jsStrLtL_trichotomy a.data b.data with ⟨h1, h2⟩ | ⟨h1, h2⟩ | ⟨heq, h1, h2⟩
  · simp [h1, h2]
  · simp [h1, h2]
  · have hab : a = b := congrArg String.mk heq
    subst hab
    rfl

/-! ## C3: glare resolution -/

theorem find?_filter_append_self (l : List PeerRec) (b : String) (r : PeerRec)
    (h : r.peerID = b) :
    ((l.filter (fun p => p.peerID ≠ b)) ++ [r]).find? (fun p => p.peerID = b) = some r := by
  induction l with
  | nil => simp [List.find?, h]
  | cons x xs ih =>
    by_cases hx : x.peerID = b
    · simpa [List.filter_cons, hx] using ih
    · simpa [List.filter_cons, hx, List.find?_cons, ih] using ih

/-- C3: when two members a and b both hold an initiator peer toward each
other and each receives the other's offer, the outcome is independent of
the delivery order and is a pure function of the two connection ids: the
side with the lexicographically smaller id destroys its initiator attempt
and accepts the offer as responder, the larger side ignores the offer and
keeps its initiator record, so exactly one initiator and one responder
survive for the link. -/
theorem c3_glare_resolution (a b : String) (pA pB : List PeerRec) (recA recB : PeerRec)
    (hab : a ≠ b)
    (hA : pA.find? (fun p => p.peerID = b) = some recA)
    (hAinit : recA.isInitiator = true)
    (hB : pB.find? (fun p => p.peerID = a) = some recB)
    (hBinit : recB.isInitiator = true) :
    (glareDeliver a b pA pB true = glareDeliver a b pA pB false) ∧
    (∃ r, (glareDeliver a b pA pB true).1.find? (fun p => p.peerID = b) = some r ∧
       r.isInitiator = jsStrLt b a) ∧
    (∃ r, (glareDeliver a b pA pB true).2.find? (fun p => p.peerID = a) = some r ∧
       r.isInitiator = jsStrLt a b) := by
  have horder : glareDeliver a b pA pB true = glareDeliver a b pA pB false := rfl
  have habl : a.data ≠ b.data := fun hh => hab (by cases a; cases b; simp_all)
  rcases jsStrLtL_trichotomy a.data b.data with ⟨h1, h2⟩ | ⟨h1, h2⟩ | ⟨heq, h1, h2⟩
  · -- a is smaller: a surrenders, b ignores
    refine ⟨horder, ?_, ?_⟩
    · refine ⟨{peerID := b, isInitiator := false, destroyed := false,
               connectionState := "connecting"}, ?_, by simpa [jsStrLt] using h2.symm⟩
      simp only [glareDeliver, if_pos, handleSignal, hA, hAinit, jsStrLt, h1]
      exact find?_filter_append_self pA b _ rfl
    · refine ⟨recB, ?_, by simp [jsStrLt, h1, hBinit]⟩
      simp [glareDeliver, handleSignal, hB, hBinit, jsStrLt, h2]
  · -- b is smaller: b surrenders, a ignores
    refine ⟨horder, ?_, ?_⟩
    · refine ⟨recA, ?_, by simp [jsStrLt, h2, hAinit]⟩
      simp [glareDeliver, handleSignal, hA, hAinit, jsStrLt, h1]
    · refine ⟨{peerID := a, isInitiator := false, destroyed := false,
               connectionState := "connecting"}, ?_, by simpa [jsStrLt] using h1.symm⟩
      simp only [glareDeliver, if_pos, handleSignal, hB, hBinit, jsStrLt, h2]
      exact find?_filter_append_self pB a _ rfl
  · exact absurd heq habl

/-- Witness for C3 at a concrete pair of ids. -/
theorem c3_glare_resolution_witness :
    ("conn1" : String) ≠ "conn2" ∧
    (∃ r, (glareDeliver "conn1" "conn2"
        [{peerID := "conn2", isInitiator := true, destroyed := false,
          connectionState := "connecting"}]
        [{peerID := "conn1", isInitiator := true, destroyed := false,
          connectionState := "connecting"}] true).1.find?
          (fun p => p.peerID = "conn2") = some r ∧
       r.isInitiator = jsStrLt "conn2" "conn1") :=
  ⟨by decide,
   (c3_glare_resolution "conn1" "conn2"
      [{peerID := "conn2", isInitiator := true, destroyed := false,
        connectionState := "connecting"}]
      [{peerID := "conn1", isInitiator := true, destroyed := false,
        connectionState := "connecting"}]
      {peerID := "conn2", isInitiator := true, destroyed := false,
       connectionState := "connecting"}
      {peerID := "conn1", isInitiator := true, destroyed := false,
       connectionState := "connecting"}
      (by decide) (by decide) (by decide) (by decide) (by decide)).2.1⟩

/-! ## C5: duplicate-connection join -/

/-- C5 counterexample: a guest (no userId) who is already a room member and
joins the same room again from the same connection id is admitted, but the
old record is not removed: the member list grows from 1 to 2 and afterwards
holds two records for that connection id, contradicting the claimed
idempotence for guests. -/
theorem c5_counterexample :
    (getEntry "R" (runEvents [.create_room "A" "r" "alice" none false]).rooms).map
      (fun r => r.users.length) = some 1 ∧
    (getEntry "R" (runEvents [.create_room "A" "r" "alice" none false,
        .join_room "A" "alice" none "r"]).rooms).map
      (fun r => (r.users.length,
        (r.users.filter (fun u => u.id = "A")).length)) = some (2, 2) := by
  decide

/-! ## C1: capacity invariant -/

/-- C1 counterexample: after the trace above, the room created with
maxPlayers 8 holds nine distinct identities, so the capacity invariant
fails for this sequence of create_room and join_room events. -/
theorem c1_counterexample :
    (getEntry "ROOM01" (runEvents c1Trace).rooms).map
      (fun r => ((distinctIdentities r.users).length, r.settings.maxPlayers)) =
      some (9, 8) := by
  decide

/-! ## C4: rejoin idempotence -/

/-- C4: a join_room request carrying a userId U that already appears on a
member record, sent from a fresh connection id, is admitted (no error
event), removes the first stale record for U, appends the fresh record,
keeps the member list length unchanged, and gives the fresh record exactly
the removed record's host flag. -/
theorem c4_rejoin_idempotence
    (st : ServerState) (sock username U roomId : String) (room : Room) (m : ChatUser)
    (hlookup : getEntry (toUpperJS roomId) st.rooms = some room)
    (hU : U ≠ "")
    (hfind : room.users.find? (fun u => u.userId == some U) = some m)
    (_hfresh : room.users.all (fun u => u.id ≠ sock) = true) :
    ∃ room', getEntry (toUpperJS roomId)
        (joinRoom st sock username (some U) roomId).1.rooms = some room' ∧
      room'.users = room.users.eraseP (fun u => u.userId == some U) ++
        [{id := sock, userId := some U, username := username, roomId := some room.id,
          isHost := m.isHost, isMuted := false}] ∧
      room'.users.length = room.users.length ∧
      (joinRoom st sock username (some U) roomId).2.contains
        {target := sock, name := "room_joined"} = true ∧
      (joinRoom st sock username (some U) roomId).2.contains
        {target := sock, name := "error"} = false := by
  have hm_mem : m ∈ room.users := List.mem_of_find?_eq_some hfind
  have hm_userId : m.userId = some U := by
    have := List.find?_some hfind
    simpa using this
  have hopt : optTruthy (some U) = true := by simp [optTruthy, hU]
  have hid : memberIdentity m = U := by simp [memberIdentity, hm_userId, hU]
  have hmemU : U ∈ distinctIdentities room.users := by
    unfold distinctIdentities
    rw [List.mem_dedup]
    exact hid ▸ List.mem_map_of_mem memberIdentity hm_mem
  have hne : room.users.isEmpty = false := by
    simp [List.isEmpty_iff, List.ne_nil_of_mem hm_mem]
  have hlen : (room.users.eraseP (fun u => u.userId == some U)).length + 1 =
      room.users.length := by
    have hlep : (room.users.eraseP (fun u => u.userId == some U)).length =
        room.users.length - 1 :=
      List.length_eraseP_of_mem hm_mem (by simp [hm_userId])
    have hpos : 0 < room.users.length := List.length_pos_of_mem hm_mem
    omega
  refine ⟨{room with users := room.users.eraseP (fun u => u.userId == some U) ++
      [{id := sock, userId := some U, username := username, roomId := some room.id,
        isHost := m.isHost, isMuted := false}]}, ?_, ?_, ?_, ?_, ?_⟩
  · simp only [joinRoom, hlookup, hopt, hfind, hne]
    rw [if_neg (by simp [hmemU])]
    simp [getEntry_setEntry_self]
  · rfl
  · simp only [List.length_append, List.length_cons, List.length_nil]
    omega
  · simp only [joinRoom, hlookup, hopt, hfind, hne]
    rw [if_neg (by simp [hmemU])]
    cases hg : room.game <;> simp [hg]
  · simp only [joinRoom, hlookup, hopt, hfind, hne]
    rw [if_neg (by simp [hmemU])]
    cases hg : room.game <;> simp [hg]

/-- Witness for C4: the host alice rejoins under userId u1 from the fresh
connection B and keeps the host flag, with the member list length
unchanged. -/
theorem c4_rejoin_idempotence_witness :
    ∃ room', getEntry (toUpperJS "r")
        (joinRoom c4State "B" "bob" (some "u1") "r").1.rooms = some room' ∧
      room'.users = c4Room.users.eraseP (fun u => u.userId == some "u1") ++
        [{id := "B", userId := some "u1", username := "bob",
          roomId := some c4Room.id, isHost := true, isMuted := false}] ∧
      room'.users.length = c4Room.users.length ∧
      (joinRoom c4State "B" "bob" (some "u1") "r").2.contains
        {target := "B", name := "room_joined"} = true ∧
      (joinRoom c4State "B" "bob" (some "u1") "r").2.contains
        {target := "B", name := "error"} = false :=
  c4_rejoin_idempotence c4State "B" "bob" "u1" "r" c4Room
    {id := "A", userId := some "u1", username := "alice",
     roomId := some "R", isHost := true, isMuted := false}
    (by decide) (by decide) (by decide) (by decide)

/-- C5 amended: a join_room request whose raw connectionId already appears
in the room's member list is always treated as a rejoin and admitted (no
capacity error, even at capacity). The join is idempotent only when the
request carries a truthy userId that matches some member record's userId:
then the first such record is removed and the list length is unchanged.
Otherwise (a guest join without userId, or an unmatched userId) no record
is removed: the member list grows by one and gains a second record for
that connection id. -/
theorem c5_amended_duplicate_join
    (st : ServerState) (sock username roomId : String) (userId : Option String) (room : Room)
    (hlookup : getEntry (toUpperJS roomId) st.rooms = some room)
    (hin : room.users.any (fun u => u.id = sock) = true) :
    (joinRoom st sock username userId roomId).2.contains
      {target := sock, name := "room_joined"} = true ∧
    (joinRoom st sock username userId roomId).2.contains
      {target := sock, name := "error"} = false ∧
    ∃ room', getEntry (toUpperJS roomId)
        (joinRoom st sock username userId roomId).1.rooms = some room' ∧
      ((optTruthy userId = true ∧ room.users.any (fun u => u.userId == userId) = true) →
        room'.users.length = room.users.length) ∧
      ((optTruthy userId = false ∨ room.users.all (fun u => !(u.userId == userId)) = true) →
        room'.users.length = room.users.length + 1 ∧
        (room'.users.filter (fun u => u.id = sock)).length =
          (room.users.filter (fun u => u.id = sock)).length + 1) := by
  cases hopt : optTruthy userId with
  | false =>
    refine ⟨?_, ?_, ?_⟩
    · simp only [joinRoom, hlookup, hin, hopt]
      cases hg : room.game <;> simp [hg]
    · simp only [joinRoom, hlookup, hin, hopt]
      cases hg : room.game <;> simp [hg]
    · refine ⟨{room with users := room.users ++
        [{id := sock, userId := userId, username := username,
          roomId := some room.id, isHost := room.users.isEmpty, isMuted := false}]},
        ?_, ?_, ?_⟩
      · simp only [joinRoom, hlookup, hin, hopt]
        simp [getEntry_setEntry_self]
      · rintro ⟨h1, -⟩
        exact absurd h1 (by simp [hopt])
      · intro _
        constructor
        · simp
        · simp [List.filter_append]
  | true =>
    cases hfind : room.users.find? (fun u => u.userId == userId) with
    | none =>
      refine ⟨?_, ?_, ?_⟩
      · simp only [joinRoom, hlookup, hin, hopt, hfind]
        cases hg : room.game <;> simp [hg]
      · simp only [joinRoom, hlookup, hin, hopt, hfind]
        cases hg : room.game <;> simp [hg]
      · refine ⟨{room with users := room.users ++
          [{id := sock, userId := userId, username := username,
            roomId := some room.id, isHost := room.users.isEmpty, isMuted := false}]},
          ?_, ?_, ?_⟩
        · simp only [joinRoom, hlookup, hin, hopt, hfind]
          simp [getEntry_setEntry_self]
        · rintro ⟨-, hany⟩
          obtain ⟨u, hu, hp⟩ := by simpa using hany
          have := List.find?_eq_none.mp hfind u hu
          simp_all
        · intro _
          constructor
          · simp
          · simp [List.filter_append]
    | some old =>
      have hold_mem : old ∈ room.users := List.mem_of_find?_eq_some hfind
      have hold_p : (old.userId == userId) = true := by
        have := List.find?_some hfind
        simpa using this
      have hlep : (room.users.eraseP (fun u => u.userId == userId)).length =
          room.users.length - 1 :=
        List.length_eraseP_of_mem hold_mem hold_p
      have hpos : 0 < room.users.length := List.length_pos_of_mem hold_mem
      refine ⟨?_, ?_, ?_⟩
      · simp only [joinRoom, hlookup, hin, hopt, hfind]
        cases hg : room.game <;> simp [hg]
      · simp only [joinRoom, hlookup, hin, hopt, hfind]
        cases hg : room.game <;> simp [hg]
      · refine ⟨{room with users := room.users.eraseP (fun u => u.userId == userId) ++
          [{id := sock, userId := userId, username := username,
            roomId := some room.id, isHost := room.users.isEmpty || old.isHost,
            isMuted := false}]}, ?_, ?_, ?_⟩
        · simp only [joinRoom, hlookup, hin, hopt, hfind]
          simp [getEntry_setEntry_self]
        · intro _
          simp only [List.length_append, List.length_cons, List.length_nil]
          omega
        · rintro (h1 | h2)
          · exact absurd h1 (by simp [hopt])
          · have := (List.all_eq_true.mp h2) old hold_mem
            simp_all

/-- Witness for the amended C5 at a concrete guest duplicate join. -/
theorem c5_amended_duplicate_join_witness :
    (joinRoom c5State "A" "alice" none "r").2.contains
      {target := "A", name := "room_joined"} = true ∧
    (joinRoom c5State "A" "alice" none "r").2.contains
      {target := "A", name := "error"} = false ∧
    ∃ room', getEntry (toUpperJS "r")
        (joinRoom c5State "A" "alice" none "r").1.rooms = some room' ∧
      ((optTruthy none = true ∧ c5Room.users.any (fun u => u.userId == none) = true) →
        room'.users.length = c5Room.users.length) ∧
      ((optTruthy none = false ∨ c5Room.users.all (fun u => !(u.userId == none)) = true) →
        room'.users.length = c5Room.users.length + 1 ∧
        (room'.users.filter (fun u => u.id = "A")).length =
          (c5Room.users.filter (fun u => u.id = "A")).length + 1) :=
  c5_amended_duplicate_join c5State "A" "alice" "r" none c5Room (by decide) (by decide)

/-! ## C8: leave semantics on disconnect -/

theorem length_filter_eq_add_ne (l : List ChatUser) (sock : String) :
    (l.filter (fun u => u.id = sock)).length +
      (l.filter (fun u => u.id ≠ sock)).length = l.length := by
  induction l with
  | nil => rfl
  | cons x xs ih =>
    simp only [ne_eq, decide_not] at ih ⊢
    by_cases hx : x.id = sock <;> simp [List.filter_cons, hx] <;> omega

/-- C8: on disconnect of a room member with exactly one member record for
its connection id, exactly that record is removed; if the list becomes
empty the room is deleted from the table (and its game with it), otherwise
if the departing member was host the first remaining member gets the host
flag and its connection id becomes the room's hostId, and for a non-host
departure the member list and hostId are untouched beyond the removal. -/
theorem c8_leave_semantics
    (st : ServerState) (sock rid : String) (user : ChatUser) (room : Room) (m : ChatUser)
    (huser : getEntry sock st.users = some user)
    (hrid : user.roomId = some rid)
    (hroom : getEntry rid st.rooms = some room)
    (hroomid : room.id = rid)
    (hm : room.users.filter (fun u => u.id = sock) = [m])
    (hcoh : m.isHost = user.isHost) :
    room.users.length = (room.users.filter (fun u => u.id ≠ sock)).length + 1 ∧
    ((room.users.filter (fun u => u.id ≠ sock)) = [] →
      getEntry rid (handleDisconnect st sock).1.rooms = none) ∧
    (∀ h hs, (room.users.filter (fun u => u.id ≠ sock)) = h :: hs →
      (m.isHost = true →
        (getEntry rid (handleDisconnect st sock).1.rooms).map
          (fun r => (r.users, r.hostId)) = some ({h with isHost := true} :: hs, h.id)) ∧
      (m.isHost = false →
        (getEntry rid (handleDisconnect st sock).1.rooms).map
          (fun r => (r.users, r.hostId)) = some (h :: hs, room.hostId))) := by
  have hlen : room.users.length =
      (room.users.filter (fun u => u.id ≠ sock)).length + 1 := by
    have h0 := length_filter_eq_add_ne room.users sock
    rw [hm] at h0
    simp only [List.length_cons, List.length_nil] at h0
    omega
  refine ⟨hlen, ?_, ?_⟩
  · intro hempty
    simp only [handleDisconnect, huser, hrid, hroom, hempty]
    cases hg : room.game with
    | none =>
      simp only [hg]
      simp [hroomid, getEntry_delEntry_self]
    | some g =>
      cases hp : g.gs.players.any (fun p => p.id = sock) <;>
        simp only [hg, hp] <;>
        simp [hroomid, getEntry_delEntry_self]
  · intro h hs hcons
    constructor
    · intro hm_host
      have huh : user.isHost = true := hcoh ▸ hm_host
      simp only [handleDisconnect, huser, hrid, hroom, hcons]
      cases hg : room.game with
      | none =>
        simp only [hg]
        simp [hcons, huh, getEntry_setEntry_self]
      | some g =>
        cases hp : g.gs.players.any (fun p => p.id = sock) <;>
          simp only [hg, hp] <;>
          simp [hcons, huh, getEntry_setEntry_self]
    · intro hm_host
      have huh : user.isHost = false := hcoh ▸ hm_host
      simp only [handleDisconnect, huser, hrid, hroom, hcons]
      cases hg : room.game with
      | none =>
        simp only [hg]
        simp [hcons, huh, getEntry_setEntry_self]
      | some g =>
        cases hp : g.gs.players.any (fun p => p.id = sock) <;>
          simp only [hg, hp] <;>
          simp [hcons, huh, getEntry_setEntry_self]

/-- Witness for C8: the host disconnects from a two-member room; the other
member's record is promoted to host and its connection id becomes the
room's hostId. -/
theorem c8_leave_semantics_witness :
    (getEntry "R" (handleDisconnect c8State "A").1.rooms).map
      (fun r => (r.users, r.hostId)) =
      some ([{id := "B", userId := some "u2", username := "bob",
              roomId := some "R", isHost := true, isMuted := false}], "B") :=
  ((c8_leave_semantics c8State "A" "R"
      {id := "A", userId := some "u1", username := "alice",
       roomId := some "R", isHost := true, isMuted := false}
      c8Room
      {id := "A", userId := some "u1", username := "alice",
       roomId := some "R", isHost := true, isMuted := false}
      (by decide) (by decide) (by decide) (by decide) (by decide) (by decide)).2.2
    {id := "B", userId := some "u2", username := "bob",
     roomId := some "R", isHost := false, isMuted := false} []
    (by decide)).1 (by decide)

/-! ## C7: stale-actor rejection -/

/-- C7: for an active game (no winner, no draw flag) and any move event
submitted by a connection that is not the recorded turn-holder, each of the
three move handlers leaves the whole server state unchanged and emits
nothing (in particular no error event). -/
theorem c7_stale_actor_rejection
    (st : ServerState) (sock roomId : String) (room : Room) (g : Game)
    (hlookup : getEntry (toUpperJS roomId) st.rooms = some room)
    (hgame : room.game = some g)
    (hwin : g.gs.winner = none)
    (hdraw : g.gs.draw = false)
    (hturn : g.gs.turn ≠ sock) :
    (∀ index : Nat, makeMove st sock roomId index = (st, [])) ∧
    (∀ position : Nat, morrisMove st sock roomId position = (st, [])) ∧
    (∀ column : Int, connect4Move st sock roomId column = (st, [])) := by
  refine ⟨?_, ?_, ?_⟩
  · intro index
    simp [makeMove, hlookup, hgame, hwin, hdraw, optTruthy, hturn]
  · intro position
    cases hgs : g.gs with
    | tictactoe ts => simp [morrisMove, hlookup, hgame, hgs]
    | connect4 cs => simp [morrisMove, hlookup, hgame, hgs]
    | ninemenmorris ms =>
      have hw : ms.winner = none := by
        simpa [GameState.winner, hgs] using hwin
      have ht : ms.turn ≠ sock := by
        simpa [GameState.turn, hgs] using hturn
      simp [morrisMove, hlookup, hgame, hgs, hw, optTruthy, ht]
  · intro column
    cases hgs : g.gs with
    | tictactoe ts => simp [connect4Move, hlookup, hgame, hgs]
    | ninemenmorris ms => simp [connect4Move, hlookup, hgame, hgs]
    | connect4 cs =>
      have hw : cs.winner = none := by
        simpa [GameState.winner, hgs] using hwin
      have ht : cs.turn ≠ sock := by
        simpa [GameState.turn, hgs] using hturn
      simp [connect4Move, hlookup, hgame, hgs, hw, optTruthy, ht]

/-- Witness for C7: in a freshly started tictactoe game where A holds the
turn, moves by B are silent no-ops in all three handlers. -/
theorem c7_stale_actor_rejection_witness :
    makeMove c7State "B" "R" 0 = (c7State, []) ∧
    morrisMove c7State "B" "R" 0 = (c7State, []) ∧
    connect4Move c7State "B" "R" 0 = (c7State, []) :=
  have h := c7_stale_actor_rejection c7State "B" "R" c7Room c7Game
    (by decide) (by decide) (by decide) (by decide) (by decide)
  ⟨h.1 0, h.2.1 0, h.2.2 0⟩

/-! ## C10: connect4 gravity -/

theorem find?_countdown : ∀ (n : Nat) (p : Nat → Bool) (r : Nat), r < n → p r = true →
    (∀ r', r < r' → r' < n → p r' = false) →
    (List.range n).reverse.find? p = some r := by
  intro n
  induction n with
  | zero => intro p r hr; omega
  | succ n ih =>
    intro p r hr hp hmax
    have hrev : (List.range (n + 1)).reverse = n :: (List.range n).reverse := by
      rw [List.range_succ, List.reverse_append]
      simp
    rw [hrev]
    by_cases hn : r = n
    · subst hn
      simp [List.find?_cons, hp]
    · have hrn : r < n := by omega
      have hpn : p n = false := hmax n (by omega) (by omega)
      simp only [List.find?_cons, hpn]
      exact ih p r hrn hp (fun r' h1 h2 => hmax r' h1 (by omega))

/-- C10: a connect4 move by the turn-holder into a column c with 0 <= c < 8
places the piece at the greatest row index whose cell in that column is
null; a move into a full column or a column outside 0..7 is a silent no-op
with no state change and no emitted event. -/
theorem c10_connect4_gravity
    (st : ServerState) (sock roomId : String) (room : Room) (g : Game) (cs : C4State)
    (hlookup : getEntry (toUpperJS roomId) st.rooms = some room)
    (hgame : room.game = some g)
    (hgs : g.gs = .connect4 cs)
    (hwin : cs.winner = none)
    (hturn : cs.turn = sock) :
    (∀ column : Int, (column < 0 ∨ 8 ≤ column) →
       connect4Move st sock roomId column = (st, [])) ∧
    (∀ column : Int, 0 ≤ column → column < 8 →
       ((∀ r : Nat, r < 8 → c4At cs.board r column.toNat ≠ Cell.vnull) →
         connect4Move st sock roomId column = (st, [])) ∧
       (∀ r : Nat, r < 8 → c4At cs.board r column.toNat = Cell.vnull →
         (∀ r' : Nat, r < r' → r' < 8 → c4At cs.board r' column.toNat ≠ Cell.vnull) →
         ((getEntry (toUpperJS roomId) (connect4Move st sock roomId column).1.rooms).bind
            (fun rm => rm.game)).bind (fun g2 => c4BoardOf g2.gs) =
           some (c4Set cs.board r column.toNat (Cell.vstr sock)))) := by
  constructor
  · intro column hout
    rcases hout with h | h
    · simp [connect4Move, hlookup, hgame, hgs, hwin, optTruthy, hturn, h]
    · simp [connect4Move, hlookup, hgame, hgs, hwin, optTruthy, hturn, h]
  · intro column h0 h8
    constructor
    · intro hfull
      have hfind : (List.range 8).reverse.find?
          (fun r => c4At cs.board r column.toNat == Cell.vnull) = none := by
        apply List.find?_eq_none.mpr
        intro x hx
        have hx8 : x < 8 := by
          have := List.mem_reverse.mp hx
          simpa using List.mem_range.mp this
        simp [hfull x hx8]
      simp [connect4Move, hlookup, hgame, hgs, hwin, optTruthy, hturn,
        Int.not_lt.mpr h0, Int.not_le.mpr h8, hfind]
    · intro r hr hcell hmax
      have hfind : (List.range 8).reverse.find?
          (fun row => c4At cs.board row column.toNat == Cell.vnull) = some r := by
        apply find?_countdown 8 _ r hr
        · simp [hcell]
        · intro r' h1 h2
          simp [hmax r' h1 h2]
      simp only [connect4Move, hlookup, hgame, hgs, hwin, optTruthy, hturn,
        Int.not_lt.mpr h0, Int.not_le.mpr h8, hfind]
      cases hw : c4CheckWin (c4Set cs.board r column.toNat (Cell.vstr sock)) r
          column.toNat sock with
      | some cells =>
        cases hgt : g.timer <;>
          simp [hw, hgt, getEntry_setEntry_self, c4BoardOf]
      | none =>
        cases hisfull : (c4Set cs.board r column.toNat (Cell.vstr sock)).all
            (fun row => row.all (fun cell => cell != Cell.vnull)) with
        | true =>
          cases hgt : g.timer <;>
            simp [hw, hisfull, hgt, getEntry_setEntry_self, c4BoardOf]
        | false =>
          cases hopp : cs.players.find? (fun p => p.id ≠ sock) with
          | none => simp [hw, hisfull, hopp, getEntry_setEntry_self, c4BoardOf]
          | some opponent =>
            by_cases hai : opponent.id = "AI" <;>
              cases hgt : g.timer <;>
                simp [hw, hisfull, hopp, hgt, hai, resetGameTimer,
                  getEntry_setEntry_self, c4BoardOf, GameState.setLastMoveTime]

/-- Witness for C10: on a fresh connect4 board, a move outside the columns
is a no-op, and a move in column 3 lands in the bottom row (index 7). -/
theorem c10_connect4_gravity_witness :
    connect4Move c10State "A" "R" (-1) = (c10State, []) ∧
    ((getEntry (toUpperJS "R") (connect4Move c10State "A" "R" 3).1.rooms).bind
        (fun rm => rm.game)).bind (fun g2 => c4BoardOf g2.gs) =
      some (c4Set c10CS.board 7 3 (Cell.vstr "A")) :=
  have h := c10_connect4_gravity c10State "A" "R" c10Room c10Game c10CS
    (by decide) (by decide) (by decide) (by decide) (by decide)
  ⟨h.1 (-1) (Or.inl (by decide)),
   (h.2 3 (by decide) (by decide)).2 7 (by decide) (by decide)
     (fun r' h1 h2 => by omega)⟩

/-! ## C6: forfeiture on timeout -/

theorem winner_after_timeout (gs : GameState) (w r : String) :
    ((gs.setWinner w).setWinReason r).winner = some w := by
  cases gs <;> rfl

theorem winReason_after_timeout (gs : GameState) (w r : String) :
    ((gs.setWinner w).setWinReason r).winReason = some r := by
  cases gs <;> rfl

/-- Once the looked-up room's game has a truthy winner, every move handler
is a silent no-op. -/
theorem moves_noop_of_winner (st : ServerState) (sock roomId : String)
    (room : Room) (g : Game)
    (hlookup : getEntry (toUpperJS roomId) st.rooms = some room)
    (hgame : room.game = some g)
    (hwin : optTruthy g.gs.winner = true) :
    (∀ index : Nat, makeMove st sock roomId index = (st, [])) ∧
    (∀ position : Nat, morrisMove st sock roomId position = (st, [])) ∧
    (∀ column : Int, connect4Move st sock roomId column = (st, [])) := by
  refine ⟨?_, ?_, ?_⟩
  · intro index
    simp [makeMove, hlookup, hgame, hwin]
  · intro position
    cases hgs : g.gs with
    | tictactoe ts => simp [morrisMove, hlookup, hgame, hgs]
    | connect4 cs => simp [morrisMove, hlookup, hgame, hgs]
    | ninemenmorris ms =>
      have hw : optTruthy ms.winner = true := by
        simpa [GameState.winner, hgs] using hwin
      simp [morrisMove, hlookup, hgame, hgs, hw]
  · intro column
    cases hgs : g.gs with
    | tictactoe ts => simp [connect4Move, hlookup, hgame, hgs]
    | ninemenmorris ms => simp [connect4Move, hlookup, hgame, hgs]
    | connect4 cs =>
      have hw : optTruthy cs.winner = true := by
        simpa [GameState.winner, hgs] using hwin
      simp [connect4Move, hlookup, hgame, hgs, hw]

/-- C6: in a two-participant game with no winner or draw recorded, firing
the pending turn timer armed for participant X records the other
participant as winner with reason timeout, and afterwards every move
submitted to that room through any of the three move handlers is rejected
with no state change. -/
theorem c6_forfeiture
    (st : ServerState) (tid : Nat) (e : PendingTimer) (room : Room) (g : Game)
    (p1 p2 : Player)
    (hfind : st.pending.find? (fun x => x.tid = tid) = some e)
    (hroom : getEntry e.roomId st.rooms = some room)
    (href : room.ref = e.ref)
    (hgame : room.game = some g)
    (hwin : g.gs.winner = none)
    (hdraw : g.gs.draw = false)
    (hplayers : g.gs.players = [p1, p2])
    (hids : p1.id ≠ p2.id)
    (hp1ne : p1.id ≠ "") (hp2ne : p2.id ≠ "")
    (hx : e.turnPlayerId = p1.id ∨ e.turnPlayerId = p2.id) :
    (∃ room' g', getEntry e.roomId (fireTimer st tid).1.rooms = some room' ∧
      room'.game = some g' ∧
      g'.gs.winner = some (if e.turnPlayerId = p1.id then p2.id else p1.id) ∧
      g'.gs.winReason = some "timeout") ∧
    (∀ sock roomId2 : String, ∀ index : Nat, toUpperJS roomId2 = e.roomId →
       makeMove (fireTimer st tid).1 sock roomId2 index = ((fireTimer st tid).1, [])) ∧
    (∀ sock roomId2 : String, ∀ position : Nat, toUpperJS roomId2 = e.roomId →
       morrisMove (fireTimer st tid).1 sock roomId2 position = ((fireTimer st tid).1, [])) ∧
    (∀ sock roomId2 : String, ∀ column : Int, toUpperJS roomId2 = e.roomId →
       connect4Move (fireTimer st tid).1 sock roomId2 column = ((fireTimer st tid).1, [])) := by
  have hfindw : g.gs.players.find? (fun p => p.id ≠ e.turnPlayerId) =
      some (if e.turnPlayerId = p1.id then p2 else p1) := by
    by_cases h1 : e.turnPlayerId = p1.id
    · rw [if_pos h1, hplayers, h1]
      simp [List.find?, Ne.symm hids]
    · have h2 : e.turnPlayerId = p2.id := hx.resolve_left h1
      rw [if_neg h1, hplayers, h2]
      simp [List.find?, hids]
  have hwid : (if e.turnPlayerId = p1.id then p2 else p1).id =
      (if e.turnPlayerId = p1.id then p2.id else p1.id) := by
    by_cases h1 : e.turnPlayerId = p1.id <;> simp [h1]
  have hstep : (fireTimer st tid).1 = {st with pending := clearTid tid st.pending, rooms := setEntry e.roomId {room with game := some {g with gs := (g.gs.setWinner (if e.turnPlayerId = p1.id then p2.id else p1.id)).setWinReason "timeout"}} st.rooms} := by
    simp only [fireTimer, hfind, hroom, href, hgame, hwin, hdraw, hfindw]
    simp [optTruthy, hwid]
  have hlook : getEntry e.roomId (fireTimer st tid).1.rooms = some {room with game := some {g with gs := (g.gs.setWinner (if e.turnPlayerId = p1.id then p2.id else p1.id)).setWinReason "timeout"}} := by
    rw [hstep]
    exact getEntry_setEntry_self _ _ _
  have hotherne : (if e.turnPlayerId = p1.id then p2.id else p1.id) ≠ "" := by
    by_cases h1 : e.turnPlayerId = p1.id <;> simp [h1, hp1ne, hp2ne]
  have hwtruthy : optTruthy ((g.gs.setWinner
      (if e.turnPlayerId = p1.id then p2.id else p1.id)).setWinReason "timeout").winner
      = true := by
    rw [winner_after_timeout]
    simp [optTruthy, hotherne]
  refine ⟨⟨_, _, hlook, rfl, winner_after_timeout _ _ _, winReason_after_timeout _ _ _⟩,
    ?_, ?_, ?_⟩
  · intro sock roomId2 index hcanon
    have := moves_noop_of_winner (fireTimer st tid).1 sock roomId2
      _ _ (hcanon ▸ hlook) rfl hwtruthy
    exact this.1 index
  · intro sock roomId2 position hcanon
    have := moves_noop_of_winner (fireTimer st tid).1 sock roomId2
      _ _ (hcanon ▸ hlook) rfl hwtruthy
    exact this.2.1 position
  · intro sock roomId2 column hcanon
    have := moves_noop_of_winner (fireTimer st tid).1 sock roomId2
      _ _ (hcanon ▸ hlook) rfl hwtruthy
    exact this.2.2 column

/-- Witness for C6: letting A's turn timer fire in a fresh two-player
tictactoe game makes B the winner by timeout, and a later move attempt is
a silent no-op. -/
theorem c6_forfeiture_witness :
    (∃ room' g', getEntry "R" (fireTimer c6State 0).1.rooms = some room' ∧
      room'.game = some g' ∧
      g'.gs.winner = some (if ("A" : String) = "A" then "B" else "A") ∧
      g'.gs.winReason = some "timeout") ∧
    makeMove (fireTimer c6State 0).1 "A" "R" 0 = ((fireTimer c6State 0).1, []) :=
  have h := c6_forfeiture c6State 0
    {tid := 0, roomId := "R", ref := 0, turnPlayerId := "A"}
    c6Room c6Game c6PlayerA c6PlayerB
    (by decide) (by decide) (by decide) (by decide) (by decide) (by decide)
    (by decide) (by decide) (by decide) (by decide) (Or.inl (by decide))
  ⟨h.1, h.2.1 "A" "R" 0 (by decide)⟩

/-! ## C1 amended: capacity invariant for identity-consistent traces -/

theorem distinct_length_eq_card (l : List ChatUser) :
    (distinctIdentities l).length = (l.map memberIdentity).toFinset.card := by
  unfold distinctIdentities
  exact (List.card_toFinset _).symm

theorem distinct_le_of_identity_subset {l1 l2 : List ChatUser}
    (h : ∀ x ∈ l1.map memberIdentity, x ∈ l2.map memberIdentity) :
    (distinctIdentities l1).length ≤ (distinctIdentities l2).length := by
  rw [distinct_length_eq_card, distinct_length_eq_card]
  apply Finset.card_le_card
  intro x hx
  rw [List.mem_toFinset] at hx ⊢
  exact h x hx

theorem distinct_append_le (l : List ChatUser) (u : ChatUser) :
    (distinctIdentities (l ++ [u])).length ≤ (distinctIdentities l).length + 1 := by
  rw [distinct_length_eq_card, distinct_length_eq_card, List.map_append]
  simp only [List.map_cons, List.map_nil, List.toFinset_append]
  refine le_trans (Finset.card_union_le _ _) ?_
  simp

theorem memberIdentity_mk (sock username : String) (userId : Option String)
    (roomId : Option String) (isHost isMuted : Bool) :
    memberIdentity {id := sock, userId := userId, username := username, roomId := roomId, isHost := isHost, isMuted := isMuted} = joinIdentity sock userId := by
  cases userId <;> simp [memberIdentity, joinIdentity]

theorem identity_mem_of_contains {l : List ChatUser} {x : String}
    (h : (distinctIdentities l).contains x = true) :
    x ∈ l.map memberIdentity := by
  have hx : x ∈ distinctIdentities l := by
    simpa using h
  unfold distinctIdentities at hx
  exact List.mem_dedup.mp hx

theorem contains_of_identity_mem {l : List ChatUser} {x : String}
    (h : x ∈ l.map memberIdentity) :
    (distinctIdentities l).contains x = true := by
  have hx : x ∈ distinctIdentities l := by
    unfold distinctIdentities
    exact List.mem_dedup.mpr h
  simpa using hx

theorem capacityInv_create (st : ServerState) (sock genId username : String)
    (userId : Option String) (isPrivate : Bool) (hinv : capacityInv st) :
    capacityInv (createRoom st sock genId username userId isPrivate).1 := by
  intro k room hk
  simp only [createRoom] at hk
  by_cases hkey : k = toUpperJS genId
  · subst hkey
    rw [getEntry_setEntry_self] at hk
    injection hk with hk
    subst hk
    simp [distinctIdentities]
  · rw [getEntry_setEntry_other _ _ _ _ hkey] at hk
    exact hinv k room hk

/-- Lookup after deleting one key from a table with one written entry. -/
theorem capacityInv_del (stR : List (String × Room))
    (hinvR : ∀ k r, getEntry k stR = some r →
      (distinctIdentities r.users).length ≤ r.settings.maxPlayers)
    (rid idX : String) (roomX : Room) (k : String) (room' : Room)
    (hk : getEntry k (delEntry idX (setEntry rid roomX stR)) = some room')
    (hbound : (distinctIdentities roomX.users).length ≤ roomX.settings.maxPlayers) :
    (distinctIdentities room'.users).length ≤ room'.settings.maxPlayers := by
  by_cases hkey : k = idX
  · subst hkey
    rw [getEntry_delEntry_self] at hk
    cases hk
  · rw [getEntry_delEntry_other _ _ _ hkey] at hk
    by_cases hkey2 : k = rid
    · subst hkey2
      rw [getEntry_setEntry_self] at hk
      injection hk with hk
      subst hk
      exact hbound
    · rw [getEntry_setEntry_other _ _ _ _ hkey2] at hk
      exact hinvR k room' hk

/-- Lookup after writing one entry into a table. -/
theorem capacityInv_write (stR : List (String × Room))
    (hinvR : ∀ k r, getEntry k stR = some r →
      (distinctIdentities r.users).length ≤ r.settings.maxPlayers)
    (rid : String) (roomY : Room) (k : String) (room' : Room)
    (hk : getEntry k (setEntry rid roomY stR) = some room')
    (hbound : (distinctIdentities roomY.users).length ≤ roomY.settings.maxPlayers) :
    (distinctIdentities room'.users).length ≤ room'.settings.maxPlayers := by
  by_cases hkey : k = rid
  · subst hkey
    rw [getEntry_setEntry_self] at hk
    injection hk with hk
    subst hk
    exact hbound
  · rw [getEntry_setEntry_other _ _ _ _ hkey] at hk
    exact hinvR k room' hk

theorem distinct_filter_le (room : Room) (sock : String) :
    (distinctIdentities (room.users.filter (fun u => u.id ≠ sock))).length ≤
      (distinctIdentities room.users).length := by
  apply distinct_le_of_identity_subset
  intro x hx
  obtain ⟨u, hu, rfl⟩ := List.mem_map.mp hx
  exact List.mem_map_of_mem memberIdentity (List.mem_of_mem_filter hu)

theorem distinct_promote_eq (h : ChatUser) (hs : List ChatUser) :
    (distinctIdentities ({h with isHost := true} :: hs)).length =
      (distinctIdentities (h :: hs)).length := by
  have hmapeq : ({h with isHost := true} :: hs).map memberIdentity =
      (h :: hs).map memberIdentity := by
    simp [memberIdentity]
  rw [distinct_length_eq_card, distinct_length_eq_card, hmapeq]

theorem capacityInv_disconnect (st : ServerState) (sock : String)
    (hinv : capacityInv st) :
    capacityInv (handleDisconnect st sock).1 := by
  intro k room' hk
  simp only [handleDisconnect] at hk
  cases huser : getEntry sock st.users with
  | none =>
    simp only [huser] at hk
    exact hinv k room' hk
  | some user =>
    simp only [huser] at hk
    cases hrid : user.roomId with
    | none =>
      simp only [hrid] at hk
      exact hinv k room' hk
    | some rid =>
      simp only [hrid] at hk
      cases hroom : getEntry rid st.rooms with
      | none =>
        simp only [hroom] at hk
        exact hinv k room' hk
      | some room =>
        simp only [hroom] at hk
        have hfbound : (distinctIdentities
            (room.users.filter (fun u => u.id ≠ sock))).length ≤
            room.settings.maxPlayers :=
          le_trans (distinct_filter_le room sock) (hinv rid room hroom)
        cases hg : room.game with
        | none =>
          simp only [hg] at hk
          split at hk
          · dsimp only at hk
            exact capacityInv_del st.rooms hinv rid room.id _ k room' hk hfbound
          · split at hk
            · split at hk
              · next head tail hmr =>
                  dsimp only at hk
                  refine capacityInv_write st.rooms hinv rid _ k room' hk ?_
                  dsimp only
                  rw [distinct_promote_eq, ← hmr]
                  exact hfbound
              · dsimp only at hk
                exact capacityInv_write st.rooms hinv rid _ k room' hk hfbound
            · dsimp only at hk
              exact capacityInv_write st.rooms hinv rid _ k room' hk hfbound
        | some g =>
          cases hp : g.gs.players.any (fun p => p.id = sock) with
          | false =>
            simp only [hg, hp] at hk
            rw [if_neg Bool.false_ne_true] at hk
            split at hk
            · dsimp only at hk
              exact capacityInv_del st.rooms hinv rid room.id _ k room' hk hfbound
            · split at hk
              · split at hk
                · next head tail hmr =>
                    dsimp only at hk
                    refine capacityInv_write st.rooms hinv rid _ k room' hk ?_
                    dsimp only
                    rw [distinct_promote_eq, ← hmr]
                    exact hfbound
                · dsimp only at hk
                  exact capacityInv_write st.rooms hinv rid _ k room' hk hfbound
              · dsimp only at hk
                exact capacityInv_write st.rooms hinv rid _ k room' hk hfbound
          | true =>
            cases hgt : g.timer with
            | none =>
              simp only [hg, hp, hgt] at hk
              simp only [if_true] at hk
              split at hk
              · dsimp only at hk
                exact capacityInv_del st.rooms hinv rid room.id _ k room' hk hfbound
              · split at hk
                · split at hk
                  · next head tail hmr =>
                      dsimp only at hk
                      refine capacityInv_write st.rooms hinv rid _ k room' hk ?_
                      dsimp only
                      rw [distinct_promote_eq, ← hmr]
                      exact hfbound
                  · dsimp only at hk
                    exact capacityInv_write st.rooms hinv rid _ k room' hk hfbound
                · dsimp only at hk
                  exact capacityInv_write st.rooms hinv rid _ k room' hk hfbound
            | some t =>
              simp only [hg, hp, hgt] at hk
              simp only [if_true] at hk
              split at hk
              · dsimp only at hk
                exact capacityInv_del st.rooms hinv rid room.id _ k room' hk hfbound
              · split at hk
                · split at hk
                  · next head tail hmr =>
                      dsimp only at hk
                      refine capacityInv_write st.rooms hinv rid _ k room' hk ?_
                      dsimp only
                      rw [distinct_promote_eq, ← hmr]
                      exact hfbound
                  · dsimp only at hk
                    exact capacityInv_write st.rooms hinv rid _ k room' hk hfbound
                · dsimp only at hk
                  exact capacityInv_write st.rooms hinv rid _ k room' hk hfbound

theorem distinct_extend_le {users base : List ChatUser} {newUser : ChatUser}
    (hbase : ∀ x ∈ base.map memberIdentity, x ∈ users.map memberIdentity)
    (hmem : memberIdentity newUser ∈ users.map memberIdentity) :
    (distinctIdentities (base ++ [newUser])).length ≤
      (distinctIdentities users).length := by
  apply distinct_le_of_identity_subset
  intro x hx
  rw [List.map_append] at hx
  rcases List.mem_append.mp hx with h | h
  · exact hbase x h
  · simp only [List.map_cons, List.map_nil, List.mem_singleton] at h
    subst h
    exact hmem

theorem eraseP_identity_subset (l : List ChatUser) (p : ChatUser → Bool) :
    ∀ x ∈ (l.eraseP p).map memberIdentity, x ∈ l.map memberIdentity := by
  intro x hx
  obtain ⟨u, hu, rfl⟩ := List.mem_map.mp hx
  exact List.mem_map_of_mem memberIdentity ((l.eraseP_sublist).mem hu)

theorem joinIdentity_truthy {userId : Option String} (sock : String)
    (h : optTruthy userId = true) :
    joinIdentity sock userId = userId.getD "" := by
  cases userId with
  | none => simp [optTruthy] at h
  | some s =>
    have hs : s ≠ "" := by simpa [optTruthy] using h
    simp [joinIdentity, hs]

theorem memberIdentity_of_userId {old : ChatUser} {s : String}
    (h : old.userId = some s) (hs : s ≠ "") : memberIdentity old = s := by
  simp [memberIdentity, h, hs]

theorem capacityInv_join (st : ServerState) (sock username : String)
    (userId : Option String) (roomId : String)
    (hg : goodJoin st (.join_room sock username userId roomId) = true)
    (hinv : capacityInv st) :
    capacityInv (joinRoom st sock username userId roomId).1 := by
  intro k room' hk
  simp only [joinRoom] at hk
  cases hroom : getEntry (toUpperJS roomId) st.rooms with
  | none =>
    simp only [hroom] at hk
    by_cases hdm : startsWithJS (toUpperJS roomId) "DM_"
    · simp only [hdm, if_true] at hk
      simp only [distinctIdentities, List.map_nil, List.dedup_nil, List.contains,
        List.any_nil, Bool.and_false, Bool.false_or, List.isEmpty_nil,
        List.find?_nil, List.length_nil, List.elem_nil] at hk
      -- the admission check of the empty DM room reduces away
      rw [if_neg (by simp)] at hk
      split at hk <;> (try dsimp only at hk) <;>
        (by_cases hkey : k = toUpperJS roomId
         · subst hkey
           rw [getEntry_setEntry_self] at hk
           injection hk with hk
           subst hk
           simp [distinctIdentities]
         · rw [getEntry_setEntry_other _ _ _ _ hkey,
             getEntry_setEntry_other _ _ _ _ hkey] at hk
           exact hinv k room' hk)
    · simp only [hdm, if_false] at hk
      try dsimp only at hk
      exact hinv k room' hk
  | some room =>
    simp only [hroom] at hk
    simp only [goodJoin, hroom] at hg
    split at hk
    · -- rejected with a capacity error: the state is unchanged
      dsimp only at hk
      exact hinv k room' hk
    · next hcond =>
      have hadm : ((optTruthy userId &&
            (distinctIdentities room.users).contains (userId.getD "")) ||
            room.users.any (fun u => u.id = sock)) = true ∨
          (distinctIdentities room.users).length < room.settings.maxPlayers := by
        by_cases h1 : ((optTruthy userId &&
            (distinctIdentities room.users).contains (userId.getD "")) ||
            room.users.any (fun u => u.id = sock)) = true
        · exact Or.inl h1
        · right
          rw [Bool.not_eq_true] at h1
          by_contra h2
          refine hcond ?_
          rw [h1]
          simp [Nat.le_of_not_lt h2]
      have hmem_of_rejoin : ((optTruthy userId &&
            (distinctIdentities room.users).contains (userId.getD "")) ||
            room.users.any (fun u => u.id = sock)) = true →
          joinIdentity sock userId ∈ room.users.map memberIdentity := by
        intro h1
        simp only [Bool.or_eq_true, Bool.and_eq_true] at h1
        rcases h1 with ⟨hopt, hcont⟩ | h2
        · rw [joinIdentity_truthy sock hopt]
          exact identity_mem_of_contains hcont
        · rw [h2, Bool.not_true, Bool.false_or] at hg
          exact identity_mem_of_contains hg
      split at hk
      · -- truthy userId: the stale record for it may be removed
        next hopt =>
        split at hk
        · next old hfind =>
          dsimp only at hk
          refine capacityInv_write st.rooms hinv (toUpperJS roomId) _ k room' hk ?_
          dsimp only
          have hold_mem : old ∈ room.users := List.mem_of_find?_eq_some hfind
          have hold_uid : old.userId = userId := by
            have := List.find?_some hfind
            simpa using this
          have hidmem : joinIdentity sock userId ∈ room.users.map memberIdentity := by
            cases userId with
            | none => simp [optTruthy] at hopt
            | some s =>
              have hs : s ≠ "" := by simpa [optTruthy] using hopt
              have : memberIdentity old = s := memberIdentity_of_userId hold_uid hs
              simp only [joinIdentity, hs, if_neg hs]
              exact this ▸ List.mem_map_of_mem memberIdentity hold_mem
          refine le_trans (distinct_extend_le (eraseP_identity_subset _ _) ?_)
            (hinv (toUpperJS roomId) room hroom)
          rw [memberIdentity_mk]
          exact hidmem
        · dsimp only at hk
          refine capacityInv_write st.rooms hinv (toUpperJS roomId) _ k room' hk ?_
          dsimp only
          rcases hadm with h1 | h1
          · refine le_trans (distinct_extend_le (fun x hx => hx) ?_)
              (hinv (toUpperJS roomId) room hroom)
            rw [memberIdentity_mk]
            exact hmem_of_rejoin h1
          · calc (distinctIdentities (room.users ++ [_])).length
                ≤ (distinctIdentities room.users).length + 1 := distinct_append_le _ _
              _ ≤ room.settings.maxPlayers := h1
      · -- no truthy userId: nothing is removed
        dsimp only at hk
        refine capacityInv_write st.rooms hinv (toUpperJS roomId) _ k room' hk ?_
        dsimp only
        rcases hadm with h1 | h1
        · refine le_trans (distinct_extend_le (fun x hx => hx) ?_)
            (hinv (toUpperJS roomId) room hroom)
          rw [memberIdentity_mk]
          exact hmem_of_rejoin h1
        · calc (distinctIdentities (room.users ++ [_])).length
              ≤ (distinctIdentities room.users).length + 1 := distinct_append_le _ _
            _ ≤ room.settings.maxPlayers := h1

theorem capacityInv_step (st : ServerState) (e : Event)
    (hm : isMembershipEvent e = true) (hg : goodJoin st e = true)
    (hinv : capacityInv st) : capacityInv (stepEvent st e) := by
  cases e with
  | create_room sock genId username userId isPrivate =>
    exact capacityInv_create st sock genId username userId isPrivate hinv
  | join_room sock username userId roomId =>
    exact capacityInv_join st sock username userId roomId hg hinv
  | disconnect sock => exact capacityInv_disconnect st sock hinv
  | start_game sock roomId gameType players => simp [isMembershipEvent] at hm
  | make_move sock roomId index => simp [isMembershipEvent] at hm
  | morris_move sock roomId position => simp [isMembershipEvent] at hm
  | connect4_move sock roomId column => simp [isMembershipEvent] at hm
  | restart_game sock roomId => simp [isMembershipEvent] at hm
  | end_game sock roomId => simp [isMembershipEvent] at hm
  | timer_fires tid => simp [isMembershipEvent] at hm
  | ai_moves ref => simp [isMembershipEvent] at hm
  | tick => simp [isMembershipEvent] at hm

/-- C1 (amended): for every sequence of create_room, join_room and
disconnect events in which each join_room request issued from a connection
already in the target room carries an identity (its userId when truthy,
else its connection id) already recorded among the room's member
identities, every room of every reachable state keeps its distinct-identity
count within its maxPlayers capacity. The unrestricted claim fails:
c1_counterexample exhibits a trace where a member rejoins under a fresh
userId and pushes a capacity-8 room to nine distinct identities. -/
theorem c1_amended_capacity (evts : List Event)
    (hm : evts.all isMembershipEvent = true)
    (hgood : goodRun initialState evts = true) :
    capacityInv (runEvents evts) := by
  have hinit : capacityInv initialState := by
    intro k room hk
    simp [initialState, getEntry] at hk
  suffices h : ∀ (evts2 : List Event) (st : ServerState), capacityInv st →
      evts2.all isMembershipEvent = true → goodRun st evts2 = true →
      capacityInv (evts2.foldl stepEvent st) from
    h evts initialState hinit hm hgood
  intro evts2
  induction evts2 with
  | nil =>
    intro st hst _ _
    simpa using hst
  | cons e es ih =>
    intro st hst hall hrun
    simp only [List.all_cons, Bool.and_eq_true] at hall
    simp only [goodRun, Bool.and_eq_true] at hrun
    exact ih (stepEvent st e) (capacityInv_step st e hall.1 hrun.1 hst) hall.2 hrun.2

/-- Witness for the amended C1 on a concrete identity-consistent trace
(a create, a join, a device-switch rejoin under the same userId, and a
disconnect). -/
theorem c1_amended_capacity_witness :
    capacityInv (runEvents c1WitnessTrace) :=
  c1_amended_capacity c1WitnessTrace (by decide) (by decide)

/-! ## C2: timer bookkeeping lemmas -/

theorem getEntry_delEntry_some {α : Type} {k j : String} {l : List (String × α)} {v : α}
    (h : getEntry j (delEntry k l) = some v) : getEntry j l = some v := by
  by_cases hj : j = k
  · rw [hj, getEntry_delEntry_self] at h
    exact absurd h (by simp)
  · rwa [getEntry_delEntry_other j k l hj] at h

theorem timerInv_congr (st st2 : ServerState) (hp : st2.pending = st.pending)
    (hr : st2.rooms = st.rooms) (ht : st2.nextTid = st.nextTid)
    (hn : st2.nextRef = st.nextRef) (h : TimerInv st) : TimerInv st2 := by
  refine ⟨?_, ?_, ?_, ?_, ?_, ?_, ?_⟩ <;> simp only [hp, hr, ht, hn] <;> first
    | exact h.tidFresh
    | exact h.pendRefFresh
    | exact h.roomRefFresh
    | exact h.gameTidFresh
    | exact h.refInj
    | exact h.link
    | exact h.uniq

theorem timerInv_filterPending (st : ServerState) (p : PendingTimer → Bool)
    (st2 : ServerState) (hp : st2.pending = st.pending.filter p)
    (hr : st2.rooms = st.rooms) (ht : st2.nextTid = st.nextTid)
    (hn : st2.nextRef = st.nextRef) (h : TimerInv st) : TimerInv st2 := by
  have hmem : ∀ e ∈ st2.pending, e ∈ st.pending := by
    intro e he
    rw [hp] at he
    exact List.mem_of_mem_filter he
  refine ⟨?_, ?_, ?_, ?_, ?_, ?_, ?_⟩
  · intro e he
    rw [ht]
    exact h.tidFresh e (hmem e he)
  · intro e he
    rw [hn]
    exact h.pendRefFresh e (hmem e he)
  · intro k room hk
    rw [hn]
    exact h.roomRefFresh k room (hr ▸ hk)
  · intro k room g t hk hg htm
    rw [ht]
    exact h.gameTidFresh k room g t (hr ▸ hk) hg htm
  · intro k₁ room₁ k₂ room₂ h₁ h₂ he
    exact h.refInj k₁ room₁ k₂ room₂ (hr ▸ h₁) (hr ▸ h₂) he
  · intro e he k room hk href
    exact h.link e (hmem e he) k room (hr ▸ hk) href
  · intro e₁ h₁ e₂ h₂ he
    exact h.uniq e₁ (hmem e₁ h₁) e₂ (hmem e₂ h₂) he

theorem timerInv_delRoom (st : ServerState) (k : String) (st2 : ServerState)
    (hp : st2.pending = st.pending) (hr : st2.rooms = delEntry k st.rooms)
    (ht : st2.nextTid = st.nextTid) (hn : st2.nextRef = st.nextRef)
    (h : TimerInv st) : TimerInv st2 := by
  have hget : ∀ j (room : Room), getEntry j st2.rooms = some room →
      getEntry j st.rooms = some room := by
    intro j room hj
    rw [hr] at hj
    exact getEntry_delEntry_some hj
  refine ⟨?_, ?_, ?_, ?_, ?_, ?_, ?_⟩
  · intro e he
    rw [ht]
    exact h.tidFresh e (hp ▸ he)
  · intro e he
    rw [hn]
    exact h.pendRefFresh e (hp ▸ he)
  · intro j room hj
    rw [hn]
    exact h.roomRefFresh j room (hget j room hj)
  · intro j room g t hj hg htm
    rw [ht]
    exact h.gameTidFresh j room g t (hget j room hj) hg htm
  · intro k₁ room₁ k₂ room₂ h₁ h₂ he
    exact h.refInj k₁ room₁ k₂ room₂ (hget k₁ room₁ h₁) (hget k₂ room₂ h₂) he
  · intro e he j room hj href
    exact h.link e (hp ▸ he) j room (hget j room hj) href
  · intro e₁ h₁ e₂ h₂ he
    exact h.uniq e₁ (hp ▸ h₁) e₂ (hp ▸ h₂) he

theorem timerInv_createRoom (st : ServerState) (k : String) (newRoom : Room)
    (st2 : ServerState) (href : newRoom.ref = st.nextRef) (hgame : newRoom.game = none)
    (hp : st2.pending = st.pending) (hr : st2.rooms = setEntry k newRoom st.rooms)
    (ht : st2.nextTid = st.nextTid) (hn : st2.nextRef = st.nextRef + 1)
    (h : TimerInv st) : TimerInv st2 := by
  have hget : ∀ j (room : Room), getEntry j st2.rooms = some room →
      (j = k ∧ newRoom = room) ∨ (j ≠ k ∧ getEntry j st.rooms = some room) := by
    intro j room hj
    rw [hr] at hj
    by_cases hjk : j = k
    · subst hjk
      rw [getEntry_setEntry_self] at hj
      injection hj with hj
      exact Or.inl ⟨rfl, hj⟩
    · rw [getEntry_setEntry_other j k newRoom st.rooms hjk] at hj
      exact Or.inr ⟨hjk, hj⟩
  refine ⟨?_, ?_, ?_, ?_, ?_, ?_, ?_⟩
  · intro e he
    rw [ht]
    exact h.tidFresh e (hp ▸ he)
  · intro e he
    rw [hn]
    exact Nat.lt_succ_of_lt (h.pendRefFresh e (hp ▸ he))
  · intro j room hj
    rw [hn]
    rcases hget j room hj with ⟨_, hroom⟩ | ⟨_, hj2⟩
    · rw [← hroom, href]
      exact Nat.lt_succ_self _
    · exact Nat.lt_succ_of_lt (h.roomRefFresh j room hj2)
  · intro j room g t hj hg htm
    rcases hget j room hj with ⟨_, hroom⟩ | ⟨_, hj2⟩
    · rw [← hroom, hgame] at hg
      exact absurd hg (by simp)
    · rw [ht]
      exact h.gameTidFresh j room g t hj2 hg htm
  · intro k₁ room₁ k₂ room₂ h₁ h₂ he
    rcases hget k₁ room₁ h₁ with ⟨hk1, hr1⟩ | ⟨hk1, h1s⟩ <;>
      rcases hget k₂ room₂ h₂ with ⟨hk2, hr2⟩ | ⟨hk2, h2s⟩
    · rw [hk1, hk2]
    · have hx : room₂.ref = st.nextRef := by rw [← he, ← hr1, href]
      exact absurd (h.roomRefFresh k₂ room₂ h2s) (by rw [hx]; exact Nat.lt_irrefl _)
    · have hx : room₁.ref = st.nextRef := by rw [he, ← hr2, href]
      exact absurd (h.roomRefFresh k₁ room₁ h1s) (by rw [hx]; exact Nat.lt_irrefl _)
    · exact h.refInj k₁ room₁ k₂ room₂ h1s h2s he
  · intro e he j room hj href2
    rcases hget j room hj with ⟨_, hroom⟩ | ⟨_, hj2⟩
    · have hx : e.ref = st.nextRef := by rw [← href2, ← hroom, href]
      exact absurd (h.pendRefFresh e (hp ▸ he)) (by rw [hx]; exact Nat.lt_irrefl _)
    · exact h.link e (hp ▸ he) j room hj2 href2
  · simp only [hp]
    exact h.uniq

theorem midInv_start (st : ServerState) (k : String) (room : Room)
    (hk : getEntry k st.rooms = some room) (h : TimerInv st) :
    MidInv st k room st room.game := by
  refine ⟨rfl, rfl, Nat.le_refl _, h.roomRefFresh k room hk, h.tidFresh, h.pendRefFresh,
    ?_, ?_, ?_, h.uniq⟩
  · intro e he _ j room2 hj href
    exact h.link e he j room2 hj href
  · intro e he href
    exact h.link e he k room hk href.symm
  · intro t htm
    cases hg : room.game with
    | none =>
      rw [hg] at htm
      exact absurd htm (by simp)
    | some g =>
      rw [hg, Option.map_some'] at htm
      injection htm with htm
      exact h.gameTidFresh k room g t hk hg htm

theorem midInv_retarget (st0 : ServerState) (k : String) (room : Room)
    (st1 : ServerState) (og og2 : Option Game)
    (h : MidInv st0 k room st1 og)
    (hnone : ∀ e ∈ st1.pending, e.ref ≠ room.ref)
    (hfresh : ∀ t, og2.map Game.timer = some (some t) → t < st1.nextTid) :
    MidInv st0 k room st1 og2 := by
  refine ⟨h.mRoomsEq, h.mNextRefEq, h.mNextTidLe, h.mRoomRefBound, h.mTidFresh, h.mRefFresh,
    h.mLinkOther, ?_, hfresh, h.mUniq⟩
  intro e he href
  exact absurd href (hnone e he)

theorem midInv_timerCongr (st0 : ServerState) (k : String) (room : Room)
    (st1 : ServerState) (og og2 : Option Game)
    (hg : og2.map Game.timer = og.map Game.timer)
    (h : MidInv st0 k room st1 og) : MidInv st0 k room st1 og2 := by
  refine ⟨h.mRoomsEq, h.mNextRefEq, h.mNextTidLe, h.mRoomRefBound, h.mTidFresh, h.mRefFresh,
    h.mLinkOther, ?_, ?_, h.mUniq⟩
  · intro e he href
    obtain ⟨h1, h2⟩ := h.mLinkSelf e he href
    exact ⟨h1, by rw [hg]; exact h2⟩
  · intro t htm
    rw [hg] at htm
    exact h.mOgFresh t htm

theorem midInv_filterPending (st0 : ServerState) (k : String) (room : Room)
    (st1 : ServerState) (og : Option Game) (p : PendingTimer → Bool) (st2 : ServerState)
    (hp : st2.pending = st1.pending.filter p) (hr : st2.rooms = st1.rooms)
    (ht : st2.nextTid = st1.nextTid) (hn : st2.nextRef = st1.nextRef)
    (h : MidInv st0 k room st1 og) : MidInv st0 k room st2 og := by
  have hmem : ∀ e ∈ st2.pending, e ∈ st1.pending := by
    intro e he
    rw [hp] at he
    exact List.mem_of_mem_filter he
  refine ⟨hr.trans h.mRoomsEq, hn.trans h.mNextRefEq, ?_, ?_, ?_, ?_, ?_, ?_, ?_, ?_⟩
  · rw [ht]
    exact h.mNextTidLe
  · rw [hn]
    exact h.mRoomRefBound
  · intro e he
    rw [ht]
    exact h.mTidFresh e (hmem e he)
  · intro e he
    rw [hn]
    exact h.mRefFresh e (hmem e he)
  · intro e he href j room2 hj hr2
    exact h.mLinkOther e (hmem e he) href j room2 hj hr2
  · intro e he href
    exact h.mLinkSelf e (hmem e he) href
  · intro t htm
    rw [ht]
    exact h.mOgFresh t htm
  · intro e₁ h₁ e₂ h₂ he
    exact h.mUniq e₁ (hmem e₁ h₁) e₂ (hmem e₂ h₂) he

theorem midInv_noSelf_of_timerNe (st0 : ServerState) (k : String) (room : Room)
    (st1 : ServerState) (g1 : Game)
    (h : MidInv st0 k room st1 (some g1))
    (e : PendingTimer) (he : e ∈ st1.pending) (hne : g1.timer ≠ some e.tid) :
    e.ref ≠ room.ref := by
  intro href
  obtain ⟨_, hmap⟩ := h.mLinkSelf e he href
  rw [Option.map_some'] at hmap
  injection hmap with hmap
  exact hne hmap

theorem midInv_clearSome (st0 : ServerState) (k : String) (room : Room)
    (st1 : ServerState) (g1 : Game) (t : Nat) (og2 : Option Game) (st2 : ServerState)
    (h : MidInv st0 k room st1 (some g1)) (htm : g1.timer = some t)
    (hfresh : ∀ t2, og2.map Game.timer = some (some t2) → t2 < st1.nextTid)
    (hp : st2.pending = clearTid t st1.pending) (hr : st2.rooms = st1.rooms)
    (htn : st2.nextTid = st1.nextTid) (hn : st2.nextRef = st1.nextRef) :
    MidInv st0 k room st2 og2 := by
  have hfil : MidInv st0 k room st2 (some g1) :=
    midInv_filterPending st0 k room st1 (some g1) (fun e => e.tid ≠ t) st2 hp hr htn hn h
  refine midInv_retarget st0 k room st2 (some g1) og2 hfil ?_ ?_
  · intro e he
    refine midInv_noSelf_of_timerNe st0 k room st2 g1 hfil e he ?_
    rw [htm]
    have he2 := hp ▸ he
    have := (List.mem_filter.mp he2).2
    simp only [ne_eq, decide_not, Bool.not_eq_true', decide_eq_false_iff_not] at this
    intro hcon
    injection hcon with hcon
    exact this hcon.symm
  · intro t2 htm2
    rw [htn]
    exact hfresh t2 htm2

theorem midInv_clearNone (st0 : ServerState) (k : String) (room : Room)
    (st1 : ServerState) (g1 : Game) (og2 : Option Game)
    (h : MidInv st0 k room st1 (some g1)) (htm : g1.timer = none)
    (hfresh : ∀ t2, og2.map Game.timer = some (some t2) → t2 < st1.nextTid) :
    MidInv st0 k room st1 og2 := by
  refine midInv_retarget st0 k room st1 (some g1) og2 h ?_ hfresh
  intro e he
  refine midInv_noSelf_of_timerNe st0 k room st1 g1 h e he ?_
  rw [htm]
  exact fun hcon => Option.noConfusion hcon

theorem midInv_append (st0 : ServerState) (k : String) (room : Room)
    (stc : ServerState) (og : Option Game) (gs2 : GameState) (turn : String)
    (h : MidInv st0 k room stc og)
    (hnone : ∀ e ∈ stc.pending, e.ref ≠ room.ref) :
    MidInv st0 k room
      {stc with
        pending := stc.pending ++
          [{tid := stc.nextTid, roomId := k, ref := room.ref, turnPlayerId := turn}],
        nextTid := stc.nextTid + 1}
      (some {gs := gs2, timer := some stc.nextTid}) := by
  have hmem : ∀ e, e ∈ stc.pending ++
      [({tid := stc.nextTid, roomId := k, ref := room.ref, turnPlayerId := turn} :
        PendingTimer)] →
      e ∈ stc.pending ∨
      e = {tid := stc.nextTid, roomId := k, ref := room.ref, turnPlayerId := turn} := by
    intro e he
    rcases List.mem_append.mp he with h1 | h1
    · exact Or.inl h1
    · exact Or.inr (List.mem_singleton.mp h1)
  refine ⟨h.mRoomsEq, h.mNextRefEq, Nat.le_succ_of_le h.mNextTidLe, h.mRoomRefBound,
    ?_, ?_, ?_, ?_, ?_, ?_⟩
  · intro e he
    rcases hmem e he with h1 | h1
    · exact Nat.lt_succ_of_lt (h.mTidFresh e h1)
    · rw [h1]
      exact Nat.lt_succ_self _
  · intro e he
    rcases hmem e he with h1 | h1
    · exact h.mRefFresh e h1
    · rw [h1]
      exact h.mRoomRefBound
  · intro e he href j room2 hj hr2
    rcases hmem e he with h1 | h1
    · exact h.mLinkOther e h1 href j room2 hj hr2
    · exact absurd (by rw [h1]) href
  · intro e he href
    rcases hmem e he with h1 | h1
    · exact absurd href (hnone e h1)
    · rw [h1]
      exact ⟨rfl, rfl⟩
  · intro t2 htm2
    rw [Option.map_some'] at htm2
    injection htm2 with htm2
    injection htm2 with htm2
    rw [← htm2]
    exact Nat.lt_succ_self _
  · intro e₁ h₁ e₂ h₂ he
    rcases hmem e₁ h₁ with hm1 | hm1 <;> rcases hmem e₂ h₂ with hm2 | hm2
    · exact h.mUniq e₁ hm1 e₂ hm2 he
    · exact absurd (by rw [he, hm2]) (hnone e₁ hm1)
    · exact absurd (by rw [← he, hm1]) (hnone e₂ hm2)
    · rw [hm1, hm2]

theorem midInv_rearm (st0 : ServerState) (k : String) (room : Room)
    (st1 : ServerState) (gIn : Game) (turn : String)
    (h : MidInv st0 k room st1 (some gIn)) :
    MidInv st0 k room (resetGameTimer st1 k room.ref gIn turn).1
      (some (resetGameTimer st1 k room.ref gIn turn).2) := by
  cases htm : gIn.timer with
  | none =>
    have hnone : ∀ e ∈ st1.pending, e.ref ≠ room.ref := by
      intro e he
      refine midInv_noSelf_of_timerNe st0 k room st1 gIn h e he ?_
      rw [htm]
      exact fun hcon => Option.noConfusion hcon
    by_cases hai : turn = "AI"
    · simp only [resetGameTimer, htm]
      rw [if_pos hai]
      exact h
    · simp only [resetGameTimer, htm]
      rw [if_neg hai]
      dsimp only
      exact midInv_append st0 k room st1 (some gIn)
        (gIn.gs.setLastMoveTime st1.clock) turn h hnone
  | some t =>
    have hstc : MidInv st0 k room {st1 with pending := clearTid t st1.pending} (some gIn) :=
      midInv_filterPending st0 k room st1 (some gIn) (fun e => e.tid ≠ t)
        {st1 with pending := clearTid t st1.pending} rfl rfl rfl rfl h
    have hnone : ∀ e ∈ ({st1 with pending := clearTid t st1.pending} :
        ServerState).pending, e.ref ≠ room.ref := by
      intro e he
      refine midInv_noSelf_of_timerNe st0 k room _ gIn hstc e he ?_
      rw [htm]
      have hmf := (List.mem_filter.mp he).2
      simp only [ne_eq, decide_not, Bool.not_eq_true', decide_eq_false_iff_not] at hmf
      intro hcon
      injection hcon with hcon
      exact hmf hcon.symm
    by_cases hai : turn = "AI"
    · simp only [resetGameTimer, htm]
      rw [if_pos hai]
      exact hstc
    · simp only [resetGameTimer, htm]
      rw [if_neg hai]
      dsimp only
      exact midInv_append st0 k room {st1 with pending := clearTid t st1.pending} (some gIn)
        (gIn.gs.setLastMoveTime st1.clock) turn hstc hnone

theorem timerInv_finalWrite (st0 : ServerState) (k : String) (room : Room)
    (st1 : ServerState) (og : Option Game) (newRoom : Room) (st2 : ServerState)
    (hk : getEntry k st0.rooms = some room) (hinv : TimerInv st0)
    (hmid : MidInv st0 k room st1 og)
    (href : newRoom.ref = room.ref) (hgame : newRoom.game = og)
    (hp : st2.pending = st1.pending) (hr : st2.rooms = setEntry k newRoom st1.rooms)
    (ht : st2.nextTid = st1.nextTid) (hn : st2.nextRef = st1.nextRef) :
    TimerInv st2 := by
  have hget : ∀ j (r2 : Room), getEntry j st2.rooms = some r2 →
      (j = k ∧ newRoom = r2) ∨ (j ≠ k ∧ getEntry j st0.rooms = some r2) := by
    intro j r2 hj
    rw [hr] at hj
    by_cases hjk : j = k
    · subst hjk
      rw [getEntry_setEntry_self] at hj
      injection hj with hj
      exact Or.inl ⟨rfl, hj⟩
    · rw [getEntry_setEntry_other j k newRoom st1.rooms hjk, hmid.mRoomsEq] at hj
      exact Or.inr ⟨hjk, hj⟩
  refine ⟨?_, ?_, ?_, ?_, ?_, ?_, ?_⟩
  · intro e he
    rw [ht]
    exact hmid.mTidFresh e (hp ▸ he)
  · intro e he
    rw [hn]
    exact hmid.mRefFresh e (hp ▸ he)
  · intro j r2 hj
    rcases hget j r2 hj with ⟨_, hr2⟩ | ⟨_, hj2⟩
    · rw [hn, ← hr2, href]
      exact hmid.mRoomRefBound
    · rw [hn, hmid.mNextRefEq]
      exact hinv.roomRefFresh j r2 hj2
  · intro j r2 g t hj hg htm
    rcases hget j r2 hj with ⟨_, hr2⟩ | ⟨_, hj2⟩
    · rw [ht]
      refine hmid.mOgFresh t ?_
      rw [← hgame, hr2, hg, Option.map_some', htm]
    · rw [ht]
      exact Nat.lt_of_lt_of_le (hinv.gameTidFresh j r2 g t hj2 hg htm) hmid.mNextTidLe
  · intro k₁ r₁ k₂ r₂ h₁ h₂ he
    rcases hget k₁ r₁ h₁ with ⟨hk1, hr1⟩ | ⟨hk1, h1s⟩ <;>
      rcases hget k₂ r₂ h₂ with ⟨hk2, hr2⟩ | ⟨hk2, h2s⟩
    · rw [hk1, hk2]
    · have hx : room.ref = r₂.ref := by rw [← he, ← hr1, href]
      have hkk := hinv.refInj k room k₂ r₂ hk h2s hx
      rw [hk1, hkk]
    · have hx : room.ref = r₁.ref := by rw [he, ← hr2, href]
      have hkk := hinv.refInj k room k₁ r₁ hk h1s hx
      rw [hk2]
      exact hkk.symm
    · exact hinv.refInj k₁ r₁ k₂ r₂ h1s h2s he
  · intro e he j r2 hj href2
    have he1 : e ∈ st1.pending := hp ▸ he
    rcases hget j r2 hj with ⟨hjk, hr2⟩ | ⟨hjk, hj2⟩
    · have hx : e.ref = room.ref := by rw [← href2, ← hr2, href]
      obtain ⟨hrid, hmap⟩ := hmid.mLinkSelf e he1 hx
      refine ⟨by rw [hrid, hjk], ?_⟩
      rw [← hr2, hgame]
      exact hmap
    · by_cases hxe : e.ref = room.ref
      · have hx : r2.ref = room.ref := by rw [href2, hxe]
        exact absurd (hinv.refInj j r2 k room hj2 hk hx) hjk
      · exact hmid.mLinkOther e he1 hxe j r2 hj2 href2
  · simp only [hp]
    exact hmid.mUniq

theorem midInv_startSome (st : ServerState) (k : String) (room : Room) (g : Game)
    (hk : getEntry k st.rooms = some room) (hg : room.game = some g)
    (h : TimerInv st) : MidInv st k room st (some g) := by
  have hm := midInv_start st k room hk h
  rw [hg] at hm
  exact hm

theorem timerInv_create (st : ServerState) (sock genId username : String)
    (userId : Option String) (isPrivate : Bool) (h : TimerInv st) :
    TimerInv (createRoom st sock genId username userId isPrivate).1 := by
  simp only [createRoom]
  exact timerInv_createRoom st (toUpperJS genId) _ _ rfl rfl rfl rfl rfl rfl h

theorem timerInv_end (st : ServerState) (sock roomId : String) (h : TimerInv st) :
    TimerInv (endGame st sock roomId).1 := by
  simp only [endGame]
  split
  · rename_i room user hroom huser
    split
    · split
      · rename_i og g hg
        split
        · rename_i t htg
          have hs := midInv_startSome st (toUpperJS roomId) room g hroom hg h
          have hmid := midInv_clearSome st (toUpperJS roomId) room st g t none
            {st with pending := clearTid t st.pending} hs htg
            (fun t2 ht2 => absurd ht2 (by simp)) rfl rfl rfl rfl
          exact timerInv_finalWrite st (toUpperJS roomId) room
            {st with pending := clearTid t st.pending} none {room with game := none} _
            hroom h hmid rfl rfl rfl rfl rfl rfl
        · rename_i htg
          have hs := midInv_startSome st (toUpperJS roomId) room g hroom hg h
          have hmid := midInv_clearNone st (toUpperJS roomId) room st g none hs htg
            (fun t2 ht2 => absurd ht2 (by simp))
          exact timerInv_finalWrite st (toUpperJS roomId) room st none
            {room with game := none} _ hroom h hmid rfl rfl rfl rfl rfl rfl
      · exact h
    · exact h
  · exact h

theorem timerInv_fire (st : ServerState) (tid : Nat) (h : TimerInv st) :
    TimerInv (fireTimer st tid).1 := by
  simp only [fireTimer]
  split
  · exact h
  · rename_i e hfind
    split
    · exact timerInv_filterPending st _ _ rfl rfl rfl rfl h
    · rename_i room hroom
      have hroom2 : getEntry e.roomId st.rooms = some room := hroom
      split
      · exact timerInv_filterPending st _ _ rfl rfl rfl rfl h
      · split
        · exact timerInv_filterPending st _ _ rfl rfl rfl rfl h
        · rename_i g hg
          split
          · exact timerInv_filterPending st _ _ rfl rfl rfl rfl h
          · split
            · exact timerInv_filterPending st _ _ rfl rfl rfl rfl h
            · rename_i w hw
              have hs := midInv_startSome st e.roomId room g hroom2 hg h
              have hfil := midInv_filterPending st e.roomId room st (some g)
                (fun x => x.tid ≠ tid) {st with pending := clearTid tid st.pending}
                rfl rfl rfl rfl hs
              have hmid := midInv_timerCongr st e.roomId room
                {st with pending := clearTid tid st.pending} (some g)
                (some {g with gs := (g.gs.setWinner w.id).setWinReason "timeout"}) rfl hfil
              exact timerInv_finalWrite st e.roomId room
                {st with pending := clearTid tid st.pending}
                (some {g with gs := (g.gs.setWinner w.id).setWinReason "timeout"})
                {room with game := some {g with gs := (g.gs.setWinner w.id).setWinReason "timeout"}}
                _ hroom2 h hmid rfl rfl rfl rfl rfl rfl

theorem timerInv_join (st : ServerState) (sock username : String)
    (userId : Option String) (roomId : String) (h : TimerInv st) :
    TimerInv (joinRoom st sock username userId roomId).1 := by
  cases hroom : getEntry (toUpperJS roomId) st.rooms with
  | some room =>
    simp only [joinRoom, hroom]
    split
    · exact h
    · apply timerInv_finalWrite st (toUpperJS roomId) room st room.game _ _ hroom h
        (midInv_start st (toUpperJS roomId) room hroom h)
      on_goal 4 => rfl
      all_goals rfl
  | none =>
    by_cases hdm : startsWithJS (toUpperJS roomId) "DM_" = true
    · simp only [joinRoom, hroom, hdm, if_true]
      have hC : TimerInv {st with
          rooms := setEntry (toUpperJS roomId)
            (dmRoom (toUpperJS roomId) sock st.nextRef) st.rooms,
          nextRef := st.nextRef + 1} :=
        timerInv_createRoom st (toUpperJS roomId) _ _ rfl rfl rfl rfl rfl rfl h
      split
      · exact hC
      · have hmid := midInv_start
          {st with
            rooms := setEntry (toUpperJS roomId) (dmRoom (toUpperJS roomId) sock st.nextRef)
              st.rooms,
            nextRef := st.nextRef + 1}
          (toUpperJS roomId) (dmRoom (toUpperJS roomId) sock st.nextRef)
          (getEntry_setEntry_self _ _ _) hC
        apply timerInv_finalWrite _ _ _ _ _ _ _ (getEntry_setEntry_self _ _ _) hC hmid
        on_goal 4 => rfl
        all_goals rfl
    · have hdm2 : startsWithJS (toUpperJS roomId) "DM_" = false :=
        Bool.not_eq_true _ ▸ eq_false_of_ne_true hdm
      simp only [joinRoom, hroom, hdm2]
      rw [if_neg Bool.false_ne_true]
      exact h

theorem timerInv_finalWriteDel (st0 : ServerState) (k j : String) (room : Room)
    (st1 : ServerState) (og : Option Game) (newRoom : Room) (st2 : ServerState)
    (hk : getEntry k st0.rooms = some room) (hinv : TimerInv st0)
    (hmid : MidInv st0 k room st1 og)
    (href : newRoom.ref = room.ref) (hgame : newRoom.game = og)
    (hp : st2.pending = st1.pending)
    (hr : st2.rooms = delEntry j (setEntry k newRoom st1.rooms))
    (ht : st2.nextTid = st1.nextTid) (hn : st2.nextRef = st1.nextRef) :
    TimerInv st2 := by
  have hW : TimerInv {st1 with rooms := setEntry k newRoom st1.rooms} :=
    timerInv_finalWrite st0 k room st1 og newRoom _ hk hinv hmid href hgame rfl rfl rfl rfl
  exact timerInv_delRoom {st1 with rooms := setEntry k newRoom st1.rooms} j st2
    hp hr ht hn hW

theorem timerInv_disc (st : ServerState) (sock : String) (h : TimerInv st) :
    TimerInv (handleDisconnect st sock).1 := by
  simp only [handleDisconnect]
  split
  · exact timerInv_congr st _ rfl rfl rfl rfl h
  · rename_i user huser
    split
    · exact timerInv_congr st _ rfl rfl rfl rfl h
    · rename_i rid hrid
      split
      · exact timerInv_congr st _ rfl rfl rfl rfl h
      · rename_i room hroom
        cases hg : room.game with
        | some g =>
          simp only [hg]
          cases hany : g.gs.players.any (fun p => p.id = sock) with
          | true =>
            simp only [hany, if_true]
            have hs := midInv_startSome st rid room g hroom hg h
            cases htg : g.timer with
            | some t =>
              simp only [htg]
              have hmid := midInv_clearSome st rid room st g t none
                {st with pending := clearTid t st.pending} hs htg
                (fun t2 ht2 => absurd ht2 (by simp)) rfl rfl rfl rfl
              split
              · apply timerInv_finalWriteDel st rid _ room
                  {st with pending := clearTid t st.pending} none _ _ hroom h hmid
                on_goal 4 => rfl
                all_goals rfl
              · split
                · split
                  · apply timerInv_finalWrite st rid room
                      {st with pending := clearTid t st.pending} none _ _ hroom h hmid
                    on_goal 4 => rfl
                    all_goals rfl
                  · apply timerInv_finalWrite st rid room
                      {st with pending := clearTid t st.pending} none _ _ hroom h hmid
                    on_goal 4 => rfl
                    all_goals rfl
                · apply timerInv_finalWrite st rid room
                    {st with pending := clearTid t st.pending} none _ _ hroom h hmid
                  on_goal 4 => rfl
                  all_goals rfl
            | none =>
              have hmid := midInv_clearNone st rid room st g none hs htg
                (fun t2 ht2 => absurd ht2 (by simp))
              split
              · apply timerInv_finalWriteDel st rid _ room st none _ _ hroom h hmid
                on_goal 4 => rfl
                all_goals rfl
              · split
                · split
                  · apply timerInv_finalWrite st rid room st none _ _ hroom h hmid
                    on_goal 4 => rfl
                    all_goals rfl
                  · apply timerInv_finalWrite st rid room st none _ _ hroom h hmid
                    on_goal 4 => rfl
                    all_goals rfl
                · apply timerInv_finalWrite st rid room st none _ _ hroom h hmid
                  on_goal 4 => rfl
                  all_goals rfl
          | false =>
            rw [if_neg Bool.false_ne_true]
            have hmid := midInv_startSome st rid room g hroom hg h
            split
            · apply timerInv_finalWriteDel st rid _ room st (some g) _ _ hroom h hmid
              on_goal 4 => rfl
              all_goals rfl
            · split
              · split
                · apply timerInv_finalWrite st rid room st (some g) _ _ hroom h hmid
                  on_goal 4 => rfl
                  all_goals rfl
                · apply timerInv_finalWrite st rid room st (some g) _ _ hroom h hmid
                  on_goal 4 => rfl
                  all_goals rfl
              · apply timerInv_finalWrite st rid room st (some g) _ _ hroom h hmid
                on_goal 4 => rfl
                all_goals rfl
        | none =>
          simp only [hg]
          have hmid := midInv_start st rid room hroom h
          rw [hg] at hmid
          split
          · apply timerInv_finalWriteDel st rid _ room st none _ _ hroom h hmid
            on_goal 4 => rfl
            all_goals rfl
          · split
            · split
              · apply timerInv_finalWrite st rid room st none _ _ hroom h hmid
                on_goal 4 => rfl
                all_goals rfl
              · apply timerInv_finalWrite st rid room st none _ _ hroom h hmid
                on_goal 4 => rfl
                all_goals rfl
            · apply timerInv_finalWrite st rid room st none _ _ hroom h hmid
              on_goal 4 => rfl
              all_goals rfl
theorem midInv_regame (st : ServerState) (k : String) (room : Room) (g : Game)
    (gs2 : GameState) (hroom : getEntry k st.rooms = some room)
    (hg : room.game = some g) (h : TimerInv st) :
    MidInv st k room st (some {gs := gs2, timer := g.timer}) :=
  midInv_timerCongr st k room st (some g) _ rfl
    (midInv_startSome st k room g hroom hg h)

theorem midInv_clearKeep (st : ServerState) (k : String) (room : Room) (g : Game)
    (t : Nat) (gs2 : GameState) (hroom : getEntry k st.rooms = some room)
    (hg : room.game = some g) (htg : g.timer = some t) (h : TimerInv st) :
    MidInv st k room {st with pending := clearTid t st.pending}
      (some {gs := gs2, timer := some t}) := by
  refine midInv_clearSome st k room st g t _ _
    (midInv_startSome st k room g hroom hg h) htg ?_ rfl rfl rfl rfl
  intro t2 ht2
  rw [Option.map_some'] at ht2
  injection ht2 with ht2
  injection ht2 with ht2
  rw [← ht2]
  exact h.gameTidFresh k room g t hroom hg htg

theorem midInv_clearSomeNT (st : ServerState) (k : String) (room : Room) (g : Game)
    (t : Nat) (gs2 : GameState) (hroom : getEntry k st.rooms = some room)
    (hg : room.game = some g) (htg : g.timer = some t) (h : TimerInv st) :
    MidInv st k room {st with pending := clearTid t st.pending}
      (some {gs := gs2, timer := none}) := by
  refine midInv_clearSome st k room st g t _ _
    (midInv_startSome st k room g hroom hg h) htg ?_ rfl rfl rfl rfl
  intro t2 ht2
  exact absurd ht2 (by simp)

theorem midInv_noTimerNT (st : ServerState) (k : String) (room : Room) (g : Game)
    (gs2 : GameState) (hroom : getEntry k st.rooms = some room)
    (hg : room.game = some g) (htg : g.timer = none) (h : TimerInv st) :
    MidInv st k room st (some {gs := gs2, timer := none}) := by
  refine midInv_clearNone st k room st g _
    (midInv_startSome st k room g hroom hg h) htg ?_
  intro t2 ht2
  exact absurd ht2 (by simp)

theorem midInv_gameNone (st : ServerState) (k : String) (room : Room)
    (gs2 : GameState) (hroom : getEntry k st.rooms = some room)
    (hg : room.game = none) (h : TimerInv st) :
    MidInv st k room st (some {gs := gs2, timer := none}) := by
  have hm := midInv_start st k room hroom h
  rw [hg] at hm
  refine midInv_retarget st k room st none _ hm ?_ ?_
  · intro e he href
    obtain ⟨_, hmap⟩ := hm.mLinkSelf e he href
    exact absurd hmap (by simp)
  · intro t2 ht2
    exact absurd ht2 (by simp)

theorem midInv_clearCurrent (st0 : ServerState) (k : String) (room : Room)
    (st1 : ServerState) (g1 : Game) (t : Nat) (gs2 : GameState) (st2 : ServerState)
    (hmid : MidInv st0 k room st1 (some g1)) (htg : g1.timer = some t)
    (hp : st2.pending = clearTid t st1.pending) (hr : st2.rooms = st1.rooms)
    (htn : st2.nextTid = st1.nextTid) (hn : st2.nextRef = st1.nextRef) :
    MidInv st0 k room st2 (some {gs := gs2, timer := some t}) := by
  refine midInv_clearSome st0 k room st1 g1 t _ st2 hmid htg ?_ hp hr htn hn
  intro t2 ht2
  rw [Option.map_some'] at ht2
  injection ht2 with ht2
  injection ht2 with ht2
  rw [← ht2]
  refine hmid.mOgFresh t ?_
  rw [Option.map_some', htg]

theorem timerInv_startGame (st : ServerState) (sock roomId gameType : String)
    (players : List Player) (h : TimerInv st) :
    TimerInv (startGame st sock roomId gameType players).1 := by
  simp only [startGame]
  split
  · rename_i room user hroom huser
    split
    · cases hg : room.game with
      | some g =>
        simp only [hg]
        cases htg : g.timer with
        | some t =>
          simp only [htg]
          split
          · split
            · exact timerInv_filterPending st _ _ rfl rfl rfl rfl h
            · apply timerInv_finalWrite st (toUpperJS roomId) room _ _ _ _ hroom h
                (midInv_rearm st (toUpperJS roomId) room _ _ _
                  (midInv_clearSomeNT st (toUpperJS roomId) room g t _ hroom hg htg h))
              on_goal 4 => rfl
              all_goals rfl
          · split
            · split
              · apply timerInv_finalWrite st (toUpperJS roomId) room _ _ _ _ hroom h
                  (midInv_rearm st (toUpperJS roomId) room _ _ _
                    (midInv_clearSomeNT st (toUpperJS roomId) room g t _ hroom hg htg h))
                on_goal 4 => rfl
                all_goals rfl
              · exact timerInv_filterPending st _ _ rfl rfl rfl rfl h
            · split
              · split
                · exact timerInv_filterPending st _ _ rfl rfl rfl rfl h
                · apply timerInv_finalWrite st (toUpperJS roomId) room _ _ _ _ hroom h
                    (midInv_rearm st (toUpperJS roomId) room _ _ _
                      (midInv_clearSomeNT st (toUpperJS roomId) room g t _ hroom hg htg h))
                  on_goal 4 => rfl
                  all_goals rfl
              · exact timerInv_filterPending st _ _ rfl rfl rfl rfl h
        | none =>
          split
          · split
            · exact h
            · apply timerInv_finalWrite st (toUpperJS roomId) room _ _ _ _ hroom h
                (midInv_rearm st (toUpperJS roomId) room _ _ _
                  (midInv_noTimerNT st (toUpperJS roomId) room g _ hroom hg htg h))
              on_goal 4 => rfl
              all_goals rfl
          · split
            · split
              · apply timerInv_finalWrite st (toUpperJS roomId) room _ _ _ _ hroom h
                  (midInv_rearm st (toUpperJS roomId) room _ _ _
                    (midInv_noTimerNT st (toUpperJS roomId) room g _ hroom hg htg h))
                on_goal 4 => rfl
                all_goals rfl
              · exact h
            · split
              · split
                · exact h
                · apply timerInv_finalWrite st (toUpperJS roomId) room _ _ _ _ hroom h
                    (midInv_rearm st (toUpperJS roomId) room _ _ _
                      (midInv_noTimerNT st (toUpperJS roomId) room g _ hroom hg htg h))
                  on_goal 4 => rfl
                  all_goals rfl
              · exact h
      | none =>
        simp only [hg]
        split
        · split
          · exact h
          · apply timerInv_finalWrite st (toUpperJS roomId) room _ _ _ _ hroom h
              (midInv_rearm st (toUpperJS roomId) room _ _ _
                (midInv_gameNone st (toUpperJS roomId) room _ hroom hg h))
            on_goal 4 => rfl
            all_goals rfl
        · split
          · split
            · apply timerInv_finalWrite st (toUpperJS roomId) room _ _ _ _ hroom h
                (midInv_rearm st (toUpperJS roomId) room _ _ _
                  (midInv_gameNone st (toUpperJS roomId) room _ hroom hg h))
              on_goal 4 => rfl
              all_goals rfl
            · exact h
          · split
            · split
              · exact h
              · apply timerInv_finalWrite st (toUpperJS roomId) room _ _ _ _ hroom h
                  (midInv_rearm st (toUpperJS roomId) room _ _ _
                    (midInv_gameNone st (toUpperJS roomId) room _ hroom hg h))
                on_goal 4 => rfl
                all_goals rfl
            · exact h
    · exact h
  · exact h

theorem timerInv_make (st : ServerState) (sock roomId : String) (index : Nat)
    (h : TimerInv st) : TimerInv (makeMove st sock roomId index).1 := by
  simp only [makeMove]
  split
  · exact h
  · rename_i room hroom
    split
    · exact h
    · rename_i g hg
      split
      · exact h
      · split
        · exact h
        · split
          · exact h
          · rename_i ts hgs
            split
            · exact h
            · split
              · exact h
              · rename_i player hplayer
                split
                · cases htg : g.timer with
                  | some t =>
                    simp only [htg]
                    apply timerInv_finalWrite st (toUpperJS roomId) room _ _ _ _ hroom h
                      (midInv_clearKeep st (toUpperJS roomId) room g t _ hroom hg htg h)
                    on_goal 4 => rfl
                    all_goals rfl
                  | none =>
                    apply timerInv_finalWrite st (toUpperJS roomId) room _ _ _ _ hroom h
                      (midInv_noTimerNT st (toUpperJS roomId) room g _ hroom hg htg h)
                    on_goal 4 => rfl
                    all_goals rfl
                · split
                  · cases htg : g.timer with
                    | some t =>
                      simp only [htg]
                      apply timerInv_finalWrite st (toUpperJS roomId) room _ _ _ _ hroom h
                        (midInv_clearKeep st (toUpperJS roomId) room g t _ hroom hg htg h)
                      on_goal 4 => rfl
                      all_goals rfl
                    | none =>
                      apply timerInv_finalWrite st (toUpperJS roomId) room _ _ _ _ hroom h
                        (midInv_noTimerNT st (toUpperJS roomId) room g _ hroom hg htg h)
                      on_goal 4 => rfl
                      all_goals rfl
                  · apply timerInv_finalWrite st (toUpperJS roomId) room _ _ _ _ hroom h
                      (midInv_rearm st (toUpperJS roomId) room _ _ _
                        (midInv_regame st (toUpperJS roomId) room g _ hroom hg h))
                    on_goal 4 => rfl
                    all_goals rfl
          · rename_i ms hgs
            split
            · exact h
            · split
              · exact h
              · rename_i player hplayer
                split
                · cases htg : g.timer with
                  | some t =>
                    simp only [htg]
                    apply timerInv_finalWrite st (toUpperJS roomId) room _ _ _ _ hroom h
                      (midInv_clearKeep st (toUpperJS roomId) room g t _ hroom hg htg h)
                    on_goal 4 => rfl
                    all_goals rfl
                  | none =>
                    apply timerInv_finalWrite st (toUpperJS roomId) room _ _ _ _ hroom h
                      (midInv_noTimerNT st (toUpperJS roomId) room g _ hroom hg htg h)
                    on_goal 4 => rfl
                    all_goals rfl
                · split
                  · cases htg : g.timer with
                    | some t =>
                      simp only [htg]
                      apply timerInv_finalWrite st (toUpperJS roomId) room _ _ _ _ hroom h
                        (midInv_clearKeep st (toUpperJS roomId) room g t _ hroom hg htg h)
                      on_goal 4 => rfl
                      all_goals rfl
                    | none =>
                      apply timerInv_finalWrite st (toUpperJS roomId) room _ _ _ _ hroom h
                        (midInv_noTimerNT st (toUpperJS roomId) room g _ hroom hg htg h)
                      on_goal 4 => rfl
                      all_goals rfl
                  · apply timerInv_finalWrite st (toUpperJS roomId) room _ _ _ _ hroom h
                      (midInv_rearm st (toUpperJS roomId) room _ _ _
                        (midInv_regame st (toUpperJS roomId) room g _ hroom hg h))
                    on_goal 4 => rfl
                    all_goals rfl

theorem timerInv_c4 (st : ServerState) (sock roomId : String) (column : Int)
    (h : TimerInv st) : TimerInv (connect4Move st sock roomId column).1 := by
  simp only [connect4Move]
  split
  · exact h
  · rename_i room hroom
    split
    · exact h
    · rename_i g hg
      split
      · exact h
      · exact h
      · rename_i cs hgs
        split
        · exact h
        · split
          · exact h
          · split
            · exact h
            · split
              · exact h
              · rename_i rowToPlace hrow
                split
                · rename_i winningCells hwin
                  cases htg : g.timer with
                  | some t =>
                    simp only [htg]
                    apply timerInv_finalWrite st (toUpperJS roomId) room _ _ _ _ hroom h
                      (midInv_clearKeep st (toUpperJS roomId) room g t _ hroom hg htg h)
                    on_goal 4 => rfl
                    all_goals rfl
                  | none =>
                    apply timerInv_finalWrite st (toUpperJS roomId) room _ _ _ _ hroom h
                      (midInv_noTimerNT st (toUpperJS roomId) room g _ hroom hg htg h)
                    on_goal 4 => rfl
                    all_goals rfl
                · split
                  · cases htg : g.timer with
                    | some t =>
                      simp only [htg]
                      apply timerInv_finalWrite st (toUpperJS roomId) room _ _ _ _ hroom h
                        (midInv_clearKeep st (toUpperJS roomId) room g t _ hroom hg htg h)
                      on_goal 4 => rfl
                      all_goals rfl
                    | none =>
                      apply timerInv_finalWrite st (toUpperJS roomId) room _ _ _ _ hroom h
                        (midInv_noTimerNT st (toUpperJS roomId) room g _ hroom hg htg h)
                      on_goal 4 => rfl
                      all_goals rfl
                  · split
                    · apply timerInv_finalWrite st (toUpperJS roomId) room _ _ _ _ hroom h
                        (midInv_regame st (toUpperJS roomId) room g _ hroom hg h)
                      on_goal 4 => rfl
                      all_goals rfl
                    · apply timerInv_finalWrite st (toUpperJS roomId) room _ _ _ _ hroom h
                        (midInv_rearm st (toUpperJS roomId) room _ _ _
                          (midInv_regame st (toUpperJS roomId) room g _ hroom hg h))
                      on_goal 4 => rfl
                      all_goals rfl

theorem midInv_congr (st0 : ServerState) (k : String) (room : Room)
    (st1 : ServerState) (og : Option Game) (st2 : ServerState)
    (hp : st2.pending = st1.pending) (hr : st2.rooms = st1.rooms)
    (ht : st2.nextTid = st1.nextTid) (hn : st2.nextRef = st1.nextRef)
    (h : MidInv st0 k room st1 og) : MidInv st0 k room st2 og := by
  refine ⟨hr.trans h.mRoomsEq, hn.trans h.mNextRefEq, ?_, ?_, ?_, ?_, ?_, ?_, ?_, ?_⟩
  · rw [ht]
    exact h.mNextTidLe
  · rw [hn]
    exact h.mRoomRefBound
  · intro e he
    rw [ht]
    exact h.mTidFresh e (hp ▸ he)
  · intro e he
    rw [hn]
    exact h.mRefFresh e (hp ▸ he)
  · intro e he href j room2 hj hr2
    exact h.mLinkOther e (hp ▸ he) href j room2 hj hr2
  · intro e he href
    exact h.mLinkSelf e (hp ▸ he) href
  · intro t htm
    rw [ht]
    exact h.mOgFresh t htm
  · intro e₁ h₁ e₂ h₂ he
    exact h.mUniq e₁ (hp ▸ h₁) e₂ (hp ▸ h₂) he

theorem timerInv_ai (st : ServerState) (ref : Nat) (h : TimerInv st) :
    TimerInv (aiFire st ref).1 := by
  simp only [aiFire]
  split
  · exact h
  · rename_i e hfind
    split
    · exact timerInv_congr st _ rfl rfl rfl rfl h
    · rename_i room hroom
      have hroom2 : getEntry e.roomId st.rooms = some room := hroom
      split
      · exact timerInv_congr st _ rfl rfl rfl rfl h
      · split
        · exact timerInv_congr st _ rfl rfl rfl rfl h
        · rename_i g hg
          split
          · exact timerInv_congr st _ rfl rfl rfl rfl h
          · split
            · exact timerInv_congr st _ rfl rfl rfl rfl h
            · rename_i ts hgs
              split
              · exact timerInv_congr st _ rfl rfl rfl rfl h
              · split
                · cases htg : g.timer with
                  | some t =>
                    simp only [htg]
                    apply timerInv_finalWrite st e.roomId room _ _ _ _ hroom2 h
                      (midInv_clearKeep st e.roomId room g t _ hroom2 hg htg h)
                    on_goal 4 => rfl
                    all_goals rfl
                  | none =>
                    apply timerInv_finalWrite st e.roomId room _ _ _ _ hroom2 h
                      (midInv_noTimerNT st e.roomId room g _ hroom2 hg htg h)
                    on_goal 4 => rfl
                    all_goals rfl
                · split
                  · cases htg : g.timer with
                    | some t =>
                      simp only [htg]
                      apply timerInv_finalWrite st e.roomId room _ _ _ _ hroom2 h
                        (midInv_clearKeep st e.roomId room g t _ hroom2 hg htg h)
                      on_goal 4 => rfl
                      all_goals rfl
                    | none =>
                      apply timerInv_finalWrite st e.roomId room _ _ _ _ hroom2 h
                        (midInv_noTimerNT st e.roomId room g _ hroom2 hg htg h)
                      on_goal 4 => rfl
                      all_goals rfl
                  · apply timerInv_finalWrite st e.roomId room _ _ _ _ hroom2 h
                      (midInv_rearm st e.roomId room _ _ _
                        (midInv_congr st e.roomId room st _
                          {st with pendingAI := st.pendingAI.eraseP (fun x => x.ref = ref)}
                          rfl rfl rfl rfl
                          (midInv_regame st e.roomId room g _ hroom2 hg h)))
                    on_goal 4 => rfl
                    all_goals rfl
            · rename_i ms hgs
              split
              · exact timerInv_congr st _ rfl rfl rfl rfl h
              · split
                · cases htg : g.timer with
                  | some t =>
                    simp only [htg]
                    apply timerInv_finalWrite st e.roomId room _ _ _ _ hroom2 h
                      (midInv_clearKeep st e.roomId room g t _ hroom2 hg htg h)
                    on_goal 4 => rfl
                    all_goals rfl
                  | none =>
                    apply timerInv_finalWrite st e.roomId room _ _ _ _ hroom2 h
                      (midInv_noTimerNT st e.roomId room g _ hroom2 hg htg h)
                    on_goal 4 => rfl
                    all_goals rfl
                · split
                  · cases htg : g.timer with
                    | some t =>
                      simp only [htg]
                      apply timerInv_finalWrite st e.roomId room _ _ _ _ hroom2 h
                        (midInv_clearKeep st e.roomId room g t _ hroom2 hg htg h)
                      on_goal 4 => rfl
                      all_goals rfl
                    | none =>
                      apply timerInv_finalWrite st e.roomId room _ _ _ _ hroom2 h
                        (midInv_noTimerNT st e.roomId room g _ hroom2 hg htg h)
                      on_goal 4 => rfl
                      all_goals rfl
                  · apply timerInv_finalWrite st e.roomId room _ _ _ _ hroom2 h
                      (midInv_rearm st e.roomId room _ _ _
                        (midInv_congr st e.roomId room st _
                          {st with pendingAI := st.pendingAI.eraseP (fun x => x.ref = ref)}
                          rfl rfl rfl rfl
                          (midInv_regame st e.roomId room g _ hroom2 hg h)))
                    on_goal 4 => rfl
                    all_goals rfl
theorem timerInv_restart (st : ServerState) (sock roomId : String) (h : TimerInv st) :
    TimerInv (restartGame st sock roomId).1 := by
  simp only [restartGame]
  split
  · rename_i room user hroom huser
    split
    · exact h
    · rename_i g hg
      split
      · by_cases hlen : room.users.length ≥ 2
        · simp only [if_pos hlen]
          cases htg : g.timer with
          | some t =>
            try simp only [htg]
            split
            · split
              · apply timerInv_finalWrite st (toUpperJS roomId) room _ _ _ _ hroom h
                  (midInv_clearKeep st (toUpperJS roomId) room g t _ hroom hg htg h)
                on_goal 4 => rfl
                all_goals rfl
              · apply timerInv_finalWrite st (toUpperJS roomId) room _ _ _ _ hroom h
                  (midInv_rearm st (toUpperJS roomId) room _ _ _
                    (midInv_clearKeep st (toUpperJS roomId) room g t _ hroom hg htg h))
                on_goal 4 => rfl
                all_goals rfl
            · split
              · apply timerInv_finalWrite st (toUpperJS roomId) room _ _ _ _ hroom h
                  (midInv_rearm st (toUpperJS roomId) room _ _ _
                    (midInv_clearKeep st (toUpperJS roomId) room g t _ hroom hg htg h))
                on_goal 4 => rfl
                all_goals rfl
              · apply timerInv_finalWrite st (toUpperJS roomId) room _ _ _ _ hroom h
                  (midInv_clearKeep st (toUpperJS roomId) room g t _ hroom hg htg h)
                on_goal 4 => rfl
                all_goals rfl
              · apply timerInv_finalWrite st (toUpperJS roomId) room _ _ _ _ hroom h
                  (midInv_clearKeep st (toUpperJS roomId) room g t _ hroom hg htg h)
                on_goal 4 => rfl
                all_goals rfl
            · split
              · apply timerInv_finalWrite st (toUpperJS roomId) room _ _ _ _ hroom h
                  (midInv_clearKeep st (toUpperJS roomId) room g t _ hroom hg htg h)
                on_goal 4 => rfl
                all_goals rfl
              · apply timerInv_finalWrite st (toUpperJS roomId) room _ _ _ _ hroom h
                  (midInv_rearm st (toUpperJS roomId) room _ _ _
                    (midInv_clearKeep st (toUpperJS roomId) room g t _ hroom hg htg h))
                on_goal 4 => rfl
                all_goals rfl
          | none =>
            try simp only [htg]
            split
            · split
              · apply timerInv_finalWrite st (toUpperJS roomId) room _ _ _ _ hroom h
                  (midInv_noTimerNT st (toUpperJS roomId) room g _ hroom hg htg h)
                on_goal 4 => rfl
                all_goals rfl
              · apply timerInv_finalWrite st (toUpperJS roomId) room _ _ _ _ hroom h
                  (midInv_rearm st (toUpperJS roomId) room _ _ _
                    (midInv_noTimerNT st (toUpperJS roomId) room g _ hroom hg htg h))
                on_goal 4 => rfl
                all_goals rfl
            · split
              · apply timerInv_finalWrite st (toUpperJS roomId) room _ _ _ _ hroom h
                  (midInv_rearm st (toUpperJS roomId) room _ _ _
                    (midInv_noTimerNT st (toUpperJS roomId) room g _ hroom hg htg h))
                on_goal 4 => rfl
                all_goals rfl
              · apply timerInv_finalWrite st (toUpperJS roomId) room _ _ _ _ hroom h
                  (midInv_noTimerNT st (toUpperJS roomId) room g _ hroom hg htg h)
                on_goal 4 => rfl
                all_goals rfl
              · apply timerInv_finalWrite st (toUpperJS roomId) room _ _ _ _ hroom h
                  (midInv_noTimerNT st (toUpperJS roomId) room g _ hroom hg htg h)
                on_goal 4 => rfl
                all_goals rfl
            · split
              · apply timerInv_finalWrite st (toUpperJS roomId) room _ _ _ _ hroom h
                  (midInv_noTimerNT st (toUpperJS roomId) room g _ hroom hg htg h)
                on_goal 4 => rfl
                all_goals rfl
              · apply timerInv_finalWrite st (toUpperJS roomId) room _ _ _ _ hroom h
                  (midInv_rearm st (toUpperJS roomId) room _ _ _
                    (midInv_noTimerNT st (toUpperJS roomId) room g _ hroom hg htg h))
                on_goal 4 => rfl
                all_goals rfl
        · simp only [if_neg hlen]
          cases htg : g.timer with
          | some t =>
            try simp only [htg]
            split
            · split
              · apply timerInv_finalWrite st (toUpperJS roomId) room _ _ _ _ hroom h
                  (midInv_clearKeep st (toUpperJS roomId) room g t _ hroom hg htg h)
                on_goal 4 => rfl
                all_goals rfl
              · apply timerInv_finalWrite st (toUpperJS roomId) room _ _ _ _ hroom h
                  (midInv_rearm st (toUpperJS roomId) room _ _ _
                    (midInv_clearKeep st (toUpperJS roomId) room g t _ hroom hg htg h))
                on_goal 4 => rfl
                all_goals rfl
            · split
              · apply timerInv_finalWrite st (toUpperJS roomId) room _ _ _ _ hroom h
                  (midInv_rearm st (toUpperJS roomId) room _ _ _
                    (midInv_clearKeep st (toUpperJS roomId) room g t _ hroom hg htg h))
                on_goal 4 => rfl
                all_goals rfl
              · apply timerInv_finalWrite st (toUpperJS roomId) room _ _ _ _ hroom h
                  (midInv_clearKeep st (toUpperJS roomId) room g t _ hroom hg htg h)
                on_goal 4 => rfl
                all_goals rfl
              · apply timerInv_finalWrite st (toUpperJS roomId) room _ _ _ _ hroom h
                  (midInv_clearKeep st (toUpperJS roomId) room g t _ hroom hg htg h)
                on_goal 4 => rfl
                all_goals rfl
            · split
              · apply timerInv_finalWrite st (toUpperJS roomId) room _ _ _ _ hroom h
                  (midInv_clearKeep st (toUpperJS roomId) room g t _ hroom hg htg h)
                on_goal 4 => rfl
                all_goals rfl
              · apply timerInv_finalWrite st (toUpperJS roomId) room _ _ _ _ hroom h
                  (midInv_rearm st (toUpperJS roomId) room _ _ _
                    (midInv_clearKeep st (toUpperJS roomId) room g t _ hroom hg htg h))
                on_goal 4 => rfl
                all_goals rfl
          | none =>
            try simp only [htg]
            split
            · split
              · apply timerInv_finalWrite st (toUpperJS roomId) room _ _ _ _ hroom h
                  (midInv_noTimerNT st (toUpperJS roomId) room g _ hroom hg htg h)
                on_goal 4 => rfl
                all_goals rfl
              · apply timerInv_finalWrite st (toUpperJS roomId) room _ _ _ _ hroom h
                  (midInv_rearm st (toUpperJS roomId) room _ _ _
                    (midInv_noTimerNT st (toUpperJS roomId) room g _ hroom hg htg h))
                on_goal 4 => rfl
                all_goals rfl
            · split
              · apply timerInv_finalWrite st (toUpperJS roomId) room _ _ _ _ hroom h
                  (midInv_rearm st (toUpperJS roomId) room _ _ _
                    (midInv_noTimerNT st (toUpperJS roomId) room g _ hroom hg htg h))
                on_goal 4 => rfl
                all_goals rfl
              · apply timerInv_finalWrite st (toUpperJS roomId) room _ _ _ _ hroom h
                  (midInv_noTimerNT st (toUpperJS roomId) room g _ hroom hg htg h)
                on_goal 4 => rfl
                all_goals rfl
              · apply timerInv_finalWrite st (toUpperJS roomId) room _ _ _ _ hroom h
                  (midInv_noTimerNT st (toUpperJS roomId) room g _ hroom hg htg h)
                on_goal 4 => rfl
                all_goals rfl
            · split
              · apply timerInv_finalWrite st (toUpperJS roomId) room _ _ _ _ hroom h
                  (midInv_noTimerNT st (toUpperJS roomId) room g _ hroom hg htg h)
                on_goal 4 => rfl
                all_goals rfl
              · apply timerInv_finalWrite st (toUpperJS roomId) room _ _ _ _ hroom h
                  (midInv_rearm st (toUpperJS roomId) room _ _ _
                    (midInv_noTimerNT st (toUpperJS roomId) room g _ hroom hg htg h))
                on_goal 4 => rfl
                all_goals rfl
      · exact h
  · exact h

theorem midInv_noTimerCurrent (st0 : ServerState) (k : String) (room : Room)
    (st1 : ServerState) (g1 : Game) (gs2 : GameState)
    (hmid : MidInv st0 k room st1 (some g1)) (htg : g1.timer = none) :
    MidInv st0 k room st1 (some {gs := gs2, timer := none}) := by
  refine midInv_retarget st0 k room st1 (some g1) _ hmid ?_ ?_
  · intro e he
    refine midInv_noSelf_of_timerNe st0 k room st1 g1 hmid e he ?_
    rw [htg]
    exact fun hcon => Option.noConfusion hcon
  · intro t2 ht2
    exact absurd ht2 (by simp)

theorem midInv_keepCurrent (st0 : ServerState) (k : String) (room : Room)
    (st1 : ServerState) (g1 : Game) (gs2 : GameState)
    (hmid : MidInv st0 k room st1 (some g1)) :
    MidInv st0 k room st1 (some {gs := gs2, timer := g1.timer}) :=
  midInv_timerCongr st0 k room st1 (some g1) _ rfl hmid

theorem midInv_clearCurrentKeep (st0 : ServerState) (k : String) (room : Room)
    (st1 : ServerState) (g1 : Game) (t : Nat) (gs2 : GameState) (st2 : ServerState)
    (hmid : MidInv st0 k room st1 (some g1)) (htg : g1.timer = some t)
    (hp : st2.pending = clearTid t st1.pending) (hr : st2.rooms = st1.rooms)
    (htn : st2.nextTid = st1.nextTid) (hn : st2.nextRef = st1.nextRef) :
    MidInv st0 k room st2 (some {gs := gs2, timer := g1.timer}) := by
  refine midInv_clearSome st0 k room st1 g1 t _ st2 hmid htg ?_ hp hr htn hn
  intro t2 ht2
  rw [Option.map_some', htg] at ht2
  injection ht2 with ht2
  injection ht2 with ht2
  rw [← ht2]
  refine hmid.mOgFresh t ?_
  rw [Option.map_some', htg]

theorem timerInv_morris (st : ServerState) (sock roomId : String) (position : Nat)
    (h : TimerInv st) : TimerInv (morrisMove st sock roomId position).1 := by
  simp only [morrisMove]
  split
  · exact h
  · rename_i room hroom
    split
    · exact h
    · rename_i g hg
      split
      · exact h
      · exact h
      · rename_i ms hgs
        by_cases hw : optTruthy ms.winner = true
        · rw [if_pos hw]
          exact h
        · rw [if_neg hw]
          by_cases htn : ms.turn ≠ sock
          · rw [if_pos htn]
            exact h
          · rw [if_neg htn]
            split
            · exact h
            · rename_i player hplayer
              split
              · exact h
              · rename_i opponent hopp
                have hADV : ∀ (msA : MorrisState) (oppId : String),
                    MidInv st (toUpperJS roomId) room
                      (morrisAdvance st (toUpperJS roomId) room.ref g.timer msA oppId).1
                      (some (morrisAdvance st (toUpperJS roomId) room.ref g.timer msA
                        oppId).2) := by
                  intro msA oppId
                  simp only [morrisAdvance]
                  exact midInv_rearm st (toUpperJS roomId) room st _ oppId
                    (midInv_regame st (toUpperJS roomId) room g _ hroom hg h)
                split
                · exact h
                · rename_i stG hstG
                  have hmidG : MidInv st (toUpperJS roomId) room stG.1 (some stG.2) := by
                    by_cases hph1 : ms.phase = "removing"
                    · rw [if_pos hph1] at hstG
                      injection hstG with hstG
                      by_cases hc1 : (cellAt ms.board position == Cell.vstr opponent.id) = true
                      · rw [if_pos hc1] at hstG
                        by_cases hc2 : (!isInMill ms.board position ||
                            allPiecesInMills ms.board opponent.id) = true
                        · rw [if_pos hc2] at hstG
                          subst hstG
                          exact hADV _ opponent.id
                        · rw [if_neg hc2] at hstG
                          subst hstG
                          exact midInv_startSome st (toUpperJS roomId) room g hroom hg h
                      · rw [if_neg hc1] at hstG
                        subst hstG
                        exact midInv_startSome st (toUpperJS roomId) room g hroom hg h
                    · rw [if_neg hph1] at hstG
                      by_cases hph2 : ms.phase = "placing"
                      · rw [if_pos hph2] at hstG
                        by_cases hocc : (cellAt ms.board position != Cell.vnull) = true
                        · rw [if_pos hocc] at hstG
                          exact absurd hstG (by simp)
                        · rw [if_neg hocc] at hstG
                          injection hstG with hstG
                          by_cases hm1 : checkMill
                              (ms.board.set position (Cell.vstr sock)) position sock = true
                          · rw [if_pos hm1] at hstG
                            by_cases hm2 : hasRemovablePieces
                                (ms.board.set position (Cell.vstr sock)) opponent.id = true
                            · rw [if_pos hm2] at hstG
                              subst hstG
                              exact midInv_regame st (toUpperJS roomId) room g _ hroom hg h
                            · rw [if_neg hm2] at hstG
                              subst hstG
                              exact hADV _ opponent.id
                          · rw [if_neg hm1] at hstG
                            subst hstG
                            exact hADV _ opponent.id
                      · rw [if_neg hph2] at hstG
                        by_cases hph3 : ms.phase = "moving"
                        · rw [if_pos hph3] at hstG
                          injection hstG with hstG
                          cases hsel : ms.selectedPosition with
                          | none =>
                            simp only [hsel] at hstG
                            by_cases hc1 : (cellAt ms.board position ==
                                Cell.vstr sock) = true
                            · rw [if_pos hc1] at hstG
                              subst hstG
                              exact midInv_regame st (toUpperJS roomId) room g _ hroom hg h
                            · rw [if_neg hc1] at hstG
                              subst hstG
                              exact midInv_startSome st (toUpperJS roomId) room g hroom hg h
                          | some sel =>
                            simp only [hsel] at hstG
                            by_cases hc1 : (cellAt ms.board position == Cell.vnull) = true
                            · rw [if_pos hc1] at hstG
                              by_cases hadj : (adjOf sel).contains position = true
                              · rw [if_pos hadj] at hstG
                                by_cases hm1 : checkMill
                                    ((ms.board.set position (Cell.vstr sock)).set sel
                                      Cell.vnull) position sock = true
                                · rw [if_pos hm1] at hstG
                                  by_cases hm2 : hasRemovablePieces
                                      ((ms.board.set position (Cell.vstr sock)).set sel
                                        Cell.vnull) opponent.id = true
                                  · rw [if_pos hm2] at hstG
                                    subst hstG
                                    exact midInv_regame st (toUpperJS roomId) room g _
                                      hroom hg h
                                  · rw [if_neg hm2] at hstG
                                    subst hstG
                                    exact hADV _ opponent.id
                                · rw [if_neg hm1] at hstG
                                  subst hstG
                                  exact hADV _ opponent.id
                              · rw [if_neg hadj] at hstG
                                subst hstG
                                exact midInv_startSome st (toUpperJS roomId) room g hroom
                                  hg h
                            · rw [if_neg hc1] at hstG
                              by_cases hc2 : (cellAt ms.board position ==
                                  Cell.vstr sock) = true
                              · rw [if_pos hc2] at hstG
                                subst hstG
                                exact midInv_regame st (toUpperJS roomId) room g _ hroom
                                  hg h
                              · rw [if_neg hc2] at hstG
                                subst hstG
                                exact midInv_startSome st (toUpperJS roomId) room g hroom
                                  hg h
                        · rw [if_neg hph3] at hstG
                          by_cases hph4 : ms.phase = "flying"
                          · rw [if_pos hph4] at hstG
                            injection hstG with hstG
                            cases hsel : ms.selectedPosition with
                            | none =>
                              simp only [hsel] at hstG
                              by_cases hc1 : (cellAt ms.board position ==
                                  Cell.vstr sock) = true
                              · rw [if_pos hc1] at hstG
                                subst hstG
                                exact midInv_regame st (toUpperJS roomId) room g _ hroom
                                  hg h
                              · rw [if_neg hc1] at hstG
                                subst hstG
                                exact midInv_startSome st (toUpperJS roomId) room g hroom
                                  hg h
                            | some sel =>
                              simp only [hsel] at hstG
                              by_cases hc1 : (cellAt ms.board position == Cell.vnull) = true
                              · rw [if_pos hc1] at hstG
                                by_cases hm1 : checkMill
                                    ((ms.board.set position (Cell.vstr sock)).set sel
                                      Cell.vnull) position sock = true
                                · rw [if_pos hm1] at hstG
                                  by_cases hm2 : hasRemovablePieces
                                      ((ms.board.set position (Cell.vstr sock)).set sel
                                        Cell.vnull) opponent.id = true
                                  · rw [if_pos hm2] at hstG
                                    subst hstG
                                    exact midInv_regame st (toUpperJS roomId) room g _
                                      hroom hg h
                                  · rw [if_neg hm2] at hstG
                                    subst hstG
                                    exact hADV _ opponent.id
                                · rw [if_neg hm1] at hstG
                                  subst hstG
                                  exact hADV _ opponent.id
                              · rw [if_neg hc1] at hstG
                                by_cases hc2 : (cellAt ms.board position ==
                                    Cell.vstr sock) = true
                                · rw [if_pos hc2] at hstG
                                  subst hstG
                                  exact midInv_regame st (toUpperJS roomId) room g _ hroom
                                    hg h
                                · rw [if_neg hc2] at hstG
                                  subst hstG
                                  exact midInv_startSome st (toUpperJS roomId) room g
                                    hroom hg h
                          · rw [if_neg hph4] at hstG
                            injection hstG with hstG
                            subst hstG
                            exact midInv_startSome st (toUpperJS roomId) room g hroom hg h
                  clear hstG hADV
                  split
                  · rename_i ms2 hgs2
                    split
                    · split
                      · split
                        · rename_i t htg1
                          apply timerInv_finalWrite st (toUpperJS roomId) room
                            {stG.1 with pending := clearTid t stG.1.pending} _ _ _ hroom h
                            (midInv_clearCurrentKeep st (toUpperJS roomId) room stG.1
                              stG.2 t _ {stG.1 with pending := clearTid t stG.1.pending}
                              hmidG htg1 rfl rfl rfl rfl)
                          on_goal 4 => rfl
                          all_goals rfl
                        · rename_i htg1
                          apply timerInv_finalWrite st (toUpperJS roomId) room stG.1 _ _ _
                            hroom h
                            (midInv_keepCurrent st (toUpperJS roomId) room stG.1 stG.2 _
                              hmidG)
                          on_goal 4 => rfl
                          all_goals rfl
                      · split
                        · split
                          · rename_i t htg1
                            apply timerInv_finalWrite st (toUpperJS roomId) room
                              {stG.1 with pending := clearTid t stG.1.pending} _ _ _
                              hroom h
                              (midInv_clearCurrentKeep st (toUpperJS roomId) room stG.1
                                stG.2 t _
                                {stG.1 with pending := clearTid t stG.1.pending}
                                hmidG htg1 rfl rfl rfl rfl)
                            on_goal 4 => rfl
                            all_goals rfl
                          · rename_i htg1
                            apply timerInv_finalWrite st (toUpperJS roomId) room stG.1
                              _ _ _ hroom h
                              (midInv_keepCurrent st (toUpperJS roomId) room stG.1 stG.2
                                _ hmidG)
                            on_goal 4 => rfl
                            all_goals rfl
                        · apply timerInv_finalWrite st (toUpperJS roomId) room _ _ _ _
                            hroom h hmidG
                          on_goal 4 => rfl
                          all_goals rfl
                    · apply timerInv_finalWrite st (toUpperJS roomId) room _ _ _ _
                        hroom h hmidG
                      on_goal 4 => rfl
                      all_goals rfl
                  · apply timerInv_finalWrite st (toUpperJS roomId) room _ _ _ _
                      hroom h hmidG
                    on_goal 4 => rfl
                    all_goals rfl
theorem timerInv_step (st : ServerState) (e : Event) (h : TimerInv st) :
    TimerInv (stepEvent st e) := by
  cases e with
  | create_room sock genId username userId isPrivate =>
    exact timerInv_create st sock genId username userId isPrivate h
  | join_room sock username userId roomId =>
    exact timerInv_join st sock username userId roomId h
  | disconnect sock => exact timerInv_disc st sock h
  | start_game sock roomId gameType players =>
    exact timerInv_startGame st sock roomId gameType players h
  | make_move sock roomId index => exact timerInv_make st sock roomId index h
  | morris_move sock roomId position => exact timerInv_morris st sock roomId position h
  | connect4_move sock roomId column => exact timerInv_c4 st sock roomId column h
  | restart_game sock roomId => exact timerInv_restart st sock roomId h
  | end_game sock roomId => exact timerInv_end st sock roomId h
  | timer_fires tid => exact timerInv_fire st tid h
  | ai_moves ref => exact timerInv_ai st ref h
  | tick => exact timerInv_congr st _ rfl rfl rfl rfl h

theorem timerInv_initial : TimerInv initialState := by
  refine ⟨?_, ?_, ?_, ?_, ?_, ?_, ?_⟩ <;> simp [initialState, getEntry]

theorem timerInv_run (evts : List Event) : TimerInv (runEvents evts) := by
  suffices hall : ∀ (l : List Event) (st : ServerState), TimerInv st →
      TimerInv (l.foldl stepEvent st) from hall evts initialState timerInv_initial
  intro l
  induction l with
  | nil =>
    intro st hst
    simpa using hst
  | cons e es ih =>
    intro st hst
    exact ih (stepEvent st e) (timerInv_step st e hst)

theorem find?_clearTid (t : Nat) (l : List PendingTimer) :
    (clearTid t l).find? (fun e => e.tid = t) = none := by
  rw [List.find?_eq_none]
  intro e he
  have hm := (List.mem_filter.mp he).2
  simp only [ne_eq, decide_not, Bool.not_eq_true', decide_eq_false_iff_not] at hm
  simpa using hm

theorem find?_clearTid_append (t : Nat) (l rest : List PendingTimer)
    (hrest : ∀ e ∈ rest, e.tid ≠ t) :
    ((clearTid t l) ++ rest).find? (fun e => e.tid = t) = none := by
  rw [List.find?_eq_none]
  intro e he
  rcases List.mem_append.mp he with h1 | h1
  · have hm := (List.mem_filter.mp h1).2
    simp only [ne_eq, decide_not, Bool.not_eq_true', decide_eq_false_iff_not] at hm
    simpa using hm
  · simpa using hrest e h1

theorem fireTimer_of_none (st : ServerState) (t : Nat)
    (hfind : st.pending.find? (fun e => e.tid = t) = none) :
    fireTimer st t = (st, []) := by
  simp only [fireTimer, hfind]

theorem makeMove_stale (st : ServerState) (sock roomId : String) (index : Nat)
    (room : Room) (g : Game) (t : Nat)
    (hroom : getEntry (toUpperJS roomId) st.rooms = some room)
    (hg : room.game = some g) (htg : g.timer = some t) (hlt : t < st.nextTid)
    (hacc : (makeMove st sock roomId index).2 ≠ []) :
    (makeMove st sock roomId index).1.pending.find? (fun e => e.tid = t) = none := by
  simp only [makeMove, hroom, hg] at hacc ⊢
  by_cases h1 : (optTruthy g.gs.winner || g.gs.draw) = true
  · rw [if_pos h1] at hacc
    exact absurd rfl hacc
  · rw [if_neg h1] at hacc ⊢
    by_cases h2 : g.gs.turn ≠ sock
    · rw [if_pos h2] at hacc
      exact absurd rfl hacc
    · rw [if_neg h2] at hacc ⊢
      cases hgs : g.gs with
      | connect4 cs =>
        simp only [hgs] at hacc
        exact absurd rfl hacc
      | tictactoe ts =>
        simp only [hgs] at hacc ⊢
        by_cases h3 : (cellAt ts.board index != Cell.vnull) = true
        · rw [if_pos h3] at hacc
          exact absurd rfl hacc
        · rw [if_neg h3] at hacc ⊢
          cases hfp : ts.players.find? (fun p => p.id = sock) with
          | none =>
            simp only [hfp] at hacc
            exact absurd rfl hacc
          | some player =>
            simp only [hfp]
            split
            · simp only [htg]
              exact find?_clearTid t st.pending
            · split
              · simp only [htg]
                exact find?_clearTid t st.pending
              · simp only [resetGameTimer, htg]
                split
                · exact find?_clearTid t st.pending
                · refine find?_clearTid_append t st.pending _ ?_
                  intro e2 he2
                  rw [List.mem_singleton.mp he2]
                  intro hc
                  exact Nat.lt_irrefl t (hc ▸ hlt)
      | ninemenmorris ms =>
        simp only [hgs] at hacc ⊢
        by_cases h3 : (cellAt ms.board index != Cell.vnull) = true
        · rw [if_pos h3] at hacc
          exact absurd rfl hacc
        · rw [if_neg h3] at hacc ⊢
          cases hfp : ms.players.find? (fun p => p.id = sock) with
          | none =>
            simp only [hfp] at hacc
            exact absurd rfl hacc
          | some player =>
            simp only [hfp]
            split
            · simp only [htg]
              exact find?_clearTid t st.pending
            · split
              · simp only [htg]
                exact find?_clearTid t st.pending
              · simp only [resetGameTimer, htg]
                split
                · exact find?_clearTid t st.pending
                · refine find?_clearTid_append t st.pending _ ?_
                  intro e2 he2
                  rw [List.mem_singleton.mp he2]
                  intro hc
                  exact Nat.lt_irrefl t (hc ▸ hlt)

/-- C2: timer exclusivity. In every reachable state (runEvents of any event
sequence): (1) no two outstanding timeouts reference the same room object
(the ref nonce standing for JS object identity), so each room has at most
one outstanding turn timer; (2) every outstanding timeout is exactly the
handle recorded in game.timer of the live room it was armed for, so the
timer and the game state never drift apart; and (3) firing the timer handle
t that was armed before an accepted make_move (the move emits, i.e. it
passed every guard) is a no-op: the post-move state is unchanged and
nothing is emitted, because every accepted move clears t and any re-arm
uses the fresh id nextTid > t. -/
theorem c2_timer_exclusivity :
    (∀ evts : List Event, ∀ e₁ ∈ (runEvents evts).pending, ∀ e₂ ∈ (runEvents evts).pending,
        e₁.ref = e₂.ref → e₁ = e₂) ∧
    (∀ evts : List Event, ∀ e ∈ (runEvents evts).pending, ∀ k room,
        getEntry k (runEvents evts).rooms = some room → room.ref = e.ref →
        e.roomId = k ∧ room.game.map Game.timer = some (some e.tid)) ∧
    (∀ (evts : List Event) (sock roomId : String) (index t : Nat),
        gameTimerAt (runEvents evts) (toUpperJS roomId) = some t →
        (makeMove (runEvents evts) sock roomId index).2 ≠ [] →
        handleEvent (stepEvent (runEvents evts) (.make_move sock roomId index))
          (.timer_fires t) =
        (stepEvent (runEvents evts) (.make_move sock roomId index), [])) := by
  refine ⟨fun evts => (timerInv_run evts).uniq, fun evts => (timerInv_run evts).link, ?_⟩
  intro evts sock roomId index t hgt hacc
  unfold gameTimerAt at hgt
  cases hroom : getEntry (toUpperJS roomId) (runEvents evts).rooms with
  | none =>
    simp only [hroom] at hgt
    exact absurd hgt (by simp)
  | some room =>
    simp only [hroom] at hgt
    cases hg : room.game with
    | none =>
      simp only [hg] at hgt
      exact absurd hgt (by simp)
    | some g =>
      simp only [hg] at hgt
      have hlt : t < (runEvents evts).nextTid :=
        (timerInv_run evts).gameTidFresh (toUpperJS roomId) room g t hroom hg hgt
      have hstale := makeMove_stale (runEvents evts) sock roomId index room g t
        hroom hg hgt hlt hacc
      show fireTimer (makeMove (runEvents evts) sock roomId index).1 t = _
      exact fireTimer_of_none _ t hstale

/-- Witness for C2 on a concrete run: a room is created, a tictactoe game is
started (arming the timeout with id 0), the first move is accepted, and
firing the stale handle 0 afterwards changes nothing and emits nothing. -/
theorem c2_timer_exclusivity_witness :
    gameTimerAt (runEvents c2Trace) (toUpperJS "room01") = some 0 ∧
    (makeMove (runEvents c2Trace) "s1" "room01" 0).2 ≠ [] ∧
    handleEvent (stepEvent (runEvents c2Trace) (.make_move "s1" "room01" 0))
      (.timer_fires 0) =
    (stepEvent (runEvents c2Trace) (.make_move "s1" "room01" 0), []) :=
  ⟨by decide, by decide,
   c2_timer_exclusivity.2.2 c2Trace "s1" "room01" 0 0 (by decide) (by decide)⟩

end Chatly
